import Mathlib

/-!
# Image deduplication service: the request handlers

A shallow embedding of `api/process.js` (the `/api/process` handler with its
two in-file embedding helpers), of `apiService.processImages` from
`src/services/api.js` and of `api/images.js` (the `/api/images` handler).

Conventions of the embedding.

* JavaScript values are the trees of `JVal`; numbers are rationals standing
  for the decimal literal (the handlers never compute with the threshold, they
  only pass it on).
* A thrown JavaScript error is the `String` of its `message`.
* Everything outside the two files is a field of `World`: the network
  (`fetch`), the functions imported from `lib/clipProcessor.js` and
  `lib/fallbackProcessor.js`, the wall clock and the built-in number
  formatting.
* Each function returns its result together with the list of outside calls it
  made, in order (`Event`).  Writing diagnostic files and console output is
  not recorded: every such statement sits in its own `try`/`catch` or cannot
  throw, apart from the one log line that indexes the similarity matrix, which
  is modelled.
-/

namespace ImageDedup

/-! ## JavaScript values -/

/-- JavaScript values as they occur in request and response bodies. -/
inductive JVal where
  | undefined
  | null
  | bool (b : Bool)
  | num (q : ℚ)
  | str (s : String)
  | arr (items : List JVal)
  | obj (fields : List (String × JVal))

namespace JVal

/-- JavaScript truthiness, as used by `!x`, `x || y` and `x ? a : b`. -/
def truthy : JVal → Bool
  | undefined => false
  | null => false
  | bool b => b
  | num q => decide (q ≠ 0)
  | str s => decide (s ≠ "")
  | arr _ => true
  | obj _ => true

/-- The values on which a property read throws: `undefined` and `null`. -/
def isNullish : JVal → Bool
  | undefined => true
  | null => true
  | _ => false

/-- `Array.isArray(v)`. -/
def isArray : JVal → Bool
  | arr _ => true
  | _ => false

/-- `v === undefined`. -/
def isUndefined : JVal → Bool
  | undefined => true
  | _ => false

/-- `typeof v === 'object'`: objects, arrays and `null`. -/
def isObjectType : JVal → Bool
  | null => true
  | arr _ => true
  | obj _ => true
  | _ => false

end JVal

/-- `a || b`: the left operand when it is truthy, otherwise the right one. -/
def jsOr (a b : JVal) : JVal := if a.truthy then a else b

/-- The value stored under key `k` in a field list, `undefined` when absent. -/
def lookupField (k : String) : List (String × JVal) → JVal
  | [] => JVal.undefined
  | (k', v) :: rest => if k' = k then v else lookupField k rest

/-- `v?.k` for the string keys the handlers read (`images`, `url`,
`embedding`, ...): the stored field of an object, `undefined` for every other
value. -/
def JVal.prop (v : JVal) (k : String) : JVal :=
  match v with
  | JVal.obj fields => lookupField k fields
  | _ => JVal.undefined

/-- The message of the `TypeError` raised by reading property `k` of
`undefined` or `null`. -/
def readErrorMessage (v : JVal) (k : String) : String :=
  "Cannot read properties of " ++
    (match v with
     | JVal.undefined => "undefined"
     | _ => "null") ++ " (reading '" ++ k ++ "')"

/-- `v.k`: throws on `undefined` and `null`, otherwise as `JVal.prop`. -/
def getProp (v : JVal) (k : String) : Except String JVal :=
  if v.isNullish then Except.error (readErrorMessage v k) else Except.ok (v.prop k)

/-- `o.k = x` on an object: overwrite the field when present, else append. -/
def setField (fields : List (String × JVal)) (k : String) (x : JVal) :
    List (String × JVal) :=
  match fields with
  | [] => [(k, x)]
  | (k', v) :: rest => if k' = k then (k, x) :: rest else (k', v) :: setField rest k x

/-- A natural number as a JavaScript number. -/
def natVal (n : Nat) : JVal := JVal.num (n : ℚ)

/-! ## Strings -/

/-- `s.includes(pat)` on character lists. -/
def includesChars (pat : List Char) : List Char → Bool
  | [] => pat.isEmpty
  | c :: cs => (decide (pat <+: c :: cs)) || includesChars pat cs

/-- `s.includes(pat)`. -/
def includes (s pat : String) : Bool := includesChars pat.data s.data

/-- `s.replace(/\/$/, '')`: drop one trailing slash. -/
def stripTrailingSlash (s : String) : String :=
  if s.data.getLast? = some '/' then String.mk s.data.dropLast else s

/-! ## The outside world -/

/-- One `fetch` call: every call in `process.js` is a JSON `POST`. -/
structure FetchRequest where
  url : String
  headers : List (String × String)
  body : JVal

/-- The response object of a completed `fetch`. `json` is the outcome of
`resp.json()`: the parsed body, or the parser's error message. -/
structure FetchResponse where
  status : Nat
  statusText : String
  text : String
  json : Except String JVal

/-- `resp.ok`: the status is in the range 200 to 299. -/
def FetchResponse.ok (r : FetchResponse) : Bool := decide (200 ≤ r.status ∧ r.status ≤ 299)

/-- A `fetch` either rejects (transport error, with its message) or resolves
with a response. -/
inductive FetchResult where
  | failure (message : String)
  | response (r : FetchResponse)

/-- One image of a cluster as `clusterSimilarImages` returns it. -/
structure ClusterImage where
  id : JVal
  brand : JVal
  url : JVal
  similarity : JVal

/-- One cluster as `clusterSimilarImages` returns it. -/
structure Cluster where
  images : List ClusterImage
  avgSimilarity : JVal

/-- `process.env`, for the three variables the handler reads. -/
structure Env where
  LOCAL_CLIP_URL : Option String
  GOOGLE_API_KEY : Option String
  HUGGINGFACE_API_KEY : Option String

/-- An environment variable as a JavaScript value. -/
def envVal : Option String → JVal
  | none => JVal.undefined
  | some s => JVal.str s

/-- Everything `process.js` calls but does not define.

* `fetch k r`: the outcome of the `k`-th network call of the request
  (counting from 0) when it sends `r`.
* `generateAIEmbeddings`, `computeSimilarityMatrix`, `clusterSimilarImages`
  (imported from `lib/clipProcessor.js`) and `processFallback` (imported from
  `lib/fallbackProcessor.js`): their result, or the message of the error they
  throw.
* `display v`: the string JavaScript puts into a template literal for a
  value that is not a string.
* `toFixed2 q`: `x.toFixed(2)` for the number `x` denoted by `q`.
* `processingTime`, `performance`: the response fields computed from
  `Date.now()`. -/
structure World where
  fetch : Nat → FetchRequest → FetchResult
  generateAIEmbeddings : List JVal → Except String (List JVal)
  computeSimilarityMatrix : List JVal → Except String (List (List JVal))
  clusterSimilarImages : List JVal → List (List JVal) → JVal → Except String (List Cluster)
  processFallback : List JVal → JVal → Except String (List (String × JVal))
  display : JVal → String
  toFixed2 : ℚ → String
  processingTime : JVal
  performance : JVal

/-- The outside calls of one request, in the order they are made. -/
inductive Event where
  | localFetch (r : FetchRequest)
  | gemini (images : List JVal)
  | hfFetch (r : FetchRequest)
  | computeSimilarityMatrix (embeddings : List JVal)
  | clusterSimilarImages (images : List JVal) (matrix : List (List JVal)) (threshold : JVal)
  | processFallback (images : List JVal) (threshold : JVal)

namespace Event

/-- A network call to the local embedding service. -/
def isLocal : Event → Bool
  | localFetch _ => true
  | _ => false

/-- A call of the Gemini embedding function. -/
def isGemini : Event → Bool
  | gemini _ => true
  | _ => false

/-- A network call to the Hugging Face inference API. -/
def isHF : Event → Bool
  | hfFetch _ => true
  | _ => false

/-- A call of `computeSimilarityMatrix`. -/
def isMatrix : Event → Bool
  | computeSimilarityMatrix _ => true
  | _ => false

/-- A call of `clusterSimilarImages`. -/
def isCluster : Event → Bool
  | clusterSimilarImages _ _ _ => true
  | _ => false

/-- A call of `processFallback`. -/
def isFallback : Event → Bool
  | processFallback _ _ => true
  | _ => false

/-- A call to one of the three network embedding backends. -/
def isBackend (e : Event) : Bool := e.isLocal || e.isGemini || e.isHF

end Event

/-- What a handler run ends with: a response (status and the value given to
`res.json`), or an uncaught exception. -/
inductive Outcome where
  | responded (status : Nat) (body : JVal)
  | threw (message : String)

/-- The incoming request, as far as the handler reads it. -/
structure Request where
  method : String
  body : JVal

/-! ## The embedding helpers of `process.js` -/

/-- The expression `i.url || i` applied to one image. -/
def imageInput (i : JVal) : Except String JVal :=
  match getProp i "url" with
  | Except.error e => Except.error e
  | Except.ok u => Except.ok (jsOr u i)

/-- The expression `images.map(i => i.url || i)`: the first image that throws
aborts the map. -/
def imageInputs : List JVal → Except String (List JVal)
  | [] => Except.ok []
  | i :: rest =>
    match imageInput i with
    | Except.error e => Except.error e
    | Except.ok u =>
      match imageInputs rest with
      | Except.error e => Except.error e
      | Except.ok us => Except.ok (u :: us)

/-- The template `${u.replace(/\/$/, '')}/embeddings`, where `name` is the
variable holding `u`: a `TypeError` unless `u` is a string. -/
def embeddingsEndpoint (name : String) (u : JVal) : Except String String :=
  match u with
  | JVal.str s => Except.ok (stripTrailingSlash s ++ "/embeddings")
  | _ => Except.error (name ++ ".replace is not a function")

/-- The request both the preflight and `generateLocalEmbeddings` send. -/
def localRequest (url : String) (inputs : List JVal) : FetchRequest :=
  { url := url
    headers := [("Content-Type", "application/json")]
    body := JVal.obj [("images", JVal.arr inputs)] }

/-- The `map` callback at the end of `generateLocalEmbeddings`. -/
def normalizeLocalVector (vec : JVal) : JVal :=
  if vec.truthy && vec.isObjectType && (vec.prop "embedding").isArray then vec
  else JVal.obj [("embedding", vec)]

/-- The body of `generateLocalEmbeddings` once `localUrl` is bound; `k` is the
number of network calls the request has made before. -/
def localEmbeddings (w : World) (k : Nat) (images : List JVal) (localUrl : JVal) :
    Except String (List JVal) × List Event :=
  if !localUrl.truthy then (Except.error "LOCAL_CLIP_URL not configured", [])
  else
    match imageInputs images with
    | Except.error e => (Except.error e, [])
    | Except.ok inputs =>
      match embeddingsEndpoint "localUrl" localUrl with
      | Except.error e => (Except.error e, [])
      | Except.ok url =>
        let r := localRequest url inputs
        match w.fetch k r with
        | FetchResult.failure msg => (Except.error msg, [Event.localFetch r])
        | FetchResult.response resp =>
          if !resp.ok then
            (Except.error ("Local embedding service error: " ++ toString resp.status ++ " " ++
                resp.statusText ++ " - " ++ resp.text), [Event.localFetch r])
          else
            match resp.json with
            | Except.error e => (Except.error e, [Event.localFetch r])
            | Except.ok json =>
              match getProp json "embeddings" with
              | Except.error e => (Except.error e, [Event.localFetch r])
              | Except.ok (JVal.arr vecs) =>
                (Except.ok (vecs.map normalizeLocalVector), [Event.localFetch r])
              | Except.ok _ =>
                (Except.error "Local embedding service returned invalid payload",
                  [Event.localFetch r])

/-- The function `generateLocalEmbeddings(images, localUrl)`: the parameter
default `localUrl = process.env.LOCAL_CLIP_URL` applies when the argument is
`undefined`. -/
def generateLocalEmbeddings (w : World) (env : Env) (k : Nat) (images : List JVal)
    (localUrl : JVal) : Except String (List JVal) × List Event :=
  localEmbeddings w k images
    (if localUrl.isUndefined then envVal env.LOCAL_CLIP_URL else localUrl)

/-- The endpoint of `generateHFEmbeddings` for its default model. -/
def hfEndpoint : String :=
  "https://api-inference.huggingface.co/pipeline/feature-extraction/" ++
    "openai/clip-vit-base-patch32"

/-- The request `generateHFEmbeddings` sends for one image. -/
def hfRequest (hfKey : String) (input : JVal) : FetchRequest :=
  { url := hfEndpoint
    headers := [("Authorization", "Bearer " ++ hfKey), ("Content-Type", "application/json")]
    body := JVal.obj [("inputs", input)] }

/-- The line `Array.isArray(data) && Array.isArray(data[0]) ? data[0] : data`. -/
def normalizeHFVector (data : JVal) : JVal :=
  match data with
  | JVal.arr (JVal.arr inner :: _) => JVal.arr inner
  | d => d

/-- A value inside a template literal. -/
def templateString (w : World) (v : JVal) : String :=
  match v with
  | JVal.str s => s
  | other => w.display other

/-- The body of the inner `try` of `generateHFEmbeddings` for one image. -/
def hfEmbedOne (w : World) (hfKey : String) (k : Nat) (img : JVal) :
    Except String JVal × List Event :=
  match imageInput img with
  | Except.error e => (Except.error e, [])
  | Except.ok input =>
    let r := hfRequest hfKey input
    match w.fetch k r with
    | FetchResult.failure msg => (Except.error msg, [Event.hfFetch r])
    | FetchResult.response resp =>
      if !resp.ok then
        (Except.error ("HF inference error: " ++ toString resp.status ++ " " ++
            resp.statusText ++ " - " ++ resp.text), [Event.hfFetch r])
      else
        match resp.json with
        | Except.error e => (Except.error e, [Event.hfFetch r])
        | Except.ok data => (Except.ok (normalizeHFVector data), [Event.hfFetch r])

/-- The `for` loop of `generateHFEmbeddings`: `acc` is `embeddings` so far and
`k` the number of network calls made before. -/
def hfLoop (w : World) (hfKey : String) :
    Nat → List JVal → List JVal → Except String (List JVal) × List Event
  | _, [], acc => (Except.ok acc, [])
  | k, img :: rest, acc =>
    match hfEmbedOne w hfKey k img with
    | (Except.error inner, evs) =>
      match imageInput img with
      | Except.error e => (Except.error e, evs)
      | Except.ok shown =>
        (Except.error ("Failed to generate HF embedding for " ++ templateString w shown ++
            ": " ++ inner), evs)
    | (Except.ok vec, evs) =>
      let next := hfLoop w hfKey (k + 1) rest (acc ++ [vec])
      (next.1, evs ++ next.2)

/-- The function `generateHFEmbeddings(images)`. -/
def generateHFEmbeddings (w : World) (env : Env) (k : Nat) (images : List JVal) :
    Except String (List JVal) × List Event :=
  match env.HUGGINGFACE_API_KEY with
  | none => (Except.error "Hugging Face API key not configured", [])
  | some hfKey =>
    if hfKey = "" then (Except.error "Hugging Face API key not configured", [])
    else hfLoop w hfKey k images []

/-! ## The handler of `/api/process` -/

/-- The default of the destructuring `similarityThreshold = 0.88`. -/
def defaultThreshold : JVal := JVal.num 0.88

/-- The destructuring default: it applies exactly when the field is
`undefined`. -/
def thresholdOf (body : JVal) : JVal :=
  if (body.prop "similarityThreshold").isUndefined then defaultThreshold
  else body.prop "similarityThreshold"

/-- The value of `requestLocalUrl || process.env.LOCAL_CLIP_URL`. -/
def effectiveLocalUrl (env : Env) (body : JVal) : JVal :=
  jsOr (jsOr (body.prop "local_clip_url") (body.prop "localClipUrl")) (envVal env.LOCAL_CLIP_URL)

/-- The preflight call to the local service. Whatever it returns or throws is
only logged; the call happens when both of its arguments evaluate. -/
def preflight (images : List JVal) (localUrl : JVal) : List Event :=
  match embeddingsEndpoint "effectiveLocalUrl" localUrl with
  | Except.error _ => []
  | Except.ok url =>
    match imageInputs images with
    | Except.error _ => []
    | Except.ok inputs => [Event.localFetch (localRequest url inputs)]

/-- Step 1 of the handler, the `if`/`else if` chain that fills `embeddings`
and `algorithmUsed`: the embeddings with their label, or the message of the
error thrown into the outer `catch`. -/
def fingerprint (w : World) (env : Env) (body : JVal) (images : List JVal) :
    Except String (List JVal × String) × List Event :=
  if (effectiveLocalUrl env body).truthy then
    let pre := preflight images (effectiveLocalUrl env body)
    match generateLocalEmbeddings w env pre.length images (effectiveLocalUrl env body) with
    | (Except.error e, evs) => (Except.error e, pre ++ evs)
    | (Except.ok embeddings, evs) => (Except.ok (embeddings, "Local-CLIP"), pre ++ evs)
  else if (envVal env.GOOGLE_API_KEY).truthy then
    match w.generateAIEmbeddings images with
    | Except.error e => (Except.error e, [Event.gemini images])
    | Except.ok embeddings => (Except.ok (embeddings, "Gemini-Vision"), [Event.gemini images])
  else if (envVal env.HUGGINGFACE_API_KEY).truthy then
    match generateHFEmbeddings w env 0 images with
    | (Except.error e, evs) => (Except.error e, evs)
    | (Except.ok embeddings, evs) => (Except.ok (embeddings, "HuggingFace"), evs)
  else (Except.error "No embedding backend available", [])

/-- The field `sample0` of `embeddingsDebug`. -/
def embeddingSample (embeddings : List JVal) : JVal :=
  match embeddings with
  | [] => JVal.null
  | e :: _ =>
    if e.truthy then
      match e.prop "embedding" with
      | JVal.arr xs => JVal.arr (xs.take 10)
      | other => other
    else JVal.null

/-- The body of the 500 answer to a throwing `computeSimilarityMatrix`. -/
def similarityFailure (message : String) (embeddings : List JVal) : JVal :=
  JVal.obj
    [("error", JVal.str "Similarity computation failed"),
     ("message", JVal.str message),
     ("embeddingsDebug", JVal.obj
        [("count", natVal embeddings.length), ("sample0", embeddingSample embeddings)])]

/-- The clusters the handler keeps: `cluster.images.length > 1`. -/
def duplicateClusters (clusters : List Cluster) : List Cluster :=
  clusters.filter (fun c => decide (c.images.length > 1))

/-- One image of a returned cluster. -/
def imageEntry (img : ClusterImage) : JVal :=
  JVal.obj
    [("id", img.id), ("brand", img.brand), ("url", img.url),
     ("similarity", jsOr img.similarity JVal.null)]

/-- One returned cluster; `index` is its position among the kept clusters. -/
def clusterEntry (index : Nat) (c : Cluster) : JVal :=
  JVal.obj
    [("id", natVal index),
     ("size", natVal c.images.length),
     ("avgSimilarity", c.avgSimilarity),
     ("images", JVal.arr (c.images.map imageEntry))]

/-- `duplicateClusters.map((cluster, index) => ...)`, starting at `index`. -/
def clusterEntries : Nat → List Cluster → List JVal
  | _, [] => []
  | index, c :: rest => clusterEntry index c :: clusterEntries (index + 1) rest

/-- The sum `reduce((sum, c) => sum + c.images.length, 0)`. -/
def totalSize (cs : List Cluster) : Nat :=
  cs.foldl (fun sum c => sum + c.images.length) 0

/-- The value `Math.max(...cs.map(c => c.images.length), 0)`. -/
def largestSize (cs : List Cluster) : Nat :=
  (cs.map (fun c => c.images.length)).foldl max 0

/-- The field `stats` of the success response. -/
def statsEntry (w : World) (dups : List Cluster) : JVal :=
  JVal.obj
    [("totalClusters", natVal dups.length),
     ("largestCluster", natVal (largestSize dups)),
     ("avgClusterSize",
        if dups.length > 0 then
          JVal.str (w.toFixed2 ((totalSize dups : ℚ) / (dups.length : ℚ)))
        else natVal 0)]

/-- The object `response` of the success path. -/
def successResponse (w : World) (images : List JVal) (threshold : JVal)
    (algorithmUsed : String) (clusters : List Cluster) : JVal :=
  JVal.obj
    [("success", JVal.bool true),
     ("processingTime", w.processingTime),
     ("totalImages", natVal images.length),
     ("duplicateClusters", natVal (duplicateClusters clusters).length),
     ("totalDuplicateImages", natVal (totalSize (duplicateClusters clusters))),
     ("similarityThreshold", threshold),
     ("algorithm", JVal.str algorithmUsed),
     ("performance", w.performance),
     ("results", JVal.obj
        [("clusters", JVal.arr (clusterEntries 0 (duplicateClusters clusters))),
         ("stats", statsEntry w (duplicateClusters clusters))])]

/-- The answer when the fallback failed as well: `message` is the message of
the error caught by the outer `catch`, `fallbackMessage` the one of the error
thrown by `processFallback`. -/
def failureResponse (message fallbackMessage : String) : Nat × JVal :=
  if includes message "timeout" then
    (408, JVal.obj
      [("success", JVal.bool false),
       ("error", JVal.str "Processing timeout - dataset too large for current configuration"),
       ("suggestion", JVal.str "Try processing fewer brands or smaller image sets")])
  else if includes message "API" then
    (502, JVal.obj
      [("success", JVal.bool false),
       ("error", JVal.str "Gemini API error and fallback processing failed"),
       ("details", JVal.str ("Gemini: " ++ message ++ ", Fallback: " ++ fallbackMessage)),
       ("suggestion", JVal.str "Check API key, network connection, and try again")])
  else
    (500, JVal.obj
      [("success", JVal.bool false),
       ("error", JVal.str "All image processing methods failed"),
       ("details", JVal.str ("Gemini: " ++ message ++ ", Fallback: " ++ fallbackMessage)),
       ("suggestion", JVal.str "Check server logs and contact support if issue persists")])

/-- The body of the 200 answer built from the result of `processFallback`. -/
def fallbackResponse (result : List (String × JVal)) (message : String) : JVal :=
  JVal.obj (setField (setField result "usedFallback" (JVal.bool true))
    "fallbackReason" (JVal.str message))

/-- The outer `catch (error)` block: `message` is `error.message` and `trace`
the calls made before the error. -/
def recover (w : World) (images : List JVal) (threshold : JVal) (message : String)
    (trace : List Event) : Outcome × List Event :=
  match w.processFallback images threshold with
  | Except.ok result =>
    (Outcome.responded 200 (fallbackResponse result message),
      trace ++ [Event.processFallback images threshold])
  | Except.error fallbackMessage =>
    (Outcome.responded (failureResponse message fallbackMessage).1
        (failureResponse message fallbackMessage).2,
      trace ++ [Event.processFallback images threshold])

/-- The message of the `TypeError` of `similarityMatrix[0].length` on an
empty matrix. -/
def emptyMatrixMessage : String := readErrorMessage JVal.undefined "length"

/-- Steps 2 and 3 of the outer `try` block, after the embeddings are there. -/
def compare (w : World) (images : List JVal) (threshold : JVal) (embeddings : List JVal)
    (algorithmUsed : String) (trace : List Event) : Outcome × List Event :=
  match w.computeSimilarityMatrix embeddings with
  | Except.error simMessage =>
    (Outcome.responded 500 (similarityFailure simMessage embeddings),
      trace ++ [Event.computeSimilarityMatrix embeddings])
  | Except.ok [] =>
    recover w images threshold emptyMatrixMessage
      (trace ++ [Event.computeSimilarityMatrix embeddings])
  | Except.ok (row :: rows) =>
    match w.clusterSimilarImages images (row :: rows) threshold with
    | Except.error clusterMessage =>
      recover w images threshold clusterMessage
        (trace ++ [Event.computeSimilarityMatrix embeddings,
          Event.clusterSimilarImages images (row :: rows) threshold])
    | Except.ok clusters =>
      (Outcome.responded 200 (successResponse w images threshold algorithmUsed clusters),
        trace ++ [Event.computeSimilarityMatrix embeddings,
          Event.clusterSimilarImages images (row :: rows) threshold])

/-- The outer `try`/`catch` of the handler, entered with a non-empty image
array. -/
def processImagesRequest (w : World) (env : Env) (body : JVal) (images : List JVal) :
    Outcome × List Event :=
  match fingerprint w env body images with
  | (Except.error message, trace) => recover w images (thresholdOf body) message trace
  | (Except.ok (embeddings, algorithmUsed), trace) =>
    compare w images (thresholdOf body) embeddings algorithmUsed trace

/-- The message of the `TypeError` of destructuring an absent body. -/
def destructureMessage (body : JVal) : String :=
  "Cannot destructure property 'images' of 'req.body' as it is " ++
    (match body with
     | JVal.undefined => "undefined."
     | _ => "null.")

/-- The default export of `api/process.js`. -/
def handler (w : World) (env : Env) (req : Request) : Outcome × List Event :=
  if req.method ≠ "POST" then
    (Outcome.responded 405 (JVal.obj [("error", JVal.str "Method not allowed")]), [])
  else if req.body.isNullish then (Outcome.threw (destructureMessage req.body), [])
  else
    match req.body.prop "images" with
    | JVal.arr (i :: rest) => processImagesRequest w env req.body (i :: rest)
    | _ => (Outcome.responded 400 (JVal.obj [("error", JVal.str "Images array required")]), [])

/-! ## The client: `apiService.processImages` -/

/-- The argument of one `onProgress` call. -/
structure Progress where
  stage : String
  completed : Nat
  total : Nat
  batchProgress : String
  comparisons : Option Nat

/-- What `processImages` does to the outside: progress callbacks and the
request to the server. -/
inductive ClientEvent where
  | progress (p : Progress)
  | post (path : String) (body : JVal)

/-- A request to the server. -/
def ClientEvent.isPost : ClientEvent → Bool
  | ClientEvent.post _ _ => true
  | _ => false

/-- The `options` argument: whether an `onProgress` callback is given, and the
`similarityThreshold` field (`undefined` when absent). -/
structure ProcessOptions where
  onProgress : Bool
  similarityThreshold : JVal

/-- The default `options = {}`. -/
def ProcessOptions.empty : ProcessOptions :=
  { onProgress := false, similarityThreshold := JVal.undefined }

/-- The progress calls of the loop `for (let i = 1; i <= progressSteps; i++)`,
from step `i` on, with `fuel` steps left. -/
def batchProgress (n : Nat) : Nat → Nat → List ClientEvent
  | 0, _ => []
  | fuel + 1, i =>
    ClientEvent.progress
      { stage := "embeddings"
        completed := (n * i) / 5
        total := n
        batchProgress := "Processing batch " ++ toString i ++ "/" ++ toString 5 ++ "..."
        comparisons := none } :: batchProgress n fuel (i + 1)

/-- All progress calls made before the request is sent. -/
def progressEvents (n : Nat) : List ClientEvent :=
  [ClientEvent.progress
      { stage := "embeddings", completed := 0, total := n,
        batchProgress := "Initializing CLIP processing...", comparisons := none }] ++
    batchProgress n 5 1 ++
    [ClientEvent.progress
      { stage := "similarity", completed := n, total := n,
        batchProgress := "Computing similarity matrix...", comparisons := some (n ^ 2) },
     ClientEvent.progress
      { stage := "clustering", completed := n, total := n,
        batchProgress := "Clustering similar images...", comparisons := none }]

/-- The body `processImages` posts to `/process`. -/
def processBody (images : JVal) (threshold : JVal) : JVal :=
  JVal.obj
    [("images", images), ("similarityThreshold", threshold),
     ("local_clip_url", JVal.str "http://localhost:8000")]

/-- The `catch` block of `processImages`: the message of the error it
throws for a caught error with message `message`. -/
def clientError (message : String) : String :=
  if includes message "timeout" then
    "Processing timeout - the dataset might be too large. Try processing fewer brands."
  else if includes message "API key" then
    "OpenAI API key not configured. Please check server configuration."
  else message

/-- The method `apiService.processImages(images, options)`. `post` stands for
`api.post` of the configured axios instance: the `data` of the response, or
the message of the rejection. `options` is `none` when the argument is
omitted. -/
def processImages (post : String → JVal → Except String JVal) (images : JVal)
    (options : Option ProcessOptions) : Except String JVal × List ClientEvent :=
  let opts := options.getD ProcessOptions.empty
  let threshold :=
    if opts.similarityThreshold.isUndefined then defaultThreshold else opts.similarityThreshold
  match images with
  | JVal.arr (i :: rest) =>
    let shown := if opts.onProgress then progressEvents (i :: rest).length else []
    match post "/process" (processBody images threshold) with
    | Except.ok data =>
      (Except.ok data, shown ++ [ClientEvent.post "/process" (processBody images threshold)])
    | Except.error message =>
      (Except.error (clientError message),
        shown ++ [ClientEvent.post "/process" (processBody images threshold)])
  | _ => (Except.error (clientError "Images array is required"), [])

/-! ## Backend selection as the specification words it -/

/-- The four fingerprinting strategies of the selection order. -/
inductive Backend where
  | localClip
  | gemini
  | huggingFace
  | noBackend
  deriving DecidableEq

/-- The effective local URL of the specification: `body.local_clip_url`, else
`body.localClipUrl`, else the environment variable `LOCAL_CLIP_URL`; "else"
is JavaScript's `||`, so an absent or empty value is passed over. -/
def specLocalUrl (env : Env) (body : JVal) : Option JVal :=
  if (body.prop "local_clip_url").truthy then some (body.prop "local_clip_url")
  else if (body.prop "localClipUrl").truthy then some (body.prop "localClipUrl")
  else
    match env.LOCAL_CLIP_URL with
    | some s => if s ≠ "" then some (JVal.str s) else none
    | none => none

/-- An environment variable is set: present and not the empty string. -/
def isSet : Option String → Bool
  | some s => decide (s ≠ "")
  | none => false

/-- The selection order of the specification: first match wins. -/
def selectedBackend (env : Env) (body : JVal) : Backend :=
  if (specLocalUrl env body).isSome then Backend.localClip
  else if isSet env.GOOGLE_API_KEY then Backend.gemini
  else if isSet env.HUGGINGFACE_API_KEY then Backend.huggingFace
  else Backend.noBackend

/-- The label of each network backend. -/
def Backend.label : Backend → Option String
  | Backend.localClip => some "Local-CLIP"
  | Backend.gemini => some "Gemini-Vision"
  | Backend.huggingFace => some "HuggingFace"
  | Backend.noBackend => none

/-- The calls that belong to a backend. -/
def Backend.owns : Backend → Event → Bool
  | Backend.localClip, e => e.isLocal
  | Backend.gemini, e => e.isGemini
  | Backend.huggingFace, e => e.isHF
  | Backend.noBackend, _ => false

/-- What a backend returns for the request: the result of its embedding
function. -/
def Backend.result (w : World) (env : Env) (body : JVal) (images : List JVal) :
    Backend → Except String (List JVal)
  | Backend.localClip =>
    (generateLocalEmbeddings w env (preflight images (effectiveLocalUrl env body)).length images
      (effectiveLocalUrl env body)).1
  | Backend.gemini => w.generateAIEmbeddings images
  | Backend.huggingFace => (generateHFEmbeddings w env 0 images).1
  | Backend.noBackend => Except.error "No embedding backend available"

/-- "Every per-image call succeeds", for the calls numbered from `k`: the
image has an input, the call is answered 2xx and the body parses. -/
def hfAllSucceed (w : World) (key : String) (k : Nat) (images : List JVal) : Prop :=
  ∀ j img, images[j]? = some img →
    ∃ input resp data, imageInput img = Except.ok input ∧
      w.fetch (k + j) (hfRequest key input) = FetchResult.response resp ∧
      resp.ok = true ∧ resp.json = Except.ok data

/-! ## Observations on runs and responses -/

/-- The status of a response, 0 when the handler threw. -/
def Outcome.status : Outcome → Nat
  | Outcome.responded status _ => status
  | Outcome.threw _ => 0

/-- The body of a response, `undefined` when the handler threw. -/
def Outcome.body : Outcome → JVal
  | Outcome.responded _ body => body
  | Outcome.threw _ => JVal.undefined

/-- The thresholds handed to `clusterSimilarImages` and `processFallback`
during a run, in call order. -/
def thresholdsUsed : List Event → List JVal
  | [] => []
  | Event.clusterSimilarImages _ _ t :: rest => t :: thresholdsUsed rest
  | Event.processFallback _ t :: rest => t :: thresholdsUsed rest
  | _ :: rest => thresholdsUsed rest

/-- A number strictly between 0 and 1. -/
def inUnitInterval : JVal → Bool
  | JVal.num q => decide (0 < q ∧ q < 1)
  | _ => false

/-- Some top-level string field of the body contains `text`. -/
def carries (body : JVal) (text : String) : Bool :=
  match body with
  | JVal.obj fields =>
    fields.any (fun kv =>
      match kv.2 with
      | JVal.str s => includes s text
      | _ => false)
  | _ => false

/-- The requests sent to the server during a client call: path and body. -/
def postsOf : List ClientEvent → List (String × JVal)
  | [] => []
  | ClientEvent.post path body :: rest => (path, body) :: postsOf rest
  | ClientEvent.progress _ :: rest => postsOf rest

/-- The embedding lists handed to `computeSimilarityMatrix` during a run, in
call order. -/
def matrixInputs : List Event → List (List JVal)
  | [] => []
  | Event.computeSimilarityMatrix embeddings :: rest => embeddings :: matrixInputs rest
  | _ :: rest => matrixInputs rest

/-- The image lists and matrices handed to `clusterSimilarImages` during a
run, in call order. -/
def clusterInputs : List Event → List (List JVal × List (List JVal))
  | [] => []
  | Event.clusterSimilarImages images matrix _ :: rest => (images, matrix) :: clusterInputs rest
  | _ :: rest => clusterInputs rest

/-- A record with an `embedding` field. -/
def hasEmbeddingField : JVal → Bool
  | JVal.obj fields => fields.any (fun kv => decide (kv.1 = "embedding"))
  | _ => false

/-- An entry of the transport contract: a vector (an array), or a record
whose `embedding` is one. -/
def isVectorEntry : JVal → Bool
  | JVal.arr _ => true
  | JVal.obj fields => (lookupField "embedding" fields).isArray
  | _ => false

/-! ## Sample requests and worlds -/

/-- Two images as the images endpoint returns them. -/
def sampleImages : List JVal :=
  [JVal.obj [("id", JVal.str "nike-0"), ("brand", JVal.str "nike"),
      ("url", JVal.str "http://img/a.jpg"), ("originalIndex", natVal 0)],
   JVal.obj [("id", JVal.str "puma-0"), ("brand", JVal.str "puma"),
      ("url", JVal.str "http://img/b.jpg"), ("originalIndex", natVal 0)]]

/-- A `POST` carrying the sample images and the given further fields. -/
def sampleRequest (extra : List (String × JVal)) : Request :=
  { method := "POST", body := JVal.obj (("images", JVal.arr sampleImages) :: extra) }

/-- No backend configured. -/
def bareEnv : Env :=
  { LOCAL_CLIP_URL := none, GOOGLE_API_KEY := none, HUGGINGFACE_API_KEY := none }

/-- Every backend configured. -/
def fullEnv : Env :=
  { LOCAL_CLIP_URL := some "http://clip:8000/", GOOGLE_API_KEY := some "g-key",
    HUGGINGFACE_API_KEY := some "hf-key" }

/-- What the sample fallback returns. -/
def sampleFallbackResult : List (String × JVal) :=
  [("success", JVal.bool true), ("algorithm", JVal.str "PerceptualHash"),
   ("results", JVal.obj [("clusters", JVal.arr [])])]

/-- Two embeddings in the shape of the local service. -/
def sampleEmbeddings : List JVal :=
  [JVal.arr [JVal.num 1, JVal.num 0], JVal.arr [JVal.num 1, JVal.num 0]]

/-- A world in which the network is down and the fallback works. -/
def offlineWorld : World :=
  { fetch := fun _ _ => FetchResult.failure "connect ECONNREFUSED"
    generateAIEmbeddings := fun _ => Except.error "Gemini unreachable"
    computeSimilarityMatrix := fun _ => Except.ok [[JVal.num 1, JVal.num 1], [JVal.num 1, JVal.num 1]]
    clusterSimilarImages := fun _ _ _ => Except.ok []
    processFallback := fun _ _ => Except.ok sampleFallbackResult
    display := fun _ => "[object Object]"
    toFixed2 := fun _ => "2.00"
    processingTime := natVal 12
    performance := JVal.obj [] }

/-- A world in which every network call answers with two embeddings. -/
def onlineWorld : World :=
  { offlineWorld with
    fetch := fun _ _ => FetchResult.response
      { status := 200, statusText := "OK", text := "",
        json := Except.ok (JVal.obj [("embeddings", JVal.arr sampleEmbeddings)]) }
    generateAIEmbeddings := fun _ => Except.ok sampleEmbeddings }

/-- The sample worlds with a network that fails with `message` and a fallback
that fails with `fallbackMessage`. -/
def brokenWorld (message fallbackMessage : String) : World :=
  { offlineWorld with
    fetch := fun _ _ => FetchResult.failure message
    processFallback := fun _ _ => Except.error fallbackMessage }

/-- A world in which the embeddings arrive and `computeSimilarityMatrix`
throws. -/
def mismatchWorld : World :=
  { onlineWorld with
    computeSimilarityMatrix := fun _ => Except.error "Embedding dimension mismatch" }

/-- A world in which the embeddings and the matrix arrive and
`clusterSimilarImages` throws. -/
def clusterFailWorld : World :=
  { onlineWorld with
    clusterSimilarImages := fun _ _ _ => Except.error "Invalid similarity matrix" }

/-- The matrix every sample world computes. -/
def sampleMatrix : List (List JVal) :=
  [[JVal.num 1, JVal.num 1], [JVal.num 1, JVal.num 1]]

/-- The request the sample handler sends to the local service. -/
def sampleLocalFetch : Event :=
  Event.localFetch (localRequest "http://clip:8000/embeddings"
    [JVal.str "http://img/a.jpg", JVal.str "http://img/b.jpg"])

/-- Three images; the first two show the same picture. -/
def tripleImages : List JVal :=
  [JVal.obj [("id", JVal.str "nike-0"), ("brand", JVal.str "nike"),
      ("url", JVal.str "http://img/a.jpg"), ("originalIndex", natVal 0)],
   JVal.obj [("id", JVal.str "puma-0"), ("brand", JVal.str "puma"),
      ("url", JVal.str "http://img/b.jpg"), ("originalIndex", natVal 0)],
   JVal.obj [("id", JVal.str "puma-1"), ("brand", JVal.str "puma"),
      ("url", JVal.str "http://img/c.jpg"), ("originalIndex", natVal 1)]]

/-- A `POST` carrying the three images and the given further fields. -/
def tripleRequest (extra : List (String × JVal)) : Request :=
  { method := "POST", body := JVal.obj (("images", JVal.arr tripleImages) :: extra) }

/-- The three images as members of a cluster, with the given similarities. -/
def tripleMembers (s0 s1 s2 : JVal) : List ClusterImage :=
  [{ id := JVal.str "nike-0", brand := JVal.str "nike", url := JVal.str "http://img/a.jpg",
     similarity := s0 },
   { id := JVal.str "puma-0", brand := JVal.str "puma", url := JVal.str "http://img/b.jpg",
     similarity := s1 },
   { id := JVal.str "puma-1", brand := JVal.str "puma", url := JVal.str "http://img/c.jpg",
     similarity := s2 }]

/-- A world whose local service answers every call with `embeddings`, whose
matrix computation yields `matrix` and whose clustering yields `clusters`. -/
def localWorld (embeddings : List JVal) (matrix : List (List JVal))
    (clusters : List Cluster) : World :=
  { offlineWorld with
    fetch := fun _ _ => FetchResult.response
      { status := 200, statusText := "OK", text := "",
        json := Except.ok (JVal.obj [("embeddings", JVal.arr embeddings)]) }
    computeSimilarityMatrix := fun _ => Except.ok matrix
    clusterSimilarImages := fun _ _ _ => Except.ok clusters }

/-- Three unit-free vectors: the second lies between the first and the
third, which are orthogonal. -/
def tripleEmbeddings : List JVal :=
  [JVal.arr [JVal.num 1, JVal.num 0], JVal.arr [JVal.num 1, JVal.num 1],
   JVal.arr [JVal.num 0, JVal.num 1]]

/-- A symmetric 3 by 3 matrix with unit diagonal. -/
def tripleMatrix (ab bc ac : ℚ) : List (List JVal) :=
  [[JVal.num 1, JVal.num ab, JVal.num ac],
   [JVal.num ab, JVal.num 1, JVal.num bc],
   [JVal.num ac, JVal.num bc, JVal.num 1]]

/-- The engine's answer when the first two images are duplicates and the
third stands alone. -/
def pairClusters : List Cluster :=
  [{ images := (tripleMembers JVal.undefined (JVal.num 0.95) JVal.undefined).take 2,
     avgSimilarity := JVal.num 0.95 },
   { images := (tripleMembers JVal.undefined (JVal.num 0.95) JVal.undefined).drop 2,
     avgSimilarity := JVal.num 1 }]

/-- A world in which the first two of the three images are duplicates. -/
def pairWorld : World :=
  localWorld tripleEmbeddings (tripleMatrix 0.95 0.2 0.2) pairClusters

/-- The engine's answer when the three images are grouped through the middle
one and the third has similarity 0 to the first, the reference member. -/
def chainClusters : List Cluster :=
  [{ images := tripleMembers JVal.undefined (JVal.num 0.7071) (JVal.num 0),
     avgSimilarity := JVal.num 0.4714 }]

/-- A world in which the three images form one cluster by transitivity. -/
def chainWorld : World :=
  localWorld tripleEmbeddings (tripleMatrix 0.7071 0.7071 0) chainClusters

/-- Only the Hugging Face key is configured. -/
def hfEnv : Env :=
  { LOCAL_CLIP_URL := none, GOOGLE_API_KEY := none, HUGGINGFACE_API_KEY := some "hf-key" }

/-- A flat vector as the inference API returns it. -/
def flatVector : JVal := JVal.arr [JVal.num 0.1, JVal.num 0.2]

/-- A world in which the inference API answers every call with `data`, and
the matrix computation rejects what it is given. -/
def hfWorld (data : JVal) : World :=
  { offlineWorld with
    fetch := fun _ _ => FetchResult.response
      { status := 200, statusText := "OK", text := "", json := Except.ok data }
    computeSimilarityMatrix := fun _ => Except.error "Invalid embedding" }

/-- The request `generateHFEmbeddings` sends for the image with the given
URL in the sample environment. -/
def sampleHFFetch (url : String) : Event :=
  Event.hfFetch (hfRequest "hf-key" (JVal.str url))

/-- A world in which the first network call is answered with a flat vector
and every later one fails. -/
def flakyWorld : World :=
  { offlineWorld with
    fetch := fun k _ =>
      if k = 0 then
        FetchResult.response
          { status := 200, statusText := "OK", text := "", json := Except.ok flatVector }
      else FetchResult.failure "socket hang up" }

/-- A vector wrapped in one more array, as the feature-extraction pipeline
returns it. -/
def nestedVector : JVal := JVal.arr [flatVector]

/-- The second of the two sample images. -/
def secondSampleImage : JVal :=
  JVal.obj [("id", JVal.str "puma-0"), ("brand", JVal.str "puma"),
    ("url", JVal.str "http://img/b.jpg"), ("originalIndex", natVal 0)]

/-- A world whose local service answers with vectors nested one level too
deep: a bare one and one inside a record. -/
def nestedLocalWorld : World :=
  localWorld [nestedVector, JVal.obj [("embedding", nestedVector)]] sampleMatrix []

/-- A world whose local service answers with numbers in place of vectors. -/
def scalarWorld : World :=
  localWorld [JVal.num 5, JVal.num 5] sampleMatrix []

/-- A world whose local service answers with one vector, whatever it is
asked. -/
def shortWorld : World :=
  localWorld [JVal.arr [JVal.num 1, JVal.num 0]] [[JVal.num 1]] []

/-- A `POST` whose `images` array holds a `null`. -/
def nullImageRequest : Request :=
  { method := "POST", body := JVal.obj [("images", JVal.arr [JVal.null])] }

/-- The message of the error thrown for a non-2xx answer of the local
service. -/
def localStatusMessage (resp : FetchResponse) : String :=
  "Local embedding service error: " ++ toString resp.status ++ " " ++ resp.statusText ++
    " - " ++ resp.text

/-! ## Further observations for the remaining claims -/

/-- The requests sent to the local embedding service during a run, in call
order. -/
def localCalls : List Event → List FetchRequest
  | [] => []
  | Event.localFetch r :: rest => r :: localCalls rest
  | _ :: rest => localCalls rest

/-- The `completed` values handed to `onProgress`, in call order. -/
def completedValues : List ClientEvent → List Nat
  | [] => []
  | ClientEvent.progress p :: rest => p.completed :: completedValues rest
  | ClientEvent.post _ _ :: rest => completedValues rest

/-- The `total` values handed to `onProgress`, in call order. -/
def totalValues : List ClientEvent → List Nat
  | [] => []
  | ClientEvent.progress p :: rest => p.total :: totalValues rest
  | ClientEvent.post _ _ :: rest => totalValues rest

/-- The status rule as the specification words it: 408 when the backend's
message contains `timeout`, otherwise 502 when it contains `API`, otherwise
500. -/
def specFailureStatus (message : String) : Nat :=
  if includes message "timeout" then 408
  else if includes message "API" then 502
  else 500

/-- The sum of the numbers in a list of values; other values count 0. -/
def numSum : List JVal → ℚ
  | [] => 0
  | JVal.num q :: rest => q + numSum rest
  | _ :: rest => numSum rest

/-- The `size` fields of the entries of `results.clusters`. -/
def sizeFields (entries : List JVal) : List JVal :=
  entries.map (fun e => e.prop "size")

/-- The clusters the handler drops: those with at most one image. -/
def discardedClusters (clusters : List Cluster) : List Cluster :=
  clusters.filter (fun c => !decide (c.images.length > 1))

/-- The options of a client call that passes an `onProgress` callback and no
threshold. -/
def progressOptions : ProcessOptions :=
  { onProgress := true, similarityThreshold := JVal.undefined }

/-! ## The handler of `/api/images`

A shallow embedding of `api/images.js`. The upstream brand API is a field of
`Upstream`; the handler returns its outcome together with the URLs it
requested, in order. Console output is not recorded. -/

/-- Everything `images.js` calls but does not define.

* `fetch k url`: the outcome of the `k`-th upstream `GET` of the request
  (counting from 0; the calls are issued in the order of the brand list).
* `display v`: the string JavaScript puts into a template literal, or uses
  as a property key, for a value that is not a string.
* `settledAt k`: the moment at which the promise of the `k`-th brand
  settles. `Promise.all` rejects with the rejection that settles first. -/
structure Upstream where
  fetch : Nat → String → FetchResult
  display : JVal → String
  settledAt : Nat → Nat

/-- The incoming request, as far as the images handler reads it. -/
structure ImagesRequest where
  method : String
  query : JVal

/-- What the callback of `brandList.map` resolves to; `error` is `undefined`
when the object has no `error` field. -/
structure BrandResult where
  brand : JVal
  images : JVal
  count : JVal
  error : JVal

/-- A brand inside a template literal or as a property key. -/
def brandText (up : Upstream) (brand : JVal) : String :=
  match brand with
  | JVal.str s => s
  | other => up.display other

/-- The URL requested for a brand. -/
def brandUrl (up : Upstream) (brand : JVal) : String :=
  "https://vibemyad.com/api/test-assignment?brand_key=" ++ brandText up brand

/-- `s.split(',')` on character lists. -/
def splitCommaChars : List Char → List (List Char)
  | [] => [[]]
  | c :: cs =>
    if c = ',' then [] :: splitCommaChars cs
    else
      match splitCommaChars cs with
      | [] => [[c]]
      | head :: tail => (c :: head) :: tail

/-- `brands.split(',')`. -/
def splitComma (s : String) : List JVal :=
  (splitCommaChars s.data).map (fun cs => JVal.str (String.mk cs))

/-- The line `Array.isArray(brands) ? brands : brands.split(',')`, for a
truthy `brands`: a `TypeError` when it is neither an array nor a string. -/
def brandList (brands : JVal) : Except String (List JVal) :=
  match brands with
  | JVal.arr xs => Except.ok xs
  | JVal.str s => Except.ok (splitComma s)
  | _ => Except.error "brands.split is not a function"

/-- `v?.length`. -/
def lengthOf : JVal → JVal
  | JVal.arr xs => natVal xs.length
  | JVal.str s => natVal s.length
  | JVal.obj fields => lookupField "length" fields
  | _ => JVal.undefined

/-- The result object for a brand that is reported as failed. -/
def failedBrand (brand : JVal) (error : JVal) : BrandResult :=
  { brand := brand, images := JVal.arr [], count := natVal 0, error := error }

/-- The `async (brand) => ...` callback for the `k`-th brand: the object it
resolves to, or the message of the error it rejects with. -/
def fetchBrand (up : Upstream) (k : Nat) (brand : JVal) : Except String BrandResult :=
  match up.fetch k (brandUrl up brand) with
  | FetchResult.failure message => Except.error message
  | FetchResult.response resp =>
    if !resp.ok then
      if resp.status = 404 ∨ resp.status = 400 then
        Except.ok (failedBrand brand
          (JVal.str ("Brand '" ++ brandText up brand ++ "' not available")))
      else
        Except.error ("Failed to fetch " ++ brandText up brand ++ " images: " ++
          resp.statusText)
    else
      match resp.json with
      | Except.error e => Except.error e
      | Except.ok data =>
        match getProp data "success" with
        | Except.error e => Except.error e
        | Except.ok success =>
          if !success.truthy && (data.prop "error").truthy then
            Except.ok (failedBrand brand (data.prop "error"))
          else
            Except.ok
              { brand := brand
                images := jsOr (data.prop "data") (JVal.arr [])
                count := jsOr (lengthOf (data.prop "data")) (natVal 0)
                error := JVal.undefined }

/-- The promises of `brandList.map(...)`, from call number `k` on. -/
def fetchBrands (up : Upstream) : Nat → List JVal → List (Except String BrandResult)
  | _, [] => []
  | k, brand :: rest => fetchBrand up k brand :: fetchBrands up (k + 1) rest

/-- The rejection that settles first among the promises numbered from `k`,
with the moment it settles; the earlier promise wins a tie. -/
def firstRejection (up : Upstream) :
    Nat → List (Except String BrandResult) → Option (Nat × String)
  | _, [] => none
  | k, Except.ok _ :: rest => firstRejection up (k + 1) rest
  | k, Except.error message :: rest =>
    match firstRejection up (k + 1) rest with
    | none => some (up.settledAt k, message)
    | some later =>
      if up.settledAt k ≤ later.1 then some (up.settledAt k, message) else some later

/-- The values of the fulfilled promises, in order. -/
def fulfilled : List (Except String BrandResult) → List BrandResult
  | [] => []
  | Except.ok r :: rest => r :: fulfilled rest
  | Except.error _ :: rest => fulfilled rest

/-- `Promise.all`: all values in order, or the first rejection. -/
def promiseAll (up : Upstream) (promises : List (Except String BrandResult)) :
    Except String (List BrandResult) :=
  match firstRejection up 0 promises with
  | some rejection => Except.error rejection.2
  | none => Except.ok (fulfilled promises)

/-- One entry of `allImages`. -/
def imageRecord (up : Upstream) (brand : JVal) (index : Nat) (url : JVal) : JVal :=
  JVal.obj
    [("id", JVal.str (brandText up brand ++ "-" ++ toString index)),
     ("brand", brand), ("url", url), ("originalIndex", natVal index)]

/-- `result.images.map((img, index) => ...)` from position `index` on. -/
def imageRecords (up : Upstream) (brand : JVal) : Nat → List JVal → Except String (List JVal)
  | _, [] => Except.ok []
  | index, img :: rest =>
    match getProp img "image_url" with
    | Except.error e => Except.error e
    | Except.ok url =>
      match imageRecords up brand (index + 1) rest with
      | Except.error e => Except.error e
      | Except.ok records => Except.ok (imageRecord up brand index url :: records)

/-- The callback of `flatMap` for one result: a `TypeError` when `images` is
not an array. -/
def resultImages (up : Upstream) (r : BrandResult) : Except String (List JVal) :=
  match r.images with
  | JVal.arr imgs => imageRecords up r.brand 0 imgs
  | _ => Except.error "result.images.map is not a function"

/-- `successfulResults.flatMap(...)`. -/
def allImages (up : Upstream) : List BrandResult → Except String (List JVal)
  | [] => Except.ok []
  | r :: rest =>
    match resultImages up r with
    | Except.error e => Except.error e
    | Except.ok records =>
      match allImages up rest with
      | Except.error e => Except.error e
      | Except.ok others => Except.ok (records ++ others)

/-- `results.filter(result => !result.error)`. -/
def successfulResults (results : List BrandResult) : List BrandResult :=
  results.filter (fun r => !r.error.truthy)

/-- `results.filter(result => result.error)`. -/
def failedResults (results : List BrandResult) : List BrandResult :=
  results.filter (fun r => r.error.truthy)

/-- The fields of `brandCounts`: `acc[result.brand] = result.count` in
order. -/
def brandCounts (up : Upstream) (results : List BrandResult) : List (String × JVal) :=
  results.foldl (fun acc r => setField acc (brandText up r.brand) r.count) []

/-- One entry of `failedBrands`. -/
def failedEntry (r : BrandResult) : JVal :=
  JVal.obj [("brand", r.brand), ("error", r.error)]

/-- The body of the 500 answer of the `catch` block. -/
def imagesFailure (message : String) : JVal :=
  JVal.obj
    [("success", JVal.bool false), ("error", JVal.str "Failed to fetch images"),
     ("details", JVal.str message)]

/-- The object `response` of the images handler. -/
def imagesResponse (up : Upstream) (results : List BrandResult) (images : List JVal) : JVal :=
  JVal.obj
    [("success", JVal.bool true),
     ("totalImages", natVal images.length),
     ("brandCounts", JVal.obj (brandCounts up (successfulResults results))),
     ("failedBrands", JVal.arr ((failedResults results).map failedEntry)),
     ("images", JVal.arr images)]

/-- The `try`/`catch` of the images handler for a brand list. -/
def fetchAllBrands (up : Upstream) (brands : List JVal) : Outcome :=
  match promiseAll up (fetchBrands up 0 brands) with
  | Except.error message => Outcome.responded 500 (imagesFailure message)
  | Except.ok results =>
    match allImages up (successfulResults results) with
    | Except.error message => Outcome.responded 500 (imagesFailure message)
    | Except.ok images => Outcome.responded 200 (imagesResponse up results images)

/-- The default export of `api/images.js`. -/
def imagesHandler (up : Upstream) (req : ImagesRequest) : Outcome × List String :=
  if req.method ≠ "GET" then
    (Outcome.responded 405 (JVal.obj [("error", JVal.str "Method not allowed")]), [])
  else if req.query.isNullish then
    (Outcome.threw "Cannot destructure property 'brands' of 'req.query' as it is undefined.", [])
  else if !(req.query.prop "brands").truthy then
    (Outcome.responded 400 (JVal.obj [("error", JVal.str "Brands parameter required")]), [])
  else
    match brandList (req.query.prop "brands") with
    | Except.error e => (Outcome.threw e, [])
    | Except.ok brands => (fetchAllBrands up brands, brands.map (brandUrl up))

/-- The `id` fields of a list of images. -/
def idsOf (images : List JVal) : List JVal :=
  images.map (fun img => img.prop "id")

/-- A `GET` of `/api/images` with the given `brands` parameter. -/
def brandsRequest (brands : JVal) : ImagesRequest :=
  { method := "GET", query := JVal.obj [("brands", brands)] }

/-- The payload of the brand API for a brand with the given image URLs. -/
def brandPayload (urls : List String) : JVal :=
  JVal.obj
    [("success", JVal.bool true),
     ("data", JVal.arr (urls.map (fun u => JVal.obj [("image_url", JVal.str u)])))]

/-- An upstream that knows `nike` and `puma` and answers 404 for every other
brand. -/
def sampleUpstream : Upstream :=
  { fetch := fun _ url =>
      if url = "https://vibemyad.com/api/test-assignment?brand_key=nike" then
        FetchResult.response
          { status := 200, statusText := "OK", text := "",
            json := Except.ok (brandPayload ["http://img/a.jpg", "http://img/c.jpg"]) }
      else if url = "https://vibemyad.com/api/test-assignment?brand_key=puma" then
        FetchResult.response
          { status := 200, statusText := "OK", text := "",
            json := Except.ok (brandPayload ["http://img/b.jpg"]) }
      else
        FetchResult.response
          { status := 404, statusText := "Not Found", text := "", json := Except.error "" }
    display := fun _ => "[object Object]"
    settledAt := fun k => k }

/-- The records built from the images of one brand, from position `index`
on, when no image is `null`: record `j` comes from the `j`-th image. -/
def specRecords (up : Upstream) (brand : JVal) : Nat → List JVal → List JVal
  | _, [] => []
  | index, img :: rest =>
    imageRecord up brand index (img.prop "image_url") :: specRecords up brand (index + 1) rest

/-- The records of one result. -/
def specResultImages (up : Upstream) (r : BrandResult) : List JVal :=
  match r.images with
  | JVal.arr imgs => specRecords up r.brand 0 imgs
  | _ => []

/-- The images of a response as the specification describes them: for every
successful brand in order, one record per image of the brand in order. -/
def specImages (up : Upstream) : List BrandResult → List JVal
  | [] => []
  | r :: rest => specResultImages up r ++ specImages up rest

/-- The ids `${brand}-${index}` for the positions `index`, `index + 1`, ...
of a brand with `n` images. -/
def brandIds (brand : String) : Nat → Nat → List String
  | _, 0 => []
  | index, n + 1 => (brand ++ "-" ++ toString index) :: brandIds brand (index + 1) n

/-- The ids of the records of one result. -/
def resultIds (up : Upstream) (r : BrandResult) : List String :=
  match r.images with
  | JVal.arr imgs => brandIds (brandText up r.brand) 0 imgs.length
  | _ => []

/-- The ids of the images of a response, brand by brand. -/
def specIds (up : Upstream) : List BrandResult → List String
  | [] => []
  | r :: rest => resultIds up r ++ specIds up rest

/-! ## The similarity matrix and clustering engines

`computeSimilarityMatrix` and `clusterSimilarImages` are imported from
`lib/clipProcessor.js`, which is not among the sources at hand. The
definitions of this section follow sections 4.3 and 4.4 of the
specification. Numbers are rationals; the square root is a parameter. -/

/-- Modelled from the spec: the entries of a sequence of floats, `none` when a
value is not numeric. -/
def numbersOf : List JVal → Option (List ℚ)
  | [] => some []
  | JVal.num q :: rest =>
    match numbersOf rest with
    | some qs => some (q :: qs)
    | none => none
  | _ :: _ => none

/-- Modelled from the spec: the `embedding` of a Fingerprint Vector, `none`
when it is not a sequence of numbers. -/
def embeddingOf (fingerprint : JVal) : Option (List ℚ) :=
  match fingerprint.prop "embedding" with
  | JVal.arr items => numbersOf items
  | _ => none

/-- Modelled from the spec: the embeddings of a list of Fingerprint Vectors,
`none` when one of them contains a non-numeric entry. -/
def embeddingsOf : List JVal → Option (List (List ℚ))
  | [] => some []
  | fingerprint :: rest =>
    match embeddingOf fingerprint, embeddingsOf rest with
    | some v, some vs => some (v :: vs)
    | _, _ => none

/-- Modelled from the spec: `dot(a,b)`. -/
def dot : List ℚ → List ℚ → ℚ
  | a :: as, b :: bs => a * b + dot as bs
  | _, _ => 0

/-- Modelled from the spec: the magnitude of a vector, for the given square
root. -/
def norm (sqrt : ℚ → ℚ) (a : List ℚ) : ℚ := sqrt (dot a a)

/-- Modelled from the spec: `sim = dot(a,b) / (‖a‖ · ‖b‖)`, and `sim = 0` when
one of the two magnitudes is `0`. -/
def cosineSimilarity (sqrt : ℚ → ℚ) (a b : List ℚ) : ℚ :=
  if norm sqrt a = 0 ∨ norm sqrt b = 0 then 0
  else dot a b / (norm sqrt a * norm sqrt b)

/-- Modelled from the spec: entry `(i,j)` of the Similarity Matrix. The
diagonal is set to `1`; the entry below the diagonal is the mirror of the
entry `(j,i)` of the upper triangle. -/
def matrixEntry (sqrt : ℚ → ℚ) (vs : List (List ℚ)) (i j : Nat) : ℚ :=
  if i = j then 1
  else if i < j then cosineSimilarity sqrt (vs.getD i []) (vs.getD j [])
  else cosineSimilarity sqrt (vs.getD j []) (vs.getD i [])

/-- Modelled from the spec: the Similarity Matrix Engine of section 4.3. It
fails with `EmptyInput` for an empty list and with `MalformedFingerprint`
when a vector has a non-numeric entry or a length other than that of the
first vector. -/
def computeSimilarityMatrix (sqrt : ℚ → ℚ) (embeddings : List JVal) :
    Except String (List (List JVal)) :=
  match embeddings with
  | [] => Except.error "EmptyInput"
  | _ :: _ =>
    match embeddingsOf embeddings with
    | none => Except.error "MalformedFingerprint"
    | some vs =>
      if vs.all (fun v => decide (v.length = (vs.headD []).length)) then
        Except.ok ((List.range vs.length).map (fun i =>
          (List.range vs.length).map (fun j => JVal.num (matrixEntry sqrt vs i j))))
      else Except.error "MalformedFingerprint"

/-- Entry `(i,j)` of a matrix, `undefined` outside of it. -/
def similarityAt (matrix : List (List JVal)) (i j : Nat) : JVal :=
  ((matrix.getD i []).getD j JVal.undefined)

/-- Modelled from the spec: the threshold graph has an edge `(i,j)` iff
`M[i][j] ≥ t` and `i ≠ j`; a comparison with a value that is not a number is
false. -/
def isEdge (matrix : List (List JVal)) (threshold : JVal) (i j : Nat) : Bool :=
  match similarityAt matrix i j, threshold with
  | JVal.num q, JVal.num t => decide (i ≠ j) && decide (t ≤ q)
  | _, _ => false

/-- The label of node `i`: its own index when the list has no entry. -/
def labelOf (labels : List Nat) (i : Nat) : Nat := labels.getD i i

/-- Modelled from the spec: the `union` of union-find on a label per node:
every node of the component of `j` joins the component of `i`, under the
smaller of the two labels. -/
def union (labels : List Nat) (i j : Nat) : List Nat :=
  labels.map (fun l =>
    if l = max (labelOf labels i) (labelOf labels j)
    then min (labelOf labels i) (labelOf labels j) else l)

/-- The pairs `(i,j)` with `i < j < n`, row by row. -/
def indexPairs (n : Nat) : List (Nat × Nat) :=
  (List.range n).flatMap (fun i =>
    ((List.range n).filter (fun j => decide (i < j))).map (fun j => (i, j)))

/-- Modelled from the spec: the labels after the scan of the matrix: one
`union` per edge of the threshold graph. -/
def componentLabels (n : Nat) (matrix : List (List JVal)) (threshold : JVal) : List Nat :=
  (indexPairs n).foldl
    (fun labels p => if isEdge matrix threshold p.1 p.2 then union labels p.1 p.2 else labels)
    (List.range n)

/-- The lowest-indexed member of every component, in ascending order. -/
def leaders (labels : List Nat) : List Nat :=
  (List.range labels.length).filter (fun i =>
    (List.range i).all (fun k => decide (labelOf labels k ≠ labelOf labels i)))

/-- The members of the component of node `i`, in input order. -/
def membersOf (labels : List Nat) (i : Nat) : List Nat :=
  (List.range labels.length).filter (fun j => decide (labelOf labels j = labelOf labels i))

/-- Modelled from the spec: the connected components, ordered by their
lowest-indexed member, each in input order. -/
def components (labels : List Nat) : List (List Nat) :=
  (leaders labels).map (membersOf labels)

/-- Modelled from the spec: one image of a cluster. `similarity` is the
similarity to the first member, and `null` for the first member itself. -/
def clusterImage (images : List JVal) (matrix : List (List JVal)) (first j : Nat) :
    ClusterImage :=
  { id := (images.getD j JVal.undefined).prop "id"
    brand := (images.getD j JVal.undefined).prop "brand"
    url := (images.getD j JVal.undefined).prop "url"
    similarity := if j = first then JVal.null else similarityAt matrix first j }

/-- The number a matrix entry stands for. -/
def numberOf : JVal → ℚ
  | JVal.num q => q
  | _ => 0

/-- The similarities of all pairs of distinct members, each pair once. -/
def pairSimilarities (matrix : List (List JVal)) : List Nat → List ℚ
  | [] => []
  | a :: rest =>
    rest.map (fun b => numberOf (similarityAt matrix a b)) ++ pairSimilarities matrix rest

/-- Modelled from the spec: `avgSimilarity` is the mean of the pairwise
similarities among the members, and `1` for a singleton. -/
def avgSimilarity (matrix : List (List JVal)) (members : List Nat) : JVal :=
  match pairSimilarities matrix members with
  | [] => JVal.num 1
  | s :: rest => JVal.num ((s :: rest).sum / ((s :: rest).length : ℚ))

/-- Modelled from the spec: the cluster of a component. -/
def clusterOf (images : List JVal) (matrix : List (List JVal)) (members : List Nat) :
    Cluster :=
  { images := members.map (clusterImage images matrix (members.headD 0))
    avgSimilarity := avgSimilarity matrix members }

/-- Modelled from the spec: the Clustering Engine of section 4.4: the
connected components of the threshold graph over the images, singletons
included. -/
def clusterSimilarImages (images : List JVal) (matrix : List (List JVal))
    (threshold : JVal) : Except String (List Cluster) :=
  Except.ok ((components (componentLabels images.length matrix threshold)).map
    (clusterOf images matrix))

/-- The ids of the images of a list of clusters, cluster by cluster. -/
def clusterIds (clusters : List Cluster) : List JVal :=
  clusters.flatMap (fun c => c.images.map (fun image => image.id))

/-- Scenario A and B of the specification: the similarities of three images. -/
def scenarioMatrix : List (List JVal) := tripleMatrix (95 / 100) (92 / 100) (80 / 100)

/-- A square root on the rationals that is exact on squares of rationals. -/
def squareRoot (q : ℚ) : ℚ := (Nat.sqrt q.num.toNat : ℚ) / (Nat.sqrt q.den : ℚ)

/-- Three fingerprints of length 2; the second is the zero vector. -/
def sampleFingerprints : List JVal :=
  [JVal.obj [("ownerImageId", JVal.str "nike-0"),
      ("embedding", JVal.arr [JVal.num 3, JVal.num 4])],
   JVal.obj [("ownerImageId", JVal.str "puma-0"),
      ("embedding", JVal.arr [JVal.num 0, JVal.num 0])],
   JVal.obj [("ownerImageId", JVal.str "puma-1"),
      ("embedding", JVal.arr [JVal.num 4, JVal.num 3])]]

/-! ## Basic facts -/

theorem envVal_truthy (v : Option String) : (envVal v).truthy = isSet v := by
  cases v <;> simp [envVal, JVal.truthy, isSet]

theorem specLocalUrl_env (env : Env) :
    (match env.LOCAL_CLIP_URL with
      | some s => if s ≠ "" then some (JVal.str s) else none
      | none => none) =
    if (envVal env.LOCAL_CLIP_URL).truthy then some (envVal env.LOCAL_CLIP_URL) else none := by
  cases h : env.LOCAL_CLIP_URL with
  | none => simp [envVal, JVal.truthy]
  | some s => by_cases hs : s = "" <;> simp [envVal, JVal.truthy, hs]

theorem specLocalUrl_eq_effective (env : Env) (body : JVal) :
    specLocalUrl env body =
      if (effectiveLocalUrl env body).truthy then some (effectiveLocalUrl env body) else none := by
  unfold specLocalUrl effectiveLocalUrl jsOr
  rw [specLocalUrl_env]
  by_cases h1 : (body.prop "local_clip_url").truthy = true
  · simp only [h1, if_true]
  · by_cases h2 : (body.prop "localClipUrl").truthy = true
    · simp only [h1, h2, if_true, if_false, Bool.false_eq_true]
    · simp only [h1, h2, if_false, Bool.false_eq_true]

theorem specLocalUrl_isSome (env : Env) (body : JVal) :
    (specLocalUrl env body).isSome = (effectiveLocalUrl env body).truthy := by
  rw [specLocalUrl_eq_effective]
  cases (effectiveLocalUrl env body).truthy <;> simp

/-! ## Which calls each part of the handler makes -/

theorem preflight_isLocal (images : List JVal) (u : JVal) :
    ∀ e ∈ preflight images u, e.isLocal = true := by
  intro e he
  unfold preflight at he
  split at he
  · simp at he
  · split at he
    · simp at he
    · simp at he
      subst he
      rfl

theorem localEmbeddings_events (w : World) (k : Nat) (images : List JVal) (u : JVal) :
    (localEmbeddings w k images u).2 = [] ∨
      ∃ r, (localEmbeddings w k images u).2 = [Event.localFetch r] := by
  unfold localEmbeddings
  split
  · simp
  · split
    · simp
    · split
      · simp
      · rename_i inputs _ _ url _
        right
        refine ⟨localRequest url inputs, ?_⟩
        dsimp only
        split
        · rfl
        · split
          · rfl
          · split
            · rfl
            · split <;> rfl

theorem generateLocalEmbeddings_isLocal (w : World) (env : Env) (k : Nat) (images : List JVal)
    (u : JVal) : ∀ e ∈ (generateLocalEmbeddings w env k images u).2, e.isLocal = true := by
  intro e he
  unfold generateLocalEmbeddings at he
  rcases localEmbeddings_events w k images
    (if u.isUndefined then envVal env.LOCAL_CLIP_URL else u) with h | ⟨r, h⟩
  · rw [h] at he
    simp at he
  · rw [h] at he
    simp at he
    subst he
    rfl

theorem hfEmbedOne_events (w : World) (key : String) (k : Nat) (img : JVal) :
    (hfEmbedOne w key k img).2 = [] ∨
      ∃ r, (hfEmbedOne w key k img).2 = [Event.hfFetch r] := by
  unfold hfEmbedOne
  split
  · simp
  · rename_i input _
    right
    refine ⟨hfRequest key input, ?_⟩
    dsimp only
    split
    · rfl
    · split
      · rfl
      · split <;> rfl

theorem hfEmbedOne_isHF (w : World) (key : String) (k : Nat) (img : JVal) :
    ∀ e ∈ (hfEmbedOne w key k img).2, e.isHF = true := by
  intro e he
  rcases hfEmbedOne_events w key k img with h | ⟨r, h⟩
  · rw [h] at he
    simp at he
  · rw [h] at he
    simp at he
    subst he
    rfl

theorem hfLoop_isHF (w : World) (key : String) (images : List JVal) :
    ∀ (k : Nat) (acc : List JVal), ∀ e ∈ (hfLoop w key k images acc).2, e.isHF = true := by
  induction images with
  | nil =>
    intro k acc e he
    simp [hfLoop] at he
  | cons img rest ih =>
    intro k acc e he
    unfold hfLoop at he
    split at he
    next inner evs hone =>
      have hmem : e ∈ (hfEmbedOne w key k img).2 := by
        rw [hone]
        split at he <;> exact he
      exact hfEmbedOne_isHF w key k img e hmem
    next vec evs hone =>
      simp only [List.mem_append] at he
      rcases he with he | he
      · have hmem : e ∈ (hfEmbedOne w key k img).2 := by
          rw [hone]
          exact he
        exact hfEmbedOne_isHF w key k img e hmem
      · exact ih (k + 1) (acc ++ [vec]) e he

theorem generateHFEmbeddings_isHF (w : World) (env : Env) (k : Nat) (images : List JVal) :
    ∀ e ∈ (generateHFEmbeddings w env k images).2, e.isHF = true := by
  intro e he
  unfold generateHFEmbeddings at he
  split at he
  · simp at he
  · split at he
    · simp at he
    · exact hfLoop_isHF w _ images k [] e he

/-- Step 1 calls the selected backend only, and what it yields is that
backend's result under that backend's label. -/
theorem fingerprint_selected (w : World) (env : Env) (body : JVal) (images : List JVal) :
    (∀ e ∈ (fingerprint w env body images).2, (selectedBackend env body).owns e = true) ∧
    (∀ embeddings label, (fingerprint w env body images).1 = Except.ok (embeddings, label) →
      (selectedBackend env body).label = some label ∧
      Backend.result w env body images (selectedBackend env body) = Except.ok embeddings) ∧
    (∀ message, (fingerprint w env body images).1 = Except.error message →
      Backend.result w env body images (selectedBackend env body) = Except.error message) := by
  unfold fingerprint selectedBackend
  rw [specLocalUrl_isSome, envVal_truthy, envVal_truthy]
  by_cases h1 : (effectiveLocalUrl env body).truthy = true
  · simp only [h1, if_true]
    cases hg : generateLocalEmbeddings w env (preflight images (effectiveLocalUrl env body)).length
        images (effectiveLocalUrl env body) with
    | mk r evs =>
      have hev := generateLocalEmbeddings_isLocal w env
        (preflight images (effectiveLocalUrl env body)).length images (effectiveLocalUrl env body)
      rw [hg] at hev
      have hpre := preflight_isLocal images (effectiveLocalUrl env body)
      cases r with
      | error e =>
        refine ⟨?_, ?_, ?_⟩
        · intro e he
          simp only [List.mem_append] at he
          rcases he with he | he
          · exact hpre e he
          · exact hev e he
        · intro embeddings label h
          simp at h
        · intro message h
          simp only [Except.error.injEq] at h
          simp [Backend.result, hg, h]
      | ok embs =>
        refine ⟨?_, ?_, ?_⟩
        · intro e he
          simp only [List.mem_append] at he
          rcases he with he | he
          · exact hpre e he
          · exact hev e he
        · intro embeddings label h
          simp only [Except.ok.injEq, Prod.mk.injEq] at h
          simp [Backend.result, Backend.label, hg, h.1, h.2]
        · intro message h
          simp at h
  · simp only [h1, if_false, Bool.false_eq_true]
    by_cases h2 : isSet env.GOOGLE_API_KEY = true
    · simp only [h2, if_true]
      cases hg : w.generateAIEmbeddings images with
      | error e =>
        refine ⟨?_, ?_, ?_⟩
        · intro e he
          simp at he
          subst he
          rfl
        · intro embeddings label h
          simp at h
        · intro message h
          simp only [Except.error.injEq] at h
          simp [Backend.result, hg, h]
      | ok embs =>
        refine ⟨?_, ?_, ?_⟩
        · intro e he
          simp at he
          subst he
          rfl
        · intro embeddings label h
          simp only [Except.ok.injEq, Prod.mk.injEq] at h
          simp [Backend.result, Backend.label, hg, h.1, h.2]
        · intro message h
          simp at h
    · simp only [h2, if_false, Bool.false_eq_true]
      by_cases h3 : isSet env.HUGGINGFACE_API_KEY = true
      · simp only [h3, if_true]
        cases hg : generateHFEmbeddings w env 0 images with
        | mk r evs =>
          have hev := generateHFEmbeddings_isHF w env 0 images
          rw [hg] at hev
          cases r with
          | error e =>
            refine ⟨?_, ?_, ?_⟩
            · intro e he
              exact hev e he
            · intro embeddings label h
              simp at h
            · intro message h
              simp only [Except.error.injEq] at h
              simp [Backend.result, hg, h]
          | ok embs =>
            refine ⟨?_, ?_, ?_⟩
            · intro e he
              exact hev e he
            · intro embeddings label h
              simp only [Except.ok.injEq, Prod.mk.injEq] at h
              simp [Backend.result, Backend.label, hg, h.1, h.2]
            · intro message h
              simp at h
      · simp only [h3, if_false, Bool.false_eq_true]
        refine ⟨?_, ?_, ?_⟩
        · intro e he
          simp at he
        · intro embeddings label h
          simp at h
        · intro message h
          simp only [Except.error.injEq] at h
          simp [Backend.result, h]

/-! ## The shape of a run -/

theorem handler_accepts (w : World) (env : Env) (req : Request) (images : List JVal)
    (hmethod : req.method = "POST") (himages : req.body.prop "images" = JVal.arr images)
    (hne : images ≠ []) :
    handler w env req = processImagesRequest w env req.body images := by
  have hbody : req.body.isNullish = false := by
    cases hb : req.body <;> simp [hb, JVal.prop] at himages
    rfl
  cases images with
  | nil => exact absurd rfl hne
  | cons i rest =>
    unfold handler
    simp [hmethod, hbody, himages]

theorem handler_rejects (w : World) (env : Env) (req : Request)
    (hmethod : req.method = "POST") (hbody : req.body.isNullish = false)
    (hbad : (req.body.prop "images").isArray = false ∨ req.body.prop "images" = JVal.arr []) :
    handler w env req =
      (Outcome.responded 400 (JVal.obj [("error", JVal.str "Images array required")]), []) := by
  unfold handler
  simp only [hmethod, hbody, ne_eq, not_true_eq_false, if_false, Bool.false_eq_true]
  rcases hbad with h | h
  · split
    · rename_i heq
      rw [heq] at h
      simp [JVal.isArray] at h
    · rfl
  · rw [h]

theorem recover_trace (w : World) (images : List JVal) (t : JVal) (message : String)
    (trace : List Event) :
    (recover w images t message trace).2 = trace ++ [Event.processFallback images t] := by
  unfold recover
  split <;> rfl

theorem recover_ok (w : World) (images : List JVal) (t : JVal) (message : String)
    (trace : List Event) (result : List (String × JVal))
    (h : w.processFallback images t = Except.ok result) :
    recover w images t message trace =
      (Outcome.responded 200 (fallbackResponse result message),
        trace ++ [Event.processFallback images t]) := by
  unfold recover
  rw [h]

theorem recover_error (w : World) (images : List JVal) (t : JVal) (message : String)
    (trace : List Event) (fallbackMessage : String)
    (h : w.processFallback images t = Except.error fallbackMessage) :
    recover w images t message trace =
      (Outcome.responded (failureResponse message fallbackMessage).1
          (failureResponse message fallbackMessage).2,
        trace ++ [Event.processFallback images t]) := by
  unfold recover
  rw [h]

theorem run_of_error (w : World) (env : Env) (body : JVal) (images : List JVal)
    (message : String) (h : (fingerprint w env body images).1 = Except.error message) :
    processImagesRequest w env body images =
      recover w images (thresholdOf body) message (fingerprint w env body images).2 := by
  unfold processImagesRequest
  cases hf : fingerprint w env body images with
  | mk r trace =>
    rw [hf] at h
    simp only at h
    subst h
    rfl

theorem run_of_ok (w : World) (env : Env) (body : JVal) (images : List JVal)
    (embeddings : List JVal) (label : String)
    (h : (fingerprint w env body images).1 = Except.ok (embeddings, label)) :
    processImagesRequest w env body images =
      compare w images (thresholdOf body) embeddings label (fingerprint w env body images).2 := by
  unfold processImagesRequest
  cases hf : fingerprint w env body images with
  | mk r trace =>
    rw [hf] at h
    simp only at h
    subst h
    rfl

/-- The selected backend throws exactly when step 1 throws, with the same
message. -/
theorem fingerprint_error_of_result (w : World) (env : Env) (body : JVal) (images : List JVal)
    (message : String)
    (h : Backend.result w env body images (selectedBackend env body) = Except.error message) :
    (fingerprint w env body images).1 = Except.error message := by
  have hsel := fingerprint_selected w env body images
  cases hf : (fingerprint w env body images).1 with
  | error m =>
    have := hsel.2.2 m hf
    rw [this] at h
    cases h
    rfl
  | ok p =>
    obtain ⟨embeddings, label⟩ := p
    have := (hsel.2.1 embeddings label hf).2
    rw [this] at h
    cases h

theorem isBackend_of_owns (b : Backend) (e : Event) (h : b.owns e = true) :
    e.isBackend = true := by
  cases b <;> simp [Backend.owns] at h <;> simp [Event.isBackend, h]

theorem thresholdsUsed_append (a b : List Event) :
    thresholdsUsed (a ++ b) = thresholdsUsed a ++ thresholdsUsed b := by
  induction a with
  | nil => rfl
  | cons e rest ih =>
    cases e <;> simp [thresholdsUsed, ih]

theorem thresholdsUsed_backend (trace : List Event)
    (h : ∀ e ∈ trace, e.isBackend = true) : thresholdsUsed trace = [] := by
  induction trace with
  | nil => rfl
  | cons e rest ih =>
    have he := h e (List.mem_cons_self e rest)
    have hrest := ih (fun x hx => h x (List.mem_cons_of_mem e hx))
    cases e <;> simp [Event.isBackend, Event.isLocal, Event.isGemini, Event.isHF] at he <;>
      simp [thresholdsUsed, hrest]

theorem fingerprint_isBackend (w : World) (env : Env) (body : JVal) (images : List JVal) :
    ∀ e ∈ (fingerprint w env body images).2, e.isBackend = true :=
  fun e he => isBackend_of_owns _ e ((fingerprint_selected w env body images).1 e he)

/-- For an accepted request whose embeddings, matrix and clusters all arrive,
the answer is the success response. -/
theorem run_success (w : World) (env : Env) (body : JVal) (images : List JVal)
    (embeddings : List JVal) (label : String) (matrix : List (List JVal))
    (clusters : List Cluster)
    (hfp : (fingerprint w env body images).1 = Except.ok (embeddings, label))
    (hmatrix : w.computeSimilarityMatrix embeddings = Except.ok matrix) (hrows : matrix ≠ [])
    (hclusters : w.clusterSimilarImages images matrix (thresholdOf body) = Except.ok clusters) :
    processImagesRequest w env body images =
      (Outcome.responded 200 (successResponse w images (thresholdOf body) label clusters),
        (fingerprint w env body images).2 ++
          [Event.computeSimilarityMatrix embeddings,
           Event.clusterSimilarImages images matrix (thresholdOf body)]) := by
  rw [run_of_ok w env body images embeddings label hfp]
  cases matrix with
  | nil => exact absurd rfl hrows
  | cons row rows =>
    unfold compare
    simp only [hmatrix, hclusters]

/-- What follows the backend calls in a run never is a backend call. -/
theorem run_backend_events (w : World) (env : Env) (body : JVal) (images : List JVal) :
    ∀ e ∈ (processImagesRequest w env body images).2, e.isBackend = true →
      e ∈ (fingerprint w env body images).2 := by
  intro e he hb
  cases hf : (fingerprint w env body images).1 with
  | error message =>
    rw [run_of_error w env body images message hf, recover_trace] at he
    simp only [List.mem_append, List.mem_singleton] at he
    rcases he with he | he
    · exact he
    · subst he
      simp [Event.isBackend, Event.isLocal, Event.isGemini, Event.isHF] at hb
  | ok p =>
    obtain ⟨embeddings, label⟩ := p
    rw [run_of_ok w env body images embeddings label hf] at he
    unfold compare at he
    split at he
    · simp only [List.mem_append, List.mem_singleton] at he
      rcases he with he | he
      · exact he
      · subst he
        simp [Event.isBackend, Event.isLocal, Event.isGemini, Event.isHF] at hb
    · rw [recover_trace] at he
      simp only [List.mem_append, List.mem_singleton] at he
      rcases he with (he | he) | he
      · exact he
      · subst he
        simp [Event.isBackend, Event.isLocal, Event.isGemini, Event.isHF] at hb
      · subst he
        simp [Event.isBackend, Event.isLocal, Event.isGemini, Event.isHF] at hb
    · split at he
      · rw [recover_trace] at he
        simp only [List.mem_append, List.mem_singleton, List.mem_cons, List.mem_nil_iff,
          or_false] at he
        rcases he with (he | he | he) | he
        · exact he
        · subst he
          simp [Event.isBackend, Event.isLocal, Event.isGemini, Event.isHF] at hb
        · subst he
          simp [Event.isBackend, Event.isLocal, Event.isGemini, Event.isHF] at hb
        · subst he
          simp [Event.isBackend, Event.isLocal, Event.isGemini, Event.isHF] at hb
      · simp only [List.mem_append, List.mem_singleton, List.mem_cons, List.mem_nil_iff,
          or_false] at he
        rcases he with he | he | he
        · exact he
        · subst he
          simp [Event.isBackend, Event.isLocal, Event.isGemini, Event.isHF] at hb
        · subst he
          simp [Event.isBackend, Event.isLocal, Event.isGemini, Event.isHF] at hb

/-- Every threshold handed on during a run is the one read from the body. -/
theorem run_thresholds (w : World) (env : Env) (body : JVal) (images : List JVal) :
    ∀ t ∈ thresholdsUsed (processImagesRequest w env body images).2, t = thresholdOf body := by
  intro t ht
  have hfp := thresholdsUsed_backend _ (fingerprint_isBackend w env body images)
  cases hf : (fingerprint w env body images).1 with
  | error message =>
    rw [run_of_error w env body images message hf, recover_trace, thresholdsUsed_append,
      hfp] at ht
    simpa [thresholdsUsed] using ht
  | ok p =>
    obtain ⟨embeddings, label⟩ := p
    rw [run_of_ok w env body images embeddings label hf] at ht
    unfold compare at ht
    split at ht
    · rw [thresholdsUsed_append, hfp] at ht
      simp [thresholdsUsed] at ht
    · rw [recover_trace, thresholdsUsed_append, thresholdsUsed_append, hfp] at ht
      simpa [thresholdsUsed] using ht
    · split at ht
      · rw [recover_trace, thresholdsUsed_append, thresholdsUsed_append, hfp] at ht
        simpa [thresholdsUsed] using ht
      · rw [thresholdsUsed_append, hfp] at ht
        simpa [thresholdsUsed] using ht

theorem fingerprint_noBackend (w : World) (env : Env) (body : JVal) (images : List JVal)
    (hlocal : specLocalUrl env body = none) (hgoogle : isSet env.GOOGLE_API_KEY = false)
    (hhf : isSet env.HUGGINGFACE_API_KEY = false) :
    fingerprint w env body images = (Except.error "No embedding backend available", []) := by
  have h1 : (effectiveLocalUrl env body).truthy = false := by
    rw [← specLocalUrl_isSome, hlocal]
    rfl
  unfold fingerprint
  simp only [h1, envVal_truthy, hgoogle, hhf, if_false, Bool.false_eq_true]

/-! ## Objects and strings -/

theorem lookupField_setField_same (fields : List (String × JVal)) (k : String) (x : JVal) :
    lookupField k (setField fields k x) = x := by
  induction fields with
  | nil => simp [setField, lookupField]
  | cons kv rest ih =>
    obtain ⟨k', v⟩ := kv
    by_cases h : k' = k
    · simp [setField, lookupField, h]
    · simp [setField, lookupField, h, ih]

theorem lookupField_setField_other (fields : List (String × JVal)) (k k' : String) (x : JVal)
    (h : k' ≠ k) : lookupField k' (setField fields k x) = lookupField k' fields := by
  induction fields with
  | nil => simp [setField, lookupField, Ne.symm h]
  | cons kv rest ih =>
    obtain ⟨k₀, v⟩ := kv
    by_cases h0 : k₀ = k
    · subst h0
      simp [setField, lookupField, Ne.symm h]
    · by_cases h1 : k₀ = k'
      · subst h1
        simp [setField, lookupField, h0]
      · simp [setField, lookupField, h0, h1, ih]

theorem mem_setField (fields : List (String × JVal)) (k : String) (x : JVal) :
    (k, x) ∈ setField fields k x := by
  induction fields with
  | nil => simp [setField]
  | cons kv rest ih =>
    obtain ⟨k', v⟩ := kv
    by_cases h : k' = k
    · simp [setField, h]
    · simp [setField, h, ih]

theorem includesChars_append (pat pre post : List Char) :
    includesChars pat (pre ++ (pat ++ post)) = true := by
  induction pre with
  | nil =>
    cases h : pat ++ post with
    | nil =>
      have : pat = [] := (List.append_eq_nil.mp h).1
      simp [includesChars, this]
    | cons c cs =>
      simp only [List.nil_append, includesChars, ← h, Bool.or_eq_true, decide_eq_true_eq]
      exact Or.inl (List.prefix_append pat post)
  | cons c cs ih =>
    simp only [List.cons_append, includesChars, Bool.or_eq_true]
    exact Or.inr ih

theorem includes_append (pre pat post : String) :
    includes (pre ++ pat ++ post) pat = true := by
  unfold includes
  simp only [String.data_append, List.append_assoc]
  exact includesChars_append pat.data pre.data post.data

theorem includes_self (s : String) : includes s s = true := by
  have h := includesChars_append s.data [] []
  simpa [includes] using h

/-- The body built from the fallback result is that result with the two
fields `usedFallback` and `fallbackReason` set. -/
theorem fallbackResponse_fields (result : List (String × JVal)) (message : String) :
    (fallbackResponse result message).prop "usedFallback" = JVal.bool true ∧
    (fallbackResponse result message).prop "fallbackReason" = JVal.str message ∧
    (∀ k, k ≠ "usedFallback" → k ≠ "fallbackReason" →
      (fallbackResponse result message).prop k = lookupField k result) := by
  refine ⟨?_, ?_, ?_⟩
  · simp only [fallbackResponse, JVal.prop]
    rw [lookupField_setField_other _ _ _ _ (by decide), lookupField_setField_same]
  · simp only [fallbackResponse, JVal.prop]
    rw [lookupField_setField_same]
  · intro k h1 h2
    simp only [fallbackResponse, JVal.prop]
    rw [lookupField_setField_other _ _ _ _ h2, lookupField_setField_other _ _ _ _ h1]

/-! ## Backend selection -/

/-- C1. For every `POST` with a non-empty `images` array the backend is the
first match of the fixed order local service, Gemini, Hugging Face, none
(`selectedBackend`, a function of the request body and the environment only,
so decided once for the batch): every call to a network backend made during
the request belongs to that backend, and whenever the embedding path answers
with its success response, the embeddings are that backend's result and the
`algorithm` field is that backend's label. -/
theorem process_backend_selection (w : World) (env : Env) (req : Request) (images : List JVal)
    (hmethod : req.method = "POST") (himages : req.body.prop "images" = JVal.arr images)
    (hne : images ≠ []) :
    (∀ e ∈ (handler w env req).2, e.isBackend = true →
      (selectedBackend env req.body).owns e = true) ∧
    (∀ embeddings label matrix clusters,
      (fingerprint w env req.body images).1 = Except.ok (embeddings, label) →
      w.computeSimilarityMatrix embeddings = Except.ok matrix → matrix ≠ [] →
      w.clusterSimilarImages images matrix (thresholdOf req.body) = Except.ok clusters →
      (selectedBackend env req.body).label = some label ∧
      Backend.result w env req.body images (selectedBackend env req.body) =
        Except.ok embeddings ∧
      (handler w env req).1 =
        Outcome.responded 200 (successResponse w images (thresholdOf req.body) label clusters) ∧
      (successResponse w images (thresholdOf req.body) label clusters).prop "algorithm" =
        JVal.str label) := by
  rw [handler_accepts w env req images hmethod himages hne]
  have hsel := fingerprint_selected w env req.body images
  refine ⟨?_, ?_⟩
  · intro e he hb
    exact hsel.1 e (run_backend_events w env req.body images e he hb)
  · intro embeddings label matrix clusters hfp hmatrix hrows hclusters
    refine ⟨(hsel.2.1 embeddings label hfp).1, (hsel.2.1 embeddings label hfp).2, ?_, ?_⟩
    · rw [run_success w env req.body images embeddings label matrix clusters hfp hmatrix hrows
        hclusters]
    · simp [successResponse, JVal.prop, lookupField]

/-- C1, at a sample request: with every backend configured the local service
is the one selected, and the success response is labelled `Local-CLIP`. -/
theorem process_backend_selection_witness :
    (sampleRequest []).method = "POST" ∧
    (sampleRequest []).body.prop "images" = JVal.arr sampleImages ∧
    sampleImages ≠ [] ∧
    selectedBackend fullEnv (sampleRequest []).body = Backend.localClip ∧
    (handler onlineWorld fullEnv (sampleRequest [])).1 =
      Outcome.responded 200
        (successResponse onlineWorld sampleImages defaultThreshold "Local-CLIP" []) :=
  ⟨rfl, rfl, by simp [sampleImages], by decide,
    ((process_backend_selection onlineWorld fullEnv (sampleRequest []) sampleImages rfl rfl
      (by simp [sampleImages])).2 (sampleEmbeddings.map normalizeLocalVector) "Local-CLIP"
        sampleMatrix [] rfl rfl (by simp [sampleMatrix]) rfl).2.2.1⟩

/-! ## Falling back -/

/-- C2. When the selected backend throws (with message `message`) and
`processFallback` succeeds on the request's images and threshold, the calls of
the request are calls of the selected backend followed by exactly one call
`processFallback(images, similarityThreshold)` on the whole image list, so no
other backend, no similarity matrix and no clustering is tried and nothing the
failed backend produced is handed on; the answer is 200 and its body is the
fallback result with `usedFallback = true` and `fallbackReason = message` set
and every other field untouched. -/
theorem fallback_after_backend_failure (w : World) (env : Env) (req : Request)
    (images : List JVal) (message : String) (result : List (String × JVal))
    (hmethod : req.method = "POST") (himages : req.body.prop "images" = JVal.arr images)
    (hne : images ≠ [])
    (hthrows : Backend.result w env req.body images (selectedBackend env req.body) =
      Except.error message)
    (hfallback : w.processFallback images (thresholdOf req.body) = Except.ok result) :
    (handler w env req).1 = Outcome.responded 200 (fallbackResponse result message) ∧
    (fallbackResponse result message).prop "usedFallback" = JVal.bool true ∧
    (fallbackResponse result message).prop "fallbackReason" = JVal.str message ∧
    (∀ k, k ≠ "usedFallback" → k ≠ "fallbackReason" →
      (fallbackResponse result message).prop k = lookupField k result) ∧
    (∃ calls, (handler w env req).2 =
        calls ++ [Event.processFallback images (thresholdOf req.body)] ∧
      ∀ e ∈ calls, (selectedBackend env req.body).owns e = true) := by
  have hfp := fingerprint_error_of_result w env req.body images message hthrows
  have hrun : handler w env req =
      (Outcome.responded 200 (fallbackResponse result message),
        (fingerprint w env req.body images).2 ++
          [Event.processFallback images (thresholdOf req.body)]) := by
    rw [handler_accepts w env req images hmethod himages hne,
      run_of_error w env req.body images message hfp,
      recover_ok w images (thresholdOf req.body) message _ result hfallback]
  have hfields := fallbackResponse_fields result message
  refine ⟨by rw [hrun], hfields.1, hfields.2.1, hfields.2.2, ?_⟩
  exact ⟨(fingerprint w env req.body images).2, by rw [hrun],
    (fingerprint_selected w env req.body images).1⟩

/-- C2, at a sample request: the local service is selected and unreachable,
the fallback works. -/
theorem fallback_after_backend_failure_witness :
    (sampleRequest []).method = "POST" ∧
    (sampleRequest []).body.prop "images" = JVal.arr sampleImages ∧
    sampleImages ≠ [] ∧
    Backend.result offlineWorld fullEnv (sampleRequest []).body sampleImages
      (selectedBackend fullEnv (sampleRequest []).body) = Except.error "connect ECONNREFUSED" ∧
    offlineWorld.processFallback sampleImages (thresholdOf (sampleRequest []).body) =
      Except.ok sampleFallbackResult ∧
    (handler offlineWorld fullEnv (sampleRequest [])).1 =
      Outcome.responded 200 (fallbackResponse sampleFallbackResult "connect ECONNREFUSED") :=
  ⟨rfl, rfl, by simp [sampleImages], rfl, rfl,
    (fallback_after_backend_failure offlineWorld fullEnv (sampleRequest []) sampleImages
      "connect ECONNREFUSED" sampleFallbackResult rfl rfl (by simp [sampleImages]) rfl rfl).1⟩

/-- C3. With no local URL in the body or the environment and neither API key
set, an accepted request makes exactly one outside call, `processFallback` on
the whole image list with the request's threshold (so no embedding network
call), and when that succeeds the answer is 200 with the fallback result
marked `usedFallback = true`. -/
theorem fallback_without_backend (w : World) (env : Env) (req : Request) (images : List JVal)
    (hmethod : req.method = "POST") (himages : req.body.prop "images" = JVal.arr images)
    (hne : images ≠ [])
    (hlocal : specLocalUrl env req.body = none)
    (hgoogle : isSet env.GOOGLE_API_KEY = false)
    (hhf : isSet env.HUGGINGFACE_API_KEY = false) :
    (handler w env req).2 = [Event.processFallback images (thresholdOf req.body)] ∧
    (∀ result, w.processFallback images (thresholdOf req.body) = Except.ok result →
      (handler w env req).1 =
        Outcome.responded 200 (fallbackResponse result "No embedding backend available") ∧
      (fallbackResponse result "No embedding backend available").prop "usedFallback" =
        JVal.bool true) := by
  have hfp := fingerprint_noBackend w env req.body images hlocal hgoogle hhf
  have hrun : handler w env req =
      recover w images (thresholdOf req.body) "No embedding backend available" [] := by
    rw [handler_accepts w env req images hmethod himages hne,
      run_of_error w env req.body images "No embedding backend available" (by rw [hfp]), hfp]
  refine ⟨?_, ?_⟩
  · rw [hrun, recover_trace]
    rfl
  · intro result hresult
    refine ⟨?_, (fallbackResponse_fields result _).1⟩
    rw [hrun, recover_ok w images (thresholdOf req.body) _ _ result hresult]

/-- C3, at a sample request with an empty environment. -/
theorem fallback_without_backend_witness :
    (sampleRequest []).method = "POST" ∧
    (sampleRequest []).body.prop "images" = JVal.arr sampleImages ∧
    sampleImages ≠ [] ∧
    specLocalUrl bareEnv (sampleRequest []).body = none ∧
    isSet bareEnv.GOOGLE_API_KEY = false ∧
    isSet bareEnv.HUGGINGFACE_API_KEY = false ∧
    (handler offlineWorld bareEnv (sampleRequest [])).2 =
      [Event.processFallback sampleImages defaultThreshold] :=
  ⟨rfl, rfl, by simp [sampleImages], rfl, rfl, rfl,
    (fallback_without_backend offlineWorld bareEnv (sampleRequest []) sampleImages rfl rfl
      (by simp [sampleImages]) rfl rfl rfl).1⟩

/-- C4 as stated fails: the local service fails with a message containing
`timeout`, the fallback fails too, and the 408 answer carries neither the
fallback's message nor the backend's. -/
theorem both_fail_timeout_counterexample :
    Backend.result (brokenWorld "network timeout" "unsupported image format") fullEnv
      (sampleRequest []).body sampleImages (selectedBackend fullEnv (sampleRequest []).body) =
      Except.error "network timeout" ∧
    (brokenWorld "network timeout" "unsupported image format").processFallback sampleImages
      (thresholdOf (sampleRequest []).body) = Except.error "unsupported image format" ∧
    (handler (brokenWorld "network timeout" "unsupported image format") fullEnv
      (sampleRequest [])).1 =
      Outcome.responded 408 (JVal.obj
        [("success", JVal.bool false),
         ("error", JVal.str "Processing timeout - dataset too large for current configuration"),
         ("suggestion", JVal.str "Try processing fewer brands or smaller image sets")]) ∧
    carries (handler (brokenWorld "network timeout" "unsupported image format") fullEnv
      (sampleRequest [])).1.body "unsupported image format" = false ∧
    carries (handler (brokenWorld "network timeout" "unsupported image format") fullEnv
      (sampleRequest [])).1.body "network timeout" = false :=
  ⟨rfl, rfl, rfl, rfl, rfl⟩

/-- C4, amended. When the selected backend throws with `message` and
`processFallback` throws with `fallbackMessage`, the answer has
`success = false` and status 408, 502 or 500. Unless `message` contains
`timeout`, its `details` field is
`Gemini: <message>, Fallback: <fallbackMessage>` and so carries both
messages; when `message` contains `timeout` the answer is the 408 one, which
has no `details` field. -/
theorem both_fail_response (w : World) (env : Env) (req : Request) (images : List JVal)
    (message fallbackMessage : String)
    (hmethod : req.method = "POST") (himages : req.body.prop "images" = JVal.arr images)
    (hne : images ≠ [])
    (hthrows : Backend.result w env req.body images (selectedBackend env req.body) =
      Except.error message)
    (hfallback : w.processFallback images (thresholdOf req.body) =
      Except.error fallbackMessage) :
    ((handler w env req).1.status = 408 ∨ (handler w env req).1.status = 502 ∨
      (handler w env req).1.status = 500) ∧
    (handler w env req).1.body.prop "success" = JVal.bool false ∧
    (includes message "timeout" = false →
      (handler w env req).1.body.prop "details" =
        JVal.str ("Gemini: " ++ message ++ ", Fallback: " ++ fallbackMessage) ∧
      carries (handler w env req).1.body message = true ∧
      carries (handler w env req).1.body fallbackMessage = true) ∧
    (includes message "timeout" = true →
      (handler w env req).1.status = 408 ∧
      (handler w env req).1.body.prop "details" = JVal.undefined) := by
  have hfp := fingerprint_error_of_result w env req.body images message hthrows
  have hrun : (handler w env req).1 =
      Outcome.responded (failureResponse message fallbackMessage).1
        (failureResponse message fallbackMessage).2 := by
    rw [handler_accepts w env req images hmethod himages hne,
      run_of_error w env req.body images message hfp,
      recover_error w images (thresholdOf req.body) message _ fallbackMessage hfallback]
  have hm : includes ("Gemini: " ++ message ++ ", Fallback: " ++ fallbackMessage) message
      = true := by
    have := includes_append "Gemini: " message (", Fallback: " ++ fallbackMessage)
    simpa [String.append_assoc] using this
  have hf : includes ("Gemini: " ++ message ++ ", Fallback: " ++ fallbackMessage)
      fallbackMessage = true := by
    have := includes_append ("Gemini: " ++ message ++ ", Fallback: ") fallbackMessage ""
    simpa using this
  rw [hrun]
  simp only [Outcome.status, Outcome.body]
  unfold failureResponse
  by_cases ht : includes message "timeout" = true
  · simp [ht, JVal.prop, lookupField]
  · by_cases ha : includes message "API" = true
    · simp [ht, ha, JVal.prop, lookupField, carries, hm, hf]
    · simp [ht, ha, JVal.prop, lookupField, carries, hm, hf]

/-- C4 amended, at a sample request: connection refused, then a failing
fallback, gives the 500 answer with both messages in `details`. -/
theorem both_fail_response_witness :
    (sampleRequest []).method = "POST" ∧
    (sampleRequest []).body.prop "images" = JVal.arr sampleImages ∧
    sampleImages ≠ [] ∧
    Backend.result (brokenWorld "connect ECONNREFUSED" "unsupported image format") fullEnv
      (sampleRequest []).body sampleImages (selectedBackend fullEnv (sampleRequest []).body) =
      Except.error "connect ECONNREFUSED" ∧
    (brokenWorld "connect ECONNREFUSED" "unsupported image format").processFallback sampleImages
      (thresholdOf (sampleRequest []).body) = Except.error "unsupported image format" ∧
    (handler (brokenWorld "connect ECONNREFUSED" "unsupported image format") fullEnv
      (sampleRequest [])).1.body.prop "success" = JVal.bool false :=
  ⟨rfl, rfl, by simp [sampleImages], rfl, rfl,
    (both_fail_response (brokenWorld "connect ECONNREFUSED" "unsupported image format") fullEnv
      (sampleRequest []) sampleImages "connect ECONNREFUSED" "unsupported image format"
      rfl rfl (by simp [sampleImages]) rfl rfl).2.1⟩

/-- C5 as stated fails: the local service is unreachable, the fallback
succeeds, and the 200 answer contains the backend's error message. -/
theorem fallback_reason_counterexample :
    Backend.result offlineWorld fullEnv (sampleRequest []).body sampleImages
      (selectedBackend fullEnv (sampleRequest []).body) = Except.error "connect ECONNREFUSED" ∧
    offlineWorld.processFallback sampleImages (thresholdOf (sampleRequest []).body) =
      Except.ok sampleFallbackResult ∧
    (handler offlineWorld fullEnv (sampleRequest [])).1.status = 200 ∧
    (handler offlineWorld fullEnv (sampleRequest [])).1.body.prop "fallbackReason" =
      JVal.str "connect ECONNREFUSED" ∧
    carries (handler offlineWorld fullEnv (sampleRequest [])).1.body "connect ECONNREFUSED" =
      true :=
  ⟨rfl, rfl, rfl, rfl, rfl⟩

/-- C5, amended. When the selected backend throws with `message` and
`processFallback` succeeds, the 200 answer does surface the backend's error
message: it is the value of the field `fallbackReason`. -/
theorem fallback_reason_surfaced (w : World) (env : Env) (req : Request)
    (images : List JVal) (message : String) (result : List (String × JVal))
    (hmethod : req.method = "POST") (himages : req.body.prop "images" = JVal.arr images)
    (hne : images ≠ [])
    (hthrows : Backend.result w env req.body images (selectedBackend env req.body) =
      Except.error message)
    (hfallback : w.processFallback images (thresholdOf req.body) = Except.ok result) :
    (handler w env req).1.status = 200 ∧
    (handler w env req).1.body.prop "fallbackReason" = JVal.str message ∧
    carries (handler w env req).1.body message = true := by
  have hfp := fingerprint_error_of_result w env req.body images message hthrows
  have hrun : (handler w env req).1 =
      Outcome.responded 200 (fallbackResponse result message) := by
    rw [handler_accepts w env req images hmethod himages hne,
      run_of_error w env req.body images message hfp,
      recover_ok w images (thresholdOf req.body) message _ result hfallback]
  rw [hrun]
  refine ⟨rfl, (fallbackResponse_fields result message).2.1, ?_⟩
  simp only [Outcome.body, fallbackResponse, carries, List.any_eq_true]
  exact ⟨("fallbackReason", JVal.str message), mem_setField _ _ _, includes_self message⟩

/-- C5 amended, at a sample request served by Gemini. -/
theorem fallback_reason_surfaced_witness :
    (sampleRequest []).method = "POST" ∧
    (sampleRequest []).body.prop "images" = JVal.arr sampleImages ∧
    sampleImages ≠ [] ∧
    Backend.result offlineWorld { fullEnv with LOCAL_CLIP_URL := none } (sampleRequest []).body
      sampleImages (selectedBackend { fullEnv with LOCAL_CLIP_URL := none }
        (sampleRequest []).body) = Except.error "Gemini unreachable" ∧
    offlineWorld.processFallback sampleImages (thresholdOf (sampleRequest []).body) =
      Except.ok sampleFallbackResult ∧
    (handler offlineWorld { fullEnv with LOCAL_CLIP_URL := none }
      (sampleRequest [])).1.body.prop "fallbackReason" = JVal.str "Gemini unreachable" :=
  ⟨rfl, rfl, by simp [sampleImages], rfl, rfl,
    (fallback_reason_surfaced offlineWorld { fullEnv with LOCAL_CLIP_URL := none }
      (sampleRequest []) sampleImages "Gemini unreachable" sampleFallbackResult
      rfl rfl (by simp [sampleImages]) rfl rfl).2.1⟩

/-! ## Failures after fingerprinting -/

/-- C6. When step 1 yields embeddings and `computeSimilarityMatrix` throws
with `simMessage`, the handler calls neither `clusterSimilarImages` nor
`processFallback`; it answers 500 with `error = 'Similarity computation
failed'` and `message = simMessage`, a body without `results`, and its
`error` differs from the `error` of every answer given when backend and
fallback both fail. -/
theorem similarity_failure_response (w : World) (env : Env) (req : Request)
    (images embeddings : List JVal) (label simMessage : String)
    (hmethod : req.method = "POST") (himages : req.body.prop "images" = JVal.arr images)
    (hne : images ≠ [])
    (hfp : (fingerprint w env req.body images).1 = Except.ok (embeddings, label))
    (hsim : w.computeSimilarityMatrix embeddings = Except.error simMessage) :
    (handler w env req).1 = Outcome.responded 500 (similarityFailure simMessage embeddings) ∧
    (handler w env req).2 =
      (fingerprint w env req.body images).2 ++ [Event.computeSimilarityMatrix embeddings] ∧
    (∀ e ∈ (handler w env req).2, e.isCluster = false ∧ e.isFallback = false) ∧
    (similarityFailure simMessage embeddings).prop "error" =
      JVal.str "Similarity computation failed" ∧
    (similarityFailure simMessage embeddings).prop "message" = JVal.str simMessage ∧
    (similarityFailure simMessage embeddings).prop "results" = JVal.undefined ∧
    (∀ message fallbackMessage,
      (failureResponse message fallbackMessage).2.prop "error" ≠
        (similarityFailure simMessage embeddings).prop "error") := by
  have hrun : handler w env req =
      (Outcome.responded 500 (similarityFailure simMessage embeddings),
        (fingerprint w env req.body images).2 ++
          [Event.computeSimilarityMatrix embeddings]) := by
    rw [handler_accepts w env req images hmethod himages hne,
      run_of_ok w env req.body images embeddings label hfp]
    unfold compare
    simp only [hsim]
  refine ⟨by rw [hrun], by rw [hrun], ?_, ?_, ?_, ?_, ?_⟩
  · intro e he
    rw [hrun] at he
    simp only [List.mem_append, List.mem_singleton] at he
    rcases he with he | he
    · have hb := (fingerprint_selected w env req.body images).1 e he
      cases hs : selectedBackend env req.body <;> rw [hs] at hb <;>
        cases e <;> simp [Backend.owns, Event.isLocal, Event.isGemini, Event.isHF] at hb <;>
        simp [Event.isCluster, Event.isFallback]
    · subst he
      simp [Event.isCluster, Event.isFallback]
  · simp [similarityFailure, JVal.prop, lookupField]
  · simp [similarityFailure, JVal.prop, lookupField]
  · simp [similarityFailure, JVal.prop, lookupField]
  · intro message fallbackMessage
    unfold failureResponse
    by_cases ht : includes message "timeout" = true
    · simp [ht, similarityFailure, JVal.prop, lookupField]
    · by_cases ha : includes message "API" = true
      · simp [ht, ha, similarityFailure, JVal.prop, lookupField]
      · simp [ht, ha, similarityFailure, JVal.prop, lookupField]

/-- C6, at a sample request: the local service answers and the matrix
computation rejects the vectors. -/
theorem similarity_failure_response_witness :
    (sampleRequest []).method = "POST" ∧
    (sampleRequest []).body.prop "images" = JVal.arr sampleImages ∧
    sampleImages ≠ [] ∧
    (fingerprint mismatchWorld fullEnv (sampleRequest []).body sampleImages).1 =
      Except.ok (sampleEmbeddings.map normalizeLocalVector, "Local-CLIP") ∧
    mismatchWorld.computeSimilarityMatrix (sampleEmbeddings.map normalizeLocalVector) =
      Except.error "Embedding dimension mismatch" ∧
    (handler mismatchWorld fullEnv (sampleRequest [])).1 =
      Outcome.responded 500 (similarityFailure "Embedding dimension mismatch"
        (sampleEmbeddings.map normalizeLocalVector)) :=
  ⟨rfl, rfl, by simp [sampleImages], rfl, rfl,
    (similarity_failure_response mismatchWorld fullEnv (sampleRequest []) sampleImages
      (sampleEmbeddings.map normalizeLocalVector) "Local-CLIP" "Embedding dimension mismatch"
      rfl rfl (by simp [sampleImages]) rfl rfl).1⟩

/-- C7 fails on the code: the local service and the matrix computation
succeed, `clusterSimilarImages` throws, and the handler runs
`processFallback` and answers 200 with the fallback result, the clustering
error reported as `fallbackReason`. -/
theorem clustering_failure_runs_fallback :
    (fingerprint clusterFailWorld fullEnv (sampleRequest []).body sampleImages).1 =
      Except.ok (sampleEmbeddings.map normalizeLocalVector, "Local-CLIP") ∧
    clusterFailWorld.computeSimilarityMatrix (sampleEmbeddings.map normalizeLocalVector) =
      Except.ok sampleMatrix ∧
    clusterFailWorld.clusterSimilarImages sampleImages sampleMatrix defaultThreshold =
      Except.error "Invalid similarity matrix" ∧
    handler clusterFailWorld fullEnv (sampleRequest []) =
      (Outcome.responded 200 (fallbackResponse sampleFallbackResult "Invalid similarity matrix"),
        [sampleLocalFetch, sampleLocalFetch,
         Event.computeSimilarityMatrix (sampleEmbeddings.map normalizeLocalVector),
         Event.clusterSimilarImages sampleImages sampleMatrix defaultThreshold,
         Event.processFallback sampleImages defaultThreshold]) ∧
    (fallbackResponse sampleFallbackResult "Invalid similarity matrix").prop "usedFallback" =
      JVal.bool true :=
  ⟨rfl, rfl, rfl, rfl, rfl⟩

/-! ## Input validation and the threshold -/

theorem clientError_required : clientError "Images array is required" =
    "Images array is required" := by
  decide

theorem processImages_rejects (post : String → JVal → Except String JVal) (images : JVal)
    (options : Option ProcessOptions)
    (hbad : images.isArray = false ∨ images = JVal.arr []) :
    processImages post images options = (Except.error "Images array is required", []) := by
  unfold processImages
  rcases hbad with h | h
  · cases images <;> simp [JVal.isArray] at h <;> simp [clientError_required]
  · subst h
    simp [clientError_required]

theorem processImages_posts (post : String → JVal → Except String JVal) (i : JVal)
    (rest : List JVal) (options : Option ProcessOptions) :
    postsOf (processImages post (JVal.arr (i :: rest)) options).2 =
      [("/process", processBody (JVal.arr (i :: rest))
        (if (options.getD ProcessOptions.empty).similarityThreshold.isUndefined then
          defaultThreshold
        else (options.getD ProcessOptions.empty).similarityThreshold))] := by
  have hprogress : ∀ n, postsOf (progressEvents n) = [] := by
    intro n
    simp [progressEvents, batchProgress, postsOf]
  have happend : ∀ (a b : List ClientEvent), postsOf (a ++ b) = postsOf a ++ postsOf b := by
    intro a b
    induction a with
    | nil => rfl
    | cons e tail ih => cases e <;> simp [postsOf, ih]
  unfold processImages
  dsimp only
  split <;> split <;> simp [happend, hprogress, postsOf]

/-- C8. A `POST` whose body has no `images` field, one that is not an array,
or an empty array is answered 400 with `error = 'Images array required'`
without any outside call (no backend, no matrix or clustering, no fallback);
and `apiService.processImages` throws `Images array is required` for such
images without any progress callback or request to `/process`. -/
theorem empty_input_rejected (w : World) (env : Env) (req : Request)
    (post : String → JVal → Except String JVal) (clientImages : JVal)
    (options : Option ProcessOptions)
    (hmethod : req.method = "POST") (hbody : req.body.isNullish = false)
    (hbad : (req.body.prop "images").isArray = false ∨ req.body.prop "images" = JVal.arr [])
    (hclient : clientImages.isArray = false ∨ clientImages = JVal.arr []) :
    handler w env req =
      (Outcome.responded 400 (JVal.obj [("error", JVal.str "Images array required")]), []) ∧
    processImages post clientImages options =
      (Except.error "Images array is required", []) :=
  ⟨handler_rejects w env req hmethod hbody hbad,
    processImages_rejects post clientImages options hclient⟩

/-- C8, at a `POST` with an empty `images` array and a client call without
images. -/
theorem empty_input_rejected_witness :
    ("POST" = "POST") ∧
    (JVal.obj [("images", JVal.arr [])]).isNullish = false ∧
    (((JVal.obj [("images", JVal.arr [])]).prop "images").isArray = false ∨
      (JVal.obj [("images", JVal.arr [])]).prop "images" = JVal.arr []) ∧
    (JVal.undefined.isArray = false ∨ JVal.undefined = JVal.arr []) ∧
    handler onlineWorld fullEnv
        { method := "POST", body := JVal.obj [("images", JVal.arr [])] } =
      (Outcome.responded 400 (JVal.obj [("error", JVal.str "Images array required")]), []) ∧
    processImages (fun _ _ => Except.ok JVal.null) JVal.undefined none =
      (Except.error "Images array is required", []) :=
  ⟨rfl, rfl, Or.inr rfl, Or.inl rfl,
    empty_input_rejected onlineWorld fullEnv
      { method := "POST", body := JVal.obj [("images", JVal.arr [])] }
      (fun _ _ => Except.ok JVal.null) JVal.undefined none rfl rfl (Or.inr rfl) (Or.inl rfl)⟩

/-- C9. The threshold read from the body is 0.88 when the body has no
`similarityThreshold` and the supplied value otherwise; every call of
`clusterSimilarImages` and of `processFallback` during an accepted request
gets that threshold, and the success response echoes it. On the client side
`processImages`, given images and options without a `similarityThreshold`,
sends exactly one request, to `/process`, with `similarityThreshold = 0.88`. -/
theorem threshold_default_and_override (w : World) (env : Env) (req : Request)
    (images : List JVal) (post : String → JVal → Except String JVal) (i : JVal)
    (rest : List JVal) (options : Option ProcessOptions)
    (hmethod : req.method = "POST") (himages : req.body.prop "images" = JVal.arr images)
    (hne : images ≠ []) :
    (req.body.prop "similarityThreshold" = JVal.undefined →
      thresholdOf req.body = JVal.num 0.88) ∧
    (∀ v, v ≠ JVal.undefined → req.body.prop "similarityThreshold" = v →
      thresholdOf req.body = v) ∧
    (∀ t ∈ thresholdsUsed (handler w env req).2, t = thresholdOf req.body) ∧
    (∀ embeddings label matrix clusters,
      (fingerprint w env req.body images).1 = Except.ok (embeddings, label) →
      w.computeSimilarityMatrix embeddings = Except.ok matrix → matrix ≠ [] →
      w.clusterSimilarImages images matrix (thresholdOf req.body) = Except.ok clusters →
      thresholdsUsed (handler w env req).2 = [thresholdOf req.body] ∧
      (handler w env req).1.status = 200 ∧
      (handler w env req).1.body.prop "similarityThreshold" = thresholdOf req.body) ∧
    ((options.getD ProcessOptions.empty).similarityThreshold = JVal.undefined →
      postsOf (processImages post (JVal.arr (i :: rest)) options).2 =
        [("/process", processBody (JVal.arr (i :: rest)) (JVal.num 0.88))] ∧
      (processBody (JVal.arr (i :: rest)) (JVal.num 0.88)).prop "similarityThreshold" =
        JVal.num 0.88) := by
  refine ⟨?_, ?_, ?_, ?_, ?_⟩
  · intro h
    simp [thresholdOf, h, JVal.isUndefined, defaultThreshold]
  · intro v hv h
    cases v <;> simp [thresholdOf, h, JVal.isUndefined] at hv ⊢
  · rw [handler_accepts w env req images hmethod himages hne]
    exact run_thresholds w env req.body images
  · intro embeddings label matrix clusters hfp hmatrix hrows hclusters
    rw [handler_accepts w env req images hmethod himages hne,
      run_success w env req.body images embeddings label matrix clusters hfp hmatrix hrows
        hclusters]
    refine ⟨?_, rfl, ?_⟩
    · rw [thresholdsUsed_append,
        thresholdsUsed_backend _ (fingerprint_isBackend w env req.body images)]
      rfl
    · simp [Outcome.body, successResponse, JVal.prop, lookupField]
  · intro h
    refine ⟨?_, ?_⟩
    · rw [processImages_posts, h]
      rfl
    · simp [processBody, JVal.prop, lookupField]

/-- C9, at a sample request that supplies 0.93 and a client call with the
default options. -/
theorem threshold_default_and_override_witness :
    (sampleRequest [("similarityThreshold", JVal.num 0.93)]).method = "POST" ∧
    (sampleRequest [("similarityThreshold", JVal.num 0.93)]).body.prop "images" =
      JVal.arr sampleImages ∧
    sampleImages ≠ [] ∧
    thresholdOf (sampleRequest [("similarityThreshold", JVal.num 0.93)]).body =
      JVal.num 0.93 ∧
    thresholdsUsed (handler onlineWorld fullEnv
      (sampleRequest [("similarityThreshold", JVal.num 0.93)])).2 = [JVal.num 0.93] ∧
    ∀ t ∈ thresholdsUsed (handler onlineWorld fullEnv
      (sampleRequest [("similarityThreshold", JVal.num 0.93)])).2,
      t = thresholdOf (sampleRequest [("similarityThreshold", JVal.num 0.93)]).body :=
  ⟨rfl, rfl, by simp [sampleImages], rfl, rfl,
    (threshold_default_and_override onlineWorld fullEnv
      (sampleRequest [("similarityThreshold", JVal.num 0.93)]) sampleImages
      (fun _ _ => Except.ok JVal.null) JVal.null [] none rfl rfl
      (by simp [sampleImages])).2.2.1⟩

/-- C10 as stated fails: an accepted request that supplies
`similarityThreshold = 5` has `clusterSimilarImages` called with 5, which is
not in the open interval (0,1). -/
theorem threshold_range_counterexample :
    (handler onlineWorld fullEnv (sampleRequest [("similarityThreshold", JVal.num 5)])).2 =
      [sampleLocalFetch, sampleLocalFetch,
       Event.computeSimilarityMatrix (sampleEmbeddings.map normalizeLocalVector),
       Event.clusterSimilarImages sampleImages sampleMatrix (JVal.num 5)] ∧
    (handler onlineWorld fullEnv
      (sampleRequest [("similarityThreshold", JVal.num 5)])).1.status = 200 ∧
    inUnitInterval (JVal.num 5) = false :=
  ⟨rfl, rfl, by simp [inUnitInterval]⟩

/-- C10, amended. The handler does not check the range of the threshold: it
hands on what the request supplies. For an accepted request that omits
`similarityThreshold` or supplies a number strictly between 0 and 1, every
threshold given to `clusterSimilarImages` and to `processFallback` is a
number strictly between 0 and 1. -/
theorem threshold_in_range (w : World) (env : Env) (req : Request) (images : List JVal)
    (hmethod : req.method = "POST") (himages : req.body.prop "images" = JVal.arr images)
    (hne : images ≠ [])
    (hrange : req.body.prop "similarityThreshold" = JVal.undefined ∨
      inUnitInterval (req.body.prop "similarityThreshold") = true) :
    ∀ t ∈ thresholdsUsed (handler w env req).2, inUnitInterval t = true := by
  intro t ht
  rw [handler_accepts w env req images hmethod himages hne] at ht
  rw [run_thresholds w env req.body images t ht]
  rcases hrange with h | h
  · simp only [thresholdOf, h, JVal.isUndefined, if_true, defaultThreshold, inUnitInterval]
    norm_num
  · cases hv : req.body.prop "similarityThreshold" <;> rw [hv] at h <;>
      simp [inUnitInterval] at h
    simp only [thresholdOf, hv, JVal.isUndefined, if_false, Bool.false_eq_true, inUnitInterval]
    simpa using h

/-- C10 amended, at a sample request without a threshold. -/
theorem threshold_in_range_witness :
    (sampleRequest []).method = "POST" ∧
    (sampleRequest []).body.prop "images" = JVal.arr sampleImages ∧
    sampleImages ≠ [] ∧
    ((sampleRequest []).body.prop "similarityThreshold" = JVal.undefined ∨
      inUnitInterval ((sampleRequest []).body.prop "similarityThreshold") = true) ∧
    thresholdsUsed (handler onlineWorld fullEnv (sampleRequest [])).2 = [JVal.num 0.88] ∧
    ∀ t ∈ thresholdsUsed (handler onlineWorld fullEnv (sampleRequest [])).2,
      inUnitInterval t = true :=
  ⟨rfl, rfl, by simp [sampleImages], Or.inl rfl, rfl,
    threshold_in_range onlineWorld fullEnv (sampleRequest []) sampleImages rfl rfl
      (by simp [sampleImages]) (Or.inl rfl)⟩

/-! ## The success response -/

/-- The body of the answer of a request whose embeddings, matrix and clusters
all arrive. -/
theorem success_body (w : World) (env : Env) (req : Request) (images : List JVal)
    (embeddings : List JVal) (label : String) (matrix : List (List JVal))
    (clusters : List Cluster)
    (hmethod : req.method = "POST") (himages : req.body.prop "images" = JVal.arr images)
    (hne : images ≠ [])
    (hfp : (fingerprint w env req.body images).1 = Except.ok (embeddings, label))
    (hmatrix : w.computeSimilarityMatrix embeddings = Except.ok matrix) (hrows : matrix ≠ [])
    (hclusters : w.clusterSimilarImages images matrix (thresholdOf req.body) =
      Except.ok clusters) :
    (handler w env req).1.status = 200 ∧
    (handler w env req).1.body =
      successResponse w images (thresholdOf req.body) label clusters := by
  rw [handler_accepts w env req images hmethod himages hne,
    run_success w env req.body images embeddings label matrix clusters hfp hmatrix hrows
      hclusters]
  exact ⟨rfl, rfl⟩

theorem clusterEntries_length (cs : List Cluster) :
    ∀ n, (clusterEntries n cs).length = cs.length := by
  induction cs with
  | nil => intro n; rfl
  | cons c rest ih => intro n; simp [clusterEntries, ih]

theorem clusterEntries_getElem? (cs : List Cluster) :
    ∀ n i, (clusterEntries n cs)[i]? = (cs[i]?).map (clusterEntry (n + i)) := by
  induction cs with
  | nil => intro n i; simp [clusterEntries]
  | cons c rest ih =>
    intro n i
    cases i with
    | zero => simp [clusterEntries]
    | succ j =>
      simp only [clusterEntries, List.getElem?_cons_succ, ih]
      have : n + 1 + j = n + (j + 1) := by omega
      rw [this]

theorem mem_duplicateClusters (clusters : List Cluster) (c : Cluster) :
    c ∈ duplicateClusters clusters ↔ c ∈ clusters ∧ 1 < c.images.length := by
  simp [duplicateClusters, List.mem_filter]

/-- C11. In the success response `results.clusters` lists exactly the
clusters of the engine that have more than one image (a sub-list of the
engine's list, in its order); the cluster at position `i` gets `id = i`, its
`size` is its number of images, which is at least 2, its `avgSimilarity` is
the engine's, and its images are the engine's images in the engine's order,
each with the engine's `id`, `brand` and `url`. -/
theorem success_keeps_duplicate_clusters (w : World) (env : Env) (req : Request)
    (images : List JVal) (embeddings : List JVal) (label : String)
    (matrix : List (List JVal)) (clusters : List Cluster)
    (hmethod : req.method = "POST") (himages : req.body.prop "images" = JVal.arr images)
    (hne : images ≠ [])
    (hfp : (fingerprint w env req.body images).1 = Except.ok (embeddings, label))
    (hmatrix : w.computeSimilarityMatrix embeddings = Except.ok matrix) (hrows : matrix ≠ [])
    (hclusters : w.clusterSimilarImages images matrix (thresholdOf req.body) =
      Except.ok clusters) :
    ((handler w env req).1.body.prop "results").prop "clusters" =
      JVal.arr (clusterEntries 0 (duplicateClusters clusters)) ∧
    duplicateClusters clusters = clusters.filter (fun c => decide (1 < c.images.length)) ∧
    (duplicateClusters clusters).Sublist clusters ∧
    (∀ c, c ∈ duplicateClusters clusters ↔ c ∈ clusters ∧ 1 < c.images.length) ∧
    (clusterEntries 0 (duplicateClusters clusters)).length =
      (duplicateClusters clusters).length ∧
    (∀ i c, (duplicateClusters clusters)[i]? = some c →
      (clusterEntries 0 (duplicateClusters clusters))[i]? = some (clusterEntry i c) ∧
      (clusterEntry i c).prop "id" = natVal i ∧
      (clusterEntry i c).prop "size" = natVal c.images.length ∧
      2 ≤ c.images.length ∧
      (clusterEntry i c).prop "avgSimilarity" = c.avgSimilarity ∧
      (clusterEntry i c).prop "images" = JVal.arr (c.images.map imageEntry)) ∧
    (∀ img : ClusterImage, (imageEntry img).prop "id" = img.id ∧
      (imageEntry img).prop "brand" = img.brand ∧ (imageEntry img).prop "url" = img.url) := by
  have hbody := (success_body w env req images embeddings label matrix clusters hmethod himages
    hne hfp hmatrix hrows hclusters).2
  refine ⟨?_, rfl, ?_, mem_duplicateClusters clusters, clusterEntries_length _ 0, ?_, ?_⟩
  · rw [hbody]
    simp [successResponse, JVal.prop, lookupField]
  · exact List.filter_sublist clusters
  · intro i c hc
    have hmem : c ∈ duplicateClusters clusters := List.getElem?_mem hc
    refine ⟨?_, ?_, ?_, ?_, ?_, ?_⟩
    · rw [clusterEntries_getElem?, hc]
      simp
    · simp [clusterEntry, JVal.prop, lookupField]
    · simp [clusterEntry, JVal.prop, lookupField]
    · exact ((mem_duplicateClusters clusters c).mp hmem).2
    · simp [clusterEntry, JVal.prop, lookupField]
    · simp [clusterEntry, JVal.prop, lookupField]
  · intro img
    simp [imageEntry, JVal.prop, lookupField]

/-- C11, at the sample request with three images, two of them duplicates: the
singleton is dropped and the pair is returned with `id = 0`. -/
theorem success_keeps_duplicate_clusters_witness :
    (tripleRequest []).method = "POST" ∧
    (tripleRequest []).body.prop "images" = JVal.arr tripleImages ∧
    tripleImages ≠ [] ∧
    (fingerprint pairWorld fullEnv (tripleRequest []).body tripleImages).1 =
      Except.ok (tripleEmbeddings.map normalizeLocalVector, "Local-CLIP") ∧
    pairWorld.computeSimilarityMatrix (tripleEmbeddings.map normalizeLocalVector) =
      Except.ok (tripleMatrix 0.95 0.2 0.2) ∧
    tripleMatrix 0.95 0.2 0.2 ≠ [] ∧
    pairWorld.clusterSimilarImages tripleImages (tripleMatrix 0.95 0.2 0.2)
      (thresholdOf (tripleRequest []).body) = Except.ok pairClusters ∧
    ((handler pairWorld fullEnv (tripleRequest [])).1.body.prop "results").prop "clusters" =
      JVal.arr (clusterEntries 0 (duplicateClusters pairClusters)) ∧
    (clusterEntries 0 (duplicateClusters pairClusters)).length = 1 :=
  ⟨rfl, rfl, by simp [tripleImages], rfl, rfl, by simp [tripleMatrix], rfl,
    (success_keeps_duplicate_clusters pairWorld fullEnv (tripleRequest []) tripleImages
      (tripleEmbeddings.map normalizeLocalVector) "Local-CLIP" (tripleMatrix 0.95 0.2 0.2)
      pairClusters rfl rfl (by simp [tripleImages]) rfl rfl (by simp [tripleMatrix]) rfl).1,
    by simp [duplicateClusters, pairClusters, tripleMembers, clusterEntries]⟩

theorem foldl_add_sizes (cs : List Cluster) :
    ∀ a, cs.foldl (fun sum c => sum + c.images.length) a =
      a + (cs.map (fun c => c.images.length)).sum := by
  induction cs with
  | nil => intro a; simp
  | cons c rest ih =>
    intro a
    simp only [List.foldl_cons, ih, List.map_cons, List.sum_cons]
    omega

theorem totalSize_eq_sum (cs : List Cluster) :
    totalSize cs = (cs.map (fun c => c.images.length)).sum := by
  unfold totalSize
  rw [foldl_add_sizes]
  omega

theorem foldl_max_bounds (l : List Nat) :
    ∀ a, a ≤ l.foldl max a ∧ (∀ x ∈ l, x ≤ l.foldl max a) ∧
      (l.foldl max a = a ∨ l.foldl max a ∈ l) := by
  induction l with
  | nil => intro a; simp
  | cons y rest ih =>
    intro a
    obtain ⟨h1, h2, h3⟩ := ih (max a y)
    simp only [List.foldl_cons]
    refine ⟨le_trans (le_max_left a y) h1, ?_, ?_⟩
    · intro x hx
      rcases List.mem_cons.mp hx with hx | hx
      · subst hx
        exact le_trans (le_max_right a x) h1
      · exact h2 x hx
    · rcases h3 with h3 | h3
      · rcases max_choice a y with hm | hm
        · left
          rw [h3, hm]
        · right
          rw [h3, hm]
          exact List.mem_cons_self y rest
      · right
        exact List.mem_cons_of_mem y h3

/-- The value `largestSize` is the maximum of the cluster sizes, 0 for no
cluster. -/
theorem largestSize_is_max (cs : List Cluster) :
    (∀ c ∈ cs, c.images.length ≤ largestSize cs) ∧
    (cs = [] → largestSize cs = 0) ∧
    (cs ≠ [] → ∃ c ∈ cs, c.images.length = largestSize cs) := by
  obtain ⟨_, h2, h3⟩ := foldl_max_bounds (cs.map (fun c => c.images.length)) 0
  refine ⟨?_, ?_, ?_⟩
  · intro c hc
    exact h2 _ (List.mem_map_of_mem _ hc)
  · intro h
    subst h
    rfl
  · intro hne
    rcases h3 with h3 | h3
    · cases cs with
      | nil => exact absurd rfl hne
      | cons c rest =>
        refine ⟨c, List.mem_cons_self c rest, ?_⟩
        have hle := h2 c.images.length (by simp)
        unfold largestSize
        omega
    · obtain ⟨c, hc, hlen⟩ := List.mem_map.mp h3
      exact ⟨c, hc, hlen⟩

/-- C12 as stated fails: the `stats` record of a success response has no
field `largestClusterSize`; the largest size is stored under
`largestCluster`. -/
theorem stats_field_counterexample :
    (handler pairWorld fullEnv (tripleRequest [])).1.status = 200 ∧
    (((handler pairWorld fullEnv (tripleRequest [])).1.body.prop "results").prop "stats").prop
      "largestClusterSize" = JVal.undefined ∧
    (((handler pairWorld fullEnv (tripleRequest [])).1.body.prop "results").prop "stats").prop
      "largestCluster" = natVal 2 :=
  ⟨rfl, rfl, rfl⟩

/-- C12, amended. In every success response the `stats` record has the
fields `totalClusters`, `largestCluster` and `avgClusterSize` (and no
`largestClusterSize`): `totalClusters` is the number of returned clusters and
equals the top-level `duplicateClusters`; `largestCluster` is the maximum of
the sizes of the returned clusters, 0 when there is none; `avgClusterSize` is
the sum of the sizes divided by the number of clusters, rendered by
`toFixed(2)`, and the number 0 when there is no cluster. -/
theorem success_stats (w : World) (env : Env) (req : Request)
    (images : List JVal) (embeddings : List JVal) (label : String)
    (matrix : List (List JVal)) (clusters : List Cluster)
    (hmethod : req.method = "POST") (himages : req.body.prop "images" = JVal.arr images)
    (hne : images ≠ [])
    (hfp : (fingerprint w env req.body images).1 = Except.ok (embeddings, label))
    (hmatrix : w.computeSimilarityMatrix embeddings = Except.ok matrix) (hrows : matrix ≠ [])
    (hclusters : w.clusterSimilarImages images matrix (thresholdOf req.body) =
      Except.ok clusters) :
    ((handler w env req).1.body.prop "results").prop "stats" =
      statsEntry w (duplicateClusters clusters) ∧
    (statsEntry w (duplicateClusters clusters)).prop "largestClusterSize" = JVal.undefined ∧
    (statsEntry w (duplicateClusters clusters)).prop "totalClusters" =
      natVal (clusterEntries 0 (duplicateClusters clusters)).length ∧
    (handler w env req).1.body.prop "duplicateClusters" =
      (statsEntry w (duplicateClusters clusters)).prop "totalClusters" ∧
    (statsEntry w (duplicateClusters clusters)).prop "largestCluster" =
      natVal (largestSize (duplicateClusters clusters)) ∧
    (∀ c ∈ duplicateClusters clusters,
      c.images.length ≤ largestSize (duplicateClusters clusters)) ∧
    (duplicateClusters clusters = [] → largestSize (duplicateClusters clusters) = 0) ∧
    (duplicateClusters clusters ≠ [] →
      ∃ c ∈ duplicateClusters clusters,
        c.images.length = largestSize (duplicateClusters clusters)) ∧
    (duplicateClusters clusters ≠ [] →
      (statsEntry w (duplicateClusters clusters)).prop "avgClusterSize" =
        JVal.str (w.toFixed2
          (((((duplicateClusters clusters).map (fun c => c.images.length)).sum : Nat) : ℚ) /
            ((duplicateClusters clusters).length : ℚ)))) ∧
    (duplicateClusters clusters = [] →
      (statsEntry w (duplicateClusters clusters)).prop "avgClusterSize" = natVal 0) := by
  have hbody := (success_body w env req images embeddings label matrix clusters hmethod himages
    hne hfp hmatrix hrows hclusters).2
  have hmax := largestSize_is_max (duplicateClusters clusters)
  refine ⟨?_, ?_, ?_, ?_, ?_, hmax.1, hmax.2.1, hmax.2.2, ?_, ?_⟩
  · rw [hbody]
    simp [successResponse, JVal.prop, lookupField]
  · simp [statsEntry, JVal.prop, lookupField]
  · rw [clusterEntries_length]
    simp [statsEntry, JVal.prop, lookupField]
  · rw [hbody]
    simp [successResponse, statsEntry, JVal.prop, lookupField]
  · simp [statsEntry, JVal.prop, lookupField]
  · intro h
    have hpos : 0 < (duplicateClusters clusters).length := List.length_pos.mpr h
    simp [statsEntry, JVal.prop, lookupField, hpos, totalSize_eq_sum]
  · intro h
    simp [statsEntry, JVal.prop, lookupField, h]

/-- C12 amended, at the sample request with one duplicate pair. -/
theorem success_stats_witness :
    (tripleRequest []).method = "POST" ∧
    (tripleRequest []).body.prop "images" = JVal.arr tripleImages ∧
    tripleImages ≠ [] ∧
    (fingerprint pairWorld fullEnv (tripleRequest []).body tripleImages).1 =
      Except.ok (tripleEmbeddings.map normalizeLocalVector, "Local-CLIP") ∧
    pairWorld.computeSimilarityMatrix (tripleEmbeddings.map normalizeLocalVector) =
      Except.ok (tripleMatrix 0.95 0.2 0.2) ∧
    tripleMatrix 0.95 0.2 0.2 ≠ [] ∧
    pairWorld.clusterSimilarImages tripleImages (tripleMatrix 0.95 0.2 0.2)
      (thresholdOf (tripleRequest []).body) = Except.ok pairClusters ∧
    ((handler pairWorld fullEnv (tripleRequest [])).1.body.prop "results").prop "stats" =
      statsEntry pairWorld (duplicateClusters pairClusters) :=
  ⟨rfl, rfl, by simp [tripleImages], rfl, rfl, by simp [tripleMatrix], rfl,
    (success_stats pairWorld fullEnv (tripleRequest []) tripleImages
      (tripleEmbeddings.map normalizeLocalVector) "Local-CLIP" (tripleMatrix 0.95 0.2 0.2)
      pairClusters rfl rfl (by simp [tripleImages]) rfl rfl (by simp [tripleMatrix]) rfl).1⟩

/-- C13 fails on the code: in a cluster formed by transitivity the third
image has similarity 0 to the reference member, and the response reports its
`similarity` as `null`, the same as for the reference member, which has
none. -/
theorem zero_similarity_reported_null :
    chainWorld.clusterSimilarImages tripleImages (tripleMatrix 0.7071 0.7071 0)
      (thresholdOf (tripleRequest [("similarityThreshold", JVal.num 0.7)]).body) =
      Except.ok chainClusters ∧
    (handler chainWorld fullEnv
      (tripleRequest [("similarityThreshold", JVal.num 0.7)])).1.status = 200 ∧
    ((handler chainWorld fullEnv
      (tripleRequest [("similarityThreshold", JVal.num 0.7)])).1.body.prop "results").prop
      "clusters" =
      JVal.arr [JVal.obj
        [("id", natVal 0), ("size", natVal 3), ("avgSimilarity", JVal.num 0.4714),
         ("images", JVal.arr
           [JVal.obj [("id", JVal.str "nike-0"), ("brand", JVal.str "nike"),
              ("url", JVal.str "http://img/a.jpg"), ("similarity", JVal.null)],
            JVal.obj [("id", JVal.str "puma-0"), ("brand", JVal.str "puma"),
              ("url", JVal.str "http://img/b.jpg"), ("similarity", JVal.num 0.7071)],
            JVal.obj [("id", JVal.str "puma-1"), ("brand", JVal.str "puma"),
              ("url", JVal.str "http://img/c.jpg"), ("similarity", JVal.null)]])]] ∧
    (imageEntry (ClusterImage.mk (JVal.str "puma-1") (JVal.str "puma")
        (JVal.str "http://img/c.jpg") (JVal.num 0))).prop "similarity" = JVal.null := by
  have hbody := (success_body chainWorld fullEnv
    (tripleRequest [("similarityThreshold", JVal.num 0.7)]) tripleImages
    (tripleEmbeddings.map normalizeLocalVector) "Local-CLIP" (tripleMatrix 0.7071 0.7071 0)
    chainClusters rfl rfl (by simp [tripleImages]) rfl rfl (by simp [tripleMatrix]) rfl).2
  refine ⟨rfl, rfl, ?_, rfl⟩
  have hresults : ((successResponse chainWorld tripleImages
      (thresholdOf (tripleRequest [("similarityThreshold", JVal.num 0.7)]).body) "Local-CLIP"
      chainClusters).prop "results").prop "clusters" =
      JVal.arr (clusterEntries 0 (duplicateClusters chainClusters)) := by
    simp [successResponse, JVal.prop, lookupField]
  rw [hbody, hresults]
  simp [duplicateClusters, chainClusters, tripleMembers, clusterEntries, clusterEntry,
    imageEntry, jsOr, JVal.truthy]
  norm_num

/-! ## The Hugging Face helper -/

theorem hfEmbedOne_of_response (w : World) (key : String) (k : Nat) (img input : JVal)
    (resp : FetchResponse) (data : JVal)
    (hinput : imageInput img = Except.ok input)
    (hfetch : w.fetch k (hfRequest key input) = FetchResult.response resp)
    (hok : resp.ok = true) (hjson : resp.json = Except.ok data) :
    hfEmbedOne w key k img =
      (Except.ok (normalizeHFVector data), [Event.hfFetch (hfRequest key input)]) := by
  unfold hfEmbedOne
  simp only [hinput, hfetch, hok, hjson, Bool.not_true, Bool.false_eq_true, if_false]

theorem hfEmbedOne_of_failure (w : World) (key : String) (k : Nat) (img input : JVal)
    (message : String)
    (hinput : imageInput img = Except.ok input)
    (hfetch : w.fetch k (hfRequest key input) = FetchResult.failure message) :
    hfEmbedOne w key k img = (Except.error message, [Event.hfFetch (hfRequest key input)]) := by
  unfold hfEmbedOne
  simp only [hinput, hfetch]

theorem hfEmbedOne_of_status (w : World) (key : String) (k : Nat) (img input : JVal)
    (resp : FetchResponse)
    (hinput : imageInput img = Except.ok input)
    (hfetch : w.fetch k (hfRequest key input) = FetchResult.response resp)
    (hok : resp.ok = false) :
    hfEmbedOne w key k img =
      (Except.error ("HF inference error: " ++ toString resp.status ++ " " ++
        resp.statusText ++ " - " ++ resp.text), [Event.hfFetch (hfRequest key input)]) := by
  unfold hfEmbedOne
  simp only [hinput, hfetch, hok, Bool.not_false, if_true]

theorem hfLoop_cons_ok (w : World) (key : String) (k : Nat) (img : JVal) (rest acc : List JVal)
    (vec : JVal) (evs : List Event) (h : hfEmbedOne w key k img = (Except.ok vec, evs)) :
    hfLoop w key k (img :: rest) acc =
      ((hfLoop w key (k + 1) rest (acc ++ [vec])).1,
        evs ++ (hfLoop w key (k + 1) rest (acc ++ [vec])).2) := by
  rw [hfLoop, h]

theorem hfLoop_cons_error (w : World) (key : String) (k : Nat) (img : JVal)
    (rest acc : List JVal) (inner : String) (evs : List Event) (shown : JVal)
    (h : hfEmbedOne w key k img = (Except.error inner, evs))
    (hshown : imageInput img = Except.ok shown) :
    hfLoop w key k (img :: rest) acc =
      (Except.error ("Failed to generate HF embedding for " ++ templateString w shown ++
        ": " ++ inner), evs) := by
  rw [hfLoop, h]
  simp only [hshown]

theorem hfAllSucceed_tail (w : World) (key : String) (k : Nat) (img : JVal)
    (rest : List JVal) (h : hfAllSucceed w key k (img :: rest)) :
    hfAllSucceed w key (k + 1) rest := by
  intro j im hj
  have := h (j + 1) im (by simpa using hj)
  have hk : k + (j + 1) = k + 1 + j := by omega
  rw [hk] at this
  exact this

/-- When every call succeeds the loop returns one vector per image, in
order, after one call per image, in order. -/
theorem hfLoop_success (w : World) (key : String) (images : List JVal) :
    ∀ (k : Nat) (acc : List JVal), hfAllSucceed w key k images →
    ∃ vecs, (hfLoop w key k images acc).1 = Except.ok (acc ++ vecs) ∧
      vecs.length = images.length ∧
      (hfLoop w key k images acc).2.length = images.length ∧
      ∀ j img input resp data, images[j]? = some img → imageInput img = Except.ok input →
        w.fetch (k + j) (hfRequest key input) = FetchResult.response resp →
        resp.json = Except.ok data →
        vecs[j]? = some (normalizeHFVector data) ∧
        (hfLoop w key k images acc).2[j]? = some (Event.hfFetch (hfRequest key input)) := by
  induction images with
  | nil =>
    intro k acc _
    refine ⟨[], by simp [hfLoop], rfl, by simp [hfLoop], ?_⟩
    intro j img input resp data hj
    simp at hj
  | cons img rest ih =>
    intro k acc hall
    obtain ⟨input, resp, data, hinput, hfetch, hok, hjson⟩ := hall 0 img (by simp)
    have hone := hfEmbedOne_of_response w key k img input resp data hinput
      (by simpa using hfetch) hok hjson
    obtain ⟨vecs, hres, hlen, hevs, hidx⟩ :=
      ih (k + 1) (acc ++ [normalizeHFVector data]) (hfAllSucceed_tail w key k img rest hall)
    rw [hfLoop_cons_ok w key k img rest acc _ _ hone]
    refine ⟨normalizeHFVector data :: vecs, ?_, by simp [hlen], by simp [hevs], ?_⟩
    · simp only [hres]
      simp
    · intro j im input' resp' data' hj hinput' hfetch' hjson'
      cases j with
      | zero =>
        simp only [List.getElem?_cons_zero, Option.some.injEq] at hj
        subst hj
        rw [hinput] at hinput'
        cases hinput'
        rw [hfetch] at hfetch'
        cases hfetch'
        rw [hjson] at hjson'
        cases hjson'
        simp
      | succ j =>
        have hk : k + (j + 1) = k + 1 + j := by omega
        rw [hk] at hfetch'
        have := hidx j im input' resp' data' (by simpa using hj) hinput' hfetch' hjson'
        simpa using this

/-- When the calls for `pre` succeed and the one for the next image fails,
the loop throws, having made the calls for `pre` and the failing call and
none for `post`. -/
theorem hfLoop_failure (w : World) (key : String) (img : JVal) (post : List JVal)
    (inner : String) (evs : List Event) (shown : JVal) (pre : List JVal) :
    ∀ (k : Nat) (acc : List JVal), hfAllSucceed w key k pre →
    hfEmbedOne w key (k + pre.length) img = (Except.error inner, evs) →
    imageInput img = Except.ok shown →
    hfLoop w key k (pre ++ img :: post) acc =
      (Except.error ("Failed to generate HF embedding for " ++ templateString w shown ++
        ": " ++ inner), (hfLoop w key k pre acc).2 ++ evs) := by
  induction pre with
  | nil =>
    intro k acc _ hone hshown
    simp only [List.length_nil, Nat.add_zero] at hone
    simp only [List.nil_append]
    rw [hfLoop_cons_error w key k img post acc inner evs shown hone hshown]
    simp [hfLoop]
  | cons p rest ih =>
    intro k acc hall hone hshown
    obtain ⟨input, resp, data, hinput, hfetch, hok, hjson⟩ := hall 0 p (by simp)
    have hp := hfEmbedOne_of_response w key k p input resp data hinput
      (by simpa using hfetch) hok hjson
    have hk : k + (p :: rest).length = k + 1 + rest.length := by
      simp only [List.length_cons]
      omega
    rw [hk] at hone
    have hrec := ih (k + 1) (acc ++ [normalizeHFVector data])
      (hfAllSucceed_tail w key k p rest hall) hone hshown
    simp only [List.cons_append]
    rw [hfLoop_cons_ok w key k p (rest ++ img :: post) acc _ _ hp,
      hfLoop_cons_ok w key k p rest acc _ _ hp, hrec]
    simp

theorem hfLoop_length (w : World) (key : String) (images : List JVal) :
    ∀ (k : Nat) (acc vecs : List JVal), (hfLoop w key k images acc).1 = Except.ok vecs →
      vecs.length = acc.length + images.length := by
  induction images with
  | nil =>
    intro k acc vecs h
    simp only [hfLoop, Except.ok.injEq] at h
    subst h
    simp
  | cons img rest ih =>
    intro k acc vecs h
    cases hone : hfEmbedOne w key k img with
    | mk r evs =>
      cases r with
      | error inner =>
        rw [hfLoop, hone] at h
        dsimp only at h
        split at h <;> simp at h
      | ok vec =>
        rw [hfLoop_cons_ok w key k img rest acc vec evs hone] at h
        have := ih (k + 1) (acc ++ [vec]) vecs h
        simp only [List.length_append, List.length_singleton, List.length_cons,
          List.length_nil] at this ⊢
        omega

theorem generateHFEmbeddings_of_key (w : World) (env : Env) (key : String) (k : Nat)
    (images : List JVal) (hkey : env.HUGGINGFACE_API_KEY = some key) (hne : key ≠ "") :
    generateHFEmbeddings w env k images = hfLoop w key k images [] := by
  unfold generateHFEmbeddings
  simp [hkey, hne]

theorem generateHFEmbeddings_length (w : World) (env : Env) (k : Nat)
    (images vecs : List JVal) (h : (generateHFEmbeddings w env k images).1 = Except.ok vecs) :
    vecs.length = images.length := by
  unfold generateHFEmbeddings at h
  split at h
  · simp at h
  · split at h
    · simp at h
    · have := hfLoop_length w _ images k [] vecs h
      simpa using this

theorem normalizeHFVector_flat (xs : List JVal) (h : ∀ x ∈ xs, ∃ q, x = JVal.num q) :
    normalizeHFVector (JVal.arr xs) = JVal.arr xs := by
  cases xs with
  | nil => rfl
  | cons x rest =>
    obtain ⟨q, hq⟩ := h x (List.mem_cons_self x rest)
    subst hq
    rfl

theorem imageInput_of_url (img : JVal) (u : String) (hurl : img.prop "url" = JVal.str u)
    (hu : u ≠ "") : imageInput img = Except.ok (JVal.str u) := by
  have hn : img.isNullish = false := by
    cases img <;> simp [JVal.prop] at hurl
    rfl
  unfold imageInput getProp
  simp [hn, hurl, jsOr, JVal.truthy, hu]

theorem key_of_lookupField_isArray (k : String) (fields : List (String × JVal))
    (h : (lookupField k fields).isArray = true) : ∃ kv ∈ fields, kv.1 = k := by
  induction fields with
  | nil => simp [lookupField, JVal.isArray] at h
  | cons kv rest ih =>
    obtain ⟨k', v⟩ := kv
    by_cases hk : k' = k
    · exact ⟨(k', v), List.mem_cons_self _ _, hk⟩
    · simp only [lookupField, hk, if_false] at h
      obtain ⟨kv', hmem, hkey⟩ := ih h
      exact ⟨kv', List.mem_cons_of_mem _ hmem, hkey⟩

/-- Every fingerprint of the local helper is a record with an `embedding`
field. -/
theorem normalizeLocalVector_hasEmbeddingField (vec : JVal) :
    hasEmbeddingField (normalizeLocalVector vec) = true := by
  unfold normalizeLocalVector
  split
  · rename_i h
    simp only [Bool.and_eq_true] at h
    cases vec with
    | obj fields =>
      have harr := h.2
      simp only [JVal.prop] at harr
      simp only [hasEmbeddingField, List.any_eq_true, decide_eq_true_eq]
      exact key_of_lookupField_isArray "embedding" fields harr
    | undefined => simp [JVal.prop, JVal.isArray] at h
    | null => simp [JVal.prop, JVal.isArray] at h
    | bool b => simp [JVal.prop, JVal.isArray] at h
    | num q => simp [JVal.prop, JVal.isArray] at h
    | str s => simp [JVal.prop, JVal.isArray] at h
    | arr xs => simp [JVal.prop, JVal.isArray] at h
  · simp [hasEmbeddingField]

/-- C14 fails on the code: with Hugging Face as the backend the handler hands
the raw vectors to `computeSimilarityMatrix`; they are arrays, not records
with an `embedding` field. -/
theorem hf_embeddings_not_wrapped :
    selectedBackend hfEnv (sampleRequest []).body = Backend.huggingFace ∧
    (handler (hfWorld flatVector) hfEnv (sampleRequest [])).2 =
      [sampleHFFetch "http://img/a.jpg", sampleHFFetch "http://img/b.jpg",
       Event.computeSimilarityMatrix [flatVector, flatVector]] ∧
    matrixInputs (handler (hfWorld flatVector) hfEnv (sampleRequest [])).2 =
      [[flatVector, flatVector]] ∧
    hasEmbeddingField flatVector = false ∧
    flatVector.prop "embedding" = JVal.undefined ∧
    (handler (hfWorld flatVector) hfEnv (sampleRequest [])).1.status = 500 :=
  ⟨by decide, rfl, rfl, rfl, rfl, rfl⟩

/-- C15. With the API key set and every call answered, the vector recorded
for an image whose response is an array with an array as first element is
that first inner array, and the vector recorded for an image whose response
is a flat array of numbers is the response itself. -/
theorem hf_vector_normalization (w : World) (env : Env) (key : String) (images : List JVal)
    (hkey : env.HUGGINGFACE_API_KEY = some key) (hne : key ≠ "")
    (hall : hfAllSucceed w key 0 images) :
    ∃ vecs, (generateHFEmbeddings w env 0 images).1 = Except.ok vecs ∧
      ∀ j img input resp, images[j]? = some img → imageInput img = Except.ok input →
        w.fetch j (hfRequest key input) = FetchResult.response resp →
        (∀ inner rest, resp.json = Except.ok (JVal.arr (JVal.arr inner :: rest)) →
          vecs[j]? = some (JVal.arr inner)) ∧
        (∀ xs, (∀ x ∈ xs, ∃ q, x = JVal.num q) → resp.json = Except.ok (JVal.arr xs) →
          vecs[j]? = some (JVal.arr xs)) := by
  obtain ⟨vecs, hres, _, _, hidx⟩ := hfLoop_success w key images 0 [] hall
  refine ⟨vecs, ?_, ?_⟩
  · rw [generateHFEmbeddings_of_key w env key 0 images hkey hne, hres]
    simp
  · intro j img input resp himg hinput hfetch
    refine ⟨?_, ?_⟩
    · intro inner rest hjson
      exact (hidx j img input resp _ himg hinput (by simpa using hfetch) hjson).1
    · intro xs hxs hjson
      have := (hidx j img input resp _ himg hinput (by simpa using hfetch) hjson).1
      rw [normalizeHFVector_flat xs hxs] at this
      exact this

/-- C15, at the sample request when the inference API answers with a nested
vector. -/
theorem hf_vector_normalization_witness :
    hfEnv.HUGGINGFACE_API_KEY = some "hf-key" ∧ "hf-key" ≠ "" ∧
    hfAllSucceed (hfWorld nestedVector) "hf-key" 0 sampleImages ∧
    (generateHFEmbeddings (hfWorld nestedVector) hfEnv 0 sampleImages).1 =
      Except.ok [flatVector, flatVector] ∧
    ∃ vecs, (generateHFEmbeddings (hfWorld nestedVector) hfEnv 0 sampleImages).1 =
        Except.ok vecs ∧
      ∀ j img input resp, sampleImages[j]? = some img → imageInput img = Except.ok input →
        (hfWorld nestedVector).fetch j (hfRequest "hf-key" input) = FetchResult.response resp →
        (∀ inner rest, resp.json = Except.ok (JVal.arr (JVal.arr inner :: rest)) →
          vecs[j]? = some (JVal.arr inner)) ∧
        (∀ xs, (∀ x ∈ xs, ∃ q, x = JVal.num q) → resp.json = Except.ok (JVal.arr xs) →
          vecs[j]? = some (JVal.arr xs)) :=
  have hall : hfAllSucceed (hfWorld nestedVector) "hf-key" 0 sampleImages := by
    intro j img hj
    have hmem := List.getElem?_mem hj
    simp only [sampleImages, List.mem_cons, List.mem_singleton, List.mem_nil_iff,
      or_false] at hmem
    rcases hmem with h | h <;> subst h <;> exact ⟨_, _, _, rfl, rfl, rfl, rfl⟩
  ⟨rfl, by decide, hall, rfl,
    hf_vector_normalization (hfWorld nestedVector) hfEnv "hf-key" sampleImages rfl (by decide)
      hall⟩

theorem generateHFEmbeddings_no_key (w : World) (env : Env) (k : Nat) (images : List JVal)
    (h : isSet env.HUGGINGFACE_API_KEY = false) :
    generateHFEmbeddings w env k images =
      (Except.error "Hugging Face API key not configured", []) := by
  unfold generateHFEmbeddings
  cases hkey : env.HUGGINGFACE_API_KEY with
  | none => rfl
  | some key =>
    rw [hkey] at h
    have : key = "" := by simpa [isSet] using h
    simp [this]

/-- C19. With the API key set: if every per-image call succeeds,
`generateHFEmbeddings` returns one vector per image, the `j`-th one taken
from the response to the `j`-th call, which is the call for the `j`-th image;
if the calls for the images `pre` succeed and the call for the next image
`img` fails (transport error or non-2xx answer), it throws, returning no
list, after exactly `pre.length + 1` calls, namely those for `pre` followed
by the failing one and none for the later images `post`, and the message
names the failing image's `url`. Without an API key it throws
`Hugging Face API key not configured` without any call. -/
theorem hf_sequential_fail_fast (w : World) (env : Env) (key : String)
    (images pre post : List JVal) (img input : JVal)
    (hkey : env.HUGGINGFACE_API_KEY = some key) (hne : key ≠ "") :
    (hfAllSucceed w key 0 images →
      ∃ vecs, (generateHFEmbeddings w env 0 images).1 = Except.ok vecs ∧
        vecs.length = images.length ∧
        (generateHFEmbeddings w env 0 images).2.length = images.length ∧
        ∀ j im inp resp data, images[j]? = some im → imageInput im = Except.ok inp →
          w.fetch j (hfRequest key inp) = FetchResult.response resp →
          resp.json = Except.ok data →
          vecs[j]? = some (normalizeHFVector data) ∧
          (generateHFEmbeddings w env 0 images).2[j]? =
            some (Event.hfFetch (hfRequest key inp))) ∧
    (hfAllSucceed w key 0 pre → imageInput img = Except.ok input →
      ((∃ message, w.fetch pre.length (hfRequest key input) = FetchResult.failure message) ∨
        (∃ resp, w.fetch pre.length (hfRequest key input) = FetchResult.response resp ∧
          resp.ok = false)) →
      ∃ inner,
        generateHFEmbeddings w env 0 (pre ++ img :: post) =
          (Except.error ("Failed to generate HF embedding for " ++ templateString w input ++
            ": " ++ inner),
           (generateHFEmbeddings w env 0 pre).2 ++ [Event.hfFetch (hfRequest key input)]) ∧
        (generateHFEmbeddings w env 0 (pre ++ img :: post)).2.length = pre.length + 1 ∧
        (∀ u, img.prop "url" = JVal.str u → u ≠ "" →
          includes ("Failed to generate HF embedding for " ++ templateString w input ++
            ": " ++ inner) u = true)) ∧
    (∀ (env' : Env) (k : Nat), isSet env'.HUGGINGFACE_API_KEY = false →
      generateHFEmbeddings w env' k images =
        (Except.error "Hugging Face API key not configured", [])) := by
  refine ⟨?_, ?_, ?_⟩
  · intro hall
    obtain ⟨vecs, hres, hlen, hevs, hidx⟩ := hfLoop_success w key images 0 [] hall
    rw [generateHFEmbeddings_of_key w env key 0 images hkey hne]
    refine ⟨vecs, by simpa using hres, hlen, hevs, ?_⟩
    intro j im inp resp data him hinp hfetch hjson
    exact hidx j im inp resp data him hinp (by simpa using hfetch) hjson
  · intro hall hinput hfail
    have hpre := hfLoop_success w key pre 0 [] hall
    obtain ⟨_, _, _, hprelen, _⟩ := hpre
    have hshape : ∃ inner, hfEmbedOne w key (0 + pre.length) img =
        (Except.error inner, [Event.hfFetch (hfRequest key input)]) := by
      rcases hfail with ⟨message, hm⟩ | ⟨resp, hr, hok⟩
      · exact ⟨message, hfEmbedOne_of_failure w key _ img input message hinput
          (by simpa using hm)⟩
      · exact ⟨_, hfEmbedOne_of_status w key _ img input resp hinput (by simpa using hr) hok⟩
    obtain ⟨inner, hone⟩ := hshape
    have hrun := hfLoop_failure w key img post inner _ input pre 0 [] hall hone hinput
    rw [generateHFEmbeddings_of_key w env key 0 _ hkey hne,
      generateHFEmbeddings_of_key w env key 0 pre hkey hne]
    refine ⟨inner, hrun, ?_, ?_⟩
    · rw [hrun]
      simp [hprelen]
    · intro u hurl hu
      have hin := imageInput_of_url img u hurl hu
      rw [hin] at hinput
      cases hinput
      exact includes_append "Failed to generate HF embedding for " u (": " ++ inner) |>
        (by simpa [templateString, String.append_assoc] using ·)
  · intro env' k h
    exact generateHFEmbeddings_no_key w env' k images h

/-- C19, at the sample request when the first call is answered and the second
one fails: two calls, no vectors, and a message naming the second image. -/
theorem hf_sequential_fail_fast_witness :
    hfEnv.HUGGINGFACE_API_KEY = some "hf-key" ∧ "hf-key" ≠ "" ∧
    hfAllSucceed flakyWorld "hf-key" 0 (sampleImages.take 1) ∧
    imageInput secondSampleImage = Except.ok (JVal.str "http://img/b.jpg") ∧
    flakyWorld.fetch (sampleImages.take 1).length
      (hfRequest "hf-key" (JVal.str "http://img/b.jpg")) =
      FetchResult.failure "socket hang up" ∧
    sampleImages.take 1 ++ secondSampleImage :: [] = sampleImages ∧
    generateHFEmbeddings flakyWorld hfEnv 0 sampleImages =
      (Except.error ("Failed to generate HF embedding for http://img/b.jpg: socket hang up"),
        [sampleHFFetch "http://img/a.jpg", sampleHFFetch "http://img/b.jpg"]) ∧
    ∃ inner,
      generateHFEmbeddings flakyWorld hfEnv 0 (sampleImages.take 1 ++ secondSampleImage :: []) =
        (Except.error ("Failed to generate HF embedding for " ++
          templateString flakyWorld (JVal.str "http://img/b.jpg") ++ ": " ++ inner),
         (generateHFEmbeddings flakyWorld hfEnv 0 (sampleImages.take 1)).2 ++
          [Event.hfFetch (hfRequest "hf-key" (JVal.str "http://img/b.jpg"))]) ∧
      (generateHFEmbeddings flakyWorld hfEnv 0
        (sampleImages.take 1 ++ secondSampleImage :: [])).2.length =
        (sampleImages.take 1).length + 1 ∧
      (∀ u, secondSampleImage.prop "url" = JVal.str u → u ≠ "" →
        includes ("Failed to generate HF embedding for " ++
          templateString flakyWorld (JVal.str "http://img/b.jpg") ++ ": " ++ inner) u = true) :=
  have hall : hfAllSucceed flakyWorld "hf-key" 0 (sampleImages.take 1) := by
    intro j img hj
    have hmem := List.getElem?_mem hj
    simp only [sampleImages, List.take_succ_cons, List.take_zero, List.mem_singleton] at hmem
    subst hmem
    cases j with
    | zero => exact ⟨_, _, _, rfl, rfl, rfl, rfl⟩
    | succ j => simp [sampleImages] at hj
  ⟨rfl, by decide, hall, rfl, rfl, rfl, rfl,
    (hf_sequential_fail_fast flakyWorld hfEnv "hf-key" (sampleImages.take 1)
      (sampleImages.take 1) [] secondSampleImage (JVal.str "http://img/b.jpg") rfl
      (by decide)).2.1 hall rfl (Or.inl ⟨_, rfl⟩)⟩

/-! ## The local helper -/

theorem localEmbeddings_of_response (w : World) (k : Nat) (images inputs : List JVal)
    (s : String) (resp : FetchResponse) (json : JVal) (vecs : List JVal)
    (hs : s ≠ "") (hinputs : imageInputs images = Except.ok inputs)
    (hfetch : w.fetch k (localRequest (stripTrailingSlash s ++ "/embeddings") inputs) =
      FetchResult.response resp)
    (hok : resp.ok = true) (hjson : resp.json = Except.ok json)
    (hemb : getProp json "embeddings" = Except.ok (JVal.arr vecs)) :
    localEmbeddings w k images (JVal.str s) =
      (Except.ok (vecs.map normalizeLocalVector),
        [Event.localFetch (localRequest (stripTrailingSlash s ++ "/embeddings") inputs)]) := by
  unfold localEmbeddings
  simp only [JVal.truthy, hs, ne_eq, not_false_eq_true, decide_True, Bool.not_true,
    Bool.false_eq_true, if_false, hinputs, embeddingsEndpoint, hfetch, hok, hjson, hemb]

/-- What a successful run of the local helper has gone through. -/
theorem localEmbeddings_ok_inv (w : World) (k : Nat) (images : List JVal) (u : JVal)
    (embeddings : List JVal) (h : (localEmbeddings w k images u).1 = Except.ok embeddings) :
    ∃ s inputs resp json vecs, u = JVal.str s ∧ s ≠ "" ∧
      imageInputs images = Except.ok inputs ∧
      w.fetch k (localRequest (stripTrailingSlash s ++ "/embeddings") inputs) =
        FetchResult.response resp ∧
      resp.ok = true ∧ resp.json = Except.ok json ∧
      getProp json "embeddings" = Except.ok (JVal.arr vecs) ∧
      embeddings = vecs.map normalizeLocalVector := by
  unfold localEmbeddings at h
  split at h
  · simp at h
  · rename_i htruthy
    split at h
    · simp at h
    · rename_i inputs hinputs
      split at h
      · simp at h
      · rename_i url hurl
        dsimp only at h
        cases u <;> simp [embeddingsEndpoint] at hurl
        rename_i s
        subst hurl
        have hs : s ≠ "" := by
          intro hs
          simp [JVal.truthy, hs] at htruthy
        split at h
        · simp at h
        · rename_i resp hfetch
          split at h
          · simp at h
          · rename_i hok
            split at h
            · simp at h
            · rename_i json hjson
              split at h
              · simp at h
              · rename_i vecs hemb
                simp only [Except.ok.injEq] at h
                exact ⟨s, inputs, resp, json, vecs, rfl, hs, hinputs, hfetch,
                  by simpa using hok, hjson, hemb, h.symm⟩
              · simp at h

theorem imageInputs_error (images : List JVal) (e : String)
    (h : imageInputs images = Except.error e) : ∃ img ∈ images, img.isNullish = true := by
  induction images generalizing e with
  | nil => simp [imageInputs] at h
  | cons img rest ih =>
    by_cases hn : img.isNullish = true
    · exact ⟨img, List.mem_cons_self _ _, hn⟩
    · have hin : imageInput img = Except.ok (jsOr (img.prop "url") img) := by
        simp [imageInput, getProp, hn]
      simp only [imageInputs, hin] at h
      split at h
      · rename_i e' hrest
        obtain ⟨x, hx, hxn⟩ := ih e' hrest
        exact ⟨x, List.mem_cons_of_mem _ hx, hxn⟩
      · simp at h

theorem embeddingsEndpoint_error (name : String) (u : JVal) (e : String)
    (h : embeddingsEndpoint name u = Except.error e) : ∀ s, u ≠ JVal.str s := by
  intro s hs
  subst hs
  simp [embeddingsEndpoint] at h

theorem localStatusMessage_includes (resp : FetchResponse) :
    includes (localStatusMessage resp) (toString resp.status) = true ∧
    includes (localStatusMessage resp) resp.statusText = true ∧
    includes (localStatusMessage resp) resp.text = true := by
  unfold localStatusMessage
  refine ⟨?_, ?_, ?_⟩
  · have := includes_append "Local embedding service error: " (toString resp.status)
      (" " ++ resp.statusText ++ " - " ++ resp.text)
    simpa [String.append_assoc] using this
  · have := includes_append ("Local embedding service error: " ++ toString resp.status ++ " ")
      resp.statusText (" - " ++ resp.text)
    simpa [String.append_assoc] using this
  · have := includes_append ("Local embedding service error: " ++ toString resp.status ++ " " ++
      resp.statusText ++ " - ") resp.text ""
    simpa [String.append_assoc] using this

/-- Every way the local helper can throw. -/
theorem localEmbeddings_error_inv (w : World) (k : Nat) (images : List JVal) (u : JVal)
    (e : String) (h : (localEmbeddings w k images u).1 = Except.error e) :
    (u.truthy = false ∧ e = "LOCAL_CLIP_URL not configured") ∨
    (∃ img ∈ images, img.isNullish = true) ∨
    (∀ s, u ≠ JVal.str s) ∨
    (∃ r, w.fetch k r = FetchResult.failure e) ∨
    (∃ r resp, w.fetch k r = FetchResult.response resp ∧
      ((resp.ok = false ∧ e = localStatusMessage resp) ∨
       resp.json = Except.error e ∨
       ∃ json, resp.json = Except.ok json ∧
        (json.isNullish = true ∨
          ((json.prop "embeddings").isArray = false ∧
            e = "Local embedding service returned invalid payload")))) := by
  unfold localEmbeddings at h
  split at h
  · rename_i htruthy
    simp only [Except.error.injEq] at h
    exact Or.inl ⟨by simpa using htruthy, h.symm⟩
  · split at h
    · rename_i e' hinputs
      exact Or.inr (Or.inl (imageInputs_error images e' hinputs))
    · rename_i inputs hinputs
      split at h
      · rename_i e' hurl
        exact Or.inr (Or.inr (Or.inl (embeddingsEndpoint_error _ u e' hurl)))
      · rename_i url hurl
        dsimp only at h
        split at h
        · rename_i msg hfetch
          simp only [Except.error.injEq] at h
          subst h
          exact Or.inr (Or.inr (Or.inr (Or.inl ⟨_, hfetch⟩)))
        · rename_i resp hfetch
          refine Or.inr (Or.inr (Or.inr (Or.inr ⟨_, resp, hfetch, ?_⟩)))
          split at h
          · rename_i hok
            simp only [Except.error.injEq] at h
            exact Or.inl ⟨by simpa using hok, h.symm⟩
          · split at h
            · rename_i e' hjson
              simp only [Except.error.injEq] at h
              subst h
              exact Or.inr (Or.inl hjson)
            · rename_i json hjson
              refine Or.inr (Or.inr ⟨json, hjson, ?_⟩)
              split at h
              · rename_i e' hemb
                left
                unfold getProp at hemb
                by_cases hn : json.isNullish = true
                · exact hn
                · simp [hn] at hemb
              · simp at h
              · rename_i x hnot hemb
                right
                simp only [Except.error.injEq] at h
                refine ⟨?_, h.symm⟩
                unfold getProp at hemb
                by_cases hn : json.isNullish = true
                · simp [hn] at hemb
                · simp only [hn, Bool.false_eq_true, if_false, Except.ok.injEq] at hemb
                  rw [hemb]
                  cases x <;> first | rfl | exact absurd rfl (hnot _)

theorem generateLocalEmbeddings_of_response (w : World) (env : Env) (k : Nat)
    (images inputs : List JVal) (s : String) (resp : FetchResponse) (json : JVal)
    (vecs : List JVal)
    (hs : s ≠ "") (hinputs : imageInputs images = Except.ok inputs)
    (hfetch : w.fetch k (localRequest (stripTrailingSlash s ++ "/embeddings") inputs) =
      FetchResult.response resp)
    (hok : resp.ok = true) (hjson : resp.json = Except.ok json)
    (hemb : json.prop "embeddings" = JVal.arr vecs) :
    generateLocalEmbeddings w env k images (JVal.str s) =
      (Except.ok (vecs.map normalizeLocalVector),
        [Event.localFetch (localRequest (stripTrailingSlash s ++ "/embeddings") inputs)]) := by
  have hget : getProp json "embeddings" = Except.ok (JVal.arr vecs) := by
    have hn : json.isNullish = false := by
      cases json <;> simp [JVal.prop] at hemb
      rfl
    simp [getProp, hn, hemb]
  unfold generateLocalEmbeddings
  simp only [JVal.isUndefined, Bool.false_eq_true, if_false]
  exact localEmbeddings_of_response w k images inputs s resp json vecs hs hinputs hfetch hok
    hjson hget

theorem normalizeLocalVector_passthrough (fields : List (String × JVal)) (xs : List JVal)
    (h : lookupField "embedding" fields = JVal.arr xs) :
    normalizeLocalVector (JVal.obj fields) = JVal.obj fields := by
  simp [normalizeLocalVector, JVal.truthy, JVal.isObjectType, JVal.prop, h, JVal.isArray]

theorem normalizeLocalVector_wrap (v : JVal)
    (h : ∀ fields, v = JVal.obj fields → (lookupField "embedding" fields).isArray = false) :
    normalizeLocalVector v = JVal.obj [("embedding", v)] := by
  cases v with
  | obj fields =>
    have := h fields rfl
    simp [normalizeLocalVector, JVal.prop, this]
  | undefined => simp [normalizeLocalVector, JVal.prop, JVal.isArray]
  | null => simp [normalizeLocalVector, JVal.prop, JVal.isArray]
  | bool b => simp [normalizeLocalVector, JVal.prop, JVal.isArray]
  | num q => simp [normalizeLocalVector, JVal.prop, JVal.isArray]
  | str s => simp [normalizeLocalVector, JVal.prop, JVal.isArray]
  | arr xs => simp [normalizeLocalVector, JVal.prop, JVal.isArray]

theorem normalizeLocalVector_idem (v : JVal) (h : isVectorEntry v = true) :
    normalizeLocalVector (normalizeLocalVector v) = normalizeLocalVector v := by
  cases v with
  | arr xs =>
    rw [normalizeLocalVector_wrap (JVal.arr xs) (by intro fields hf; cases hf)]
    exact normalizeLocalVector_passthrough _ xs (by simp [lookupField])
  | obj fields =>
    simp only [isVectorEntry] at h
    cases hl : lookupField "embedding" fields with
    | arr xs =>
      rw [normalizeLocalVector_passthrough fields xs hl,
        normalizeLocalVector_passthrough fields xs hl]
    | undefined => simp [hl, JVal.isArray] at h
    | null => simp [hl, JVal.isArray] at h
    | bool b => simp [hl, JVal.isArray] at h
    | num q => simp [hl, JVal.isArray] at h
    | str s => simp [hl, JVal.isArray] at h
    | obj fs => simp [hl, JVal.isArray] at h
  | undefined => simp [isVectorEntry] at h
  | null => simp [isVectorEntry] at h
  | bool b => simp [isVectorEntry] at h
  | num q => simp [isVectorEntry] at h
  | str s => simp [isVectorEntry] at h

/-- C16 as stated fails: the local service answers with a vector nested one
level too deep, once bare and once inside a record, and both fingerprints
keep the nested vector as their `embedding`. -/
theorem local_nested_counterexample :
    (generateLocalEmbeddings nestedLocalWorld fullEnv 0 sampleImages
      (JVal.str "http://clip:8000")).1 =
      Except.ok [JVal.obj [("embedding", nestedVector)],
        JVal.obj [("embedding", nestedVector)]] ∧
    (JVal.obj [("embedding", nestedVector)]).prop "embedding" = nestedVector ∧
    nestedVector = JVal.arr [flatVector] ∧
    nestedVector ≠ flatVector :=
  ⟨rfl, rfl, rfl, by simp [nestedVector, flatVector]⟩

/-- C16, amended. `generateLocalEmbeddings` does not flatten. For a 2xx
answer whose `embeddings` is an array, an entry that is an array, flat or
nested, yields the fingerprint whose `embedding` is that very array, and an
entry that is a record with an array `embedding` is passed through with that
`embedding` unchanged; so a nested vector stays nested. -/
theorem local_entries_not_flattened (w : World) (env : Env) (k : Nat)
    (images inputs : List JVal) (s : String) (resp : FetchResponse) (json : JVal)
    (vecs : List JVal)
    (hs : s ≠ "") (hinputs : imageInputs images = Except.ok inputs)
    (hfetch : w.fetch k (localRequest (stripTrailingSlash s ++ "/embeddings") inputs) =
      FetchResult.response resp)
    (hok : resp.ok = true) (hjson : resp.json = Except.ok json)
    (hemb : json.prop "embeddings" = JVal.arr vecs) :
    (generateLocalEmbeddings w env k images (JVal.str s)).1 =
      Except.ok (vecs.map normalizeLocalVector) ∧
    (∀ (j : Nat) (xs : List JVal), vecs[j]? = some (JVal.arr xs) →
      (vecs.map normalizeLocalVector)[j]? = some (JVal.obj [("embedding", JVal.arr xs)])) ∧
    (∀ (j : Nat) (ys : List JVal), vecs[j]? = some (JVal.arr [JVal.arr ys]) →
      (vecs.map normalizeLocalVector)[j]? =
        some (JVal.obj [("embedding", JVal.arr [JVal.arr ys])])) ∧
    (∀ (j : Nat) (fields : List (String × JVal)) (xs : List JVal),
      vecs[j]? = some (JVal.obj fields) → lookupField "embedding" fields = JVal.arr xs →
      (vecs.map normalizeLocalVector)[j]? = some (JVal.obj fields) ∧
      (JVal.obj fields).prop "embedding" = JVal.arr xs) := by
  have hwrap : ∀ xs, normalizeLocalVector (JVal.arr xs) =
      JVal.obj [("embedding", JVal.arr xs)] :=
    fun xs => normalizeLocalVector_wrap (JVal.arr xs) (by intro fields hf; cases hf)
  refine ⟨?_, ?_, ?_, ?_⟩
  · rw [generateLocalEmbeddings_of_response w env k images inputs s resp json vecs hs hinputs
      hfetch hok hjson hemb]
  · intro j xs hj
    simp [List.getElem?_map, hj, hwrap]
  · intro j ys hj
    simp [List.getElem?_map, hj, hwrap]
  · intro j fields xs hj hl
    refine ⟨?_, by simpa [JVal.prop] using hl⟩
    simp [List.getElem?_map, hj, normalizeLocalVector_passthrough fields xs hl]

/-- C16 amended, at the sample request answered with nested vectors. -/
theorem local_entries_not_flattened_witness :
    "http://clip:8000" ≠ "" ∧
    imageInputs sampleImages =
      Except.ok [JVal.str "http://img/a.jpg", JVal.str "http://img/b.jpg"] ∧
    nestedLocalWorld.fetch 0 (localRequest (stripTrailingSlash "http://clip:8000" ++
      "/embeddings") [JVal.str "http://img/a.jpg", JVal.str "http://img/b.jpg"]) =
      FetchResult.response
        { status := 200, statusText := "OK", text := "",
          json := Except.ok (JVal.obj [("embeddings",
            JVal.arr [nestedVector, JVal.obj [("embedding", nestedVector)]])]) } ∧
    (generateLocalEmbeddings nestedLocalWorld fullEnv 0 sampleImages
      (JVal.str "http://clip:8000")).1 =
      Except.ok ([nestedVector, JVal.obj [("embedding", nestedVector)]].map
        normalizeLocalVector) :=
  ⟨by decide, rfl, rfl,
    (local_entries_not_flattened nestedLocalWorld fullEnv 0 sampleImages
      [JVal.str "http://img/a.jpg", JVal.str "http://img/b.jpg"] "http://clip:8000"
      { status := 200, statusText := "OK", text := "",
        json := Except.ok (JVal.obj [("embeddings",
          JVal.arr [nestedVector, JVal.obj [("embedding", nestedVector)]])]) }
      (JVal.obj [("embeddings", JVal.arr [nestedVector, JVal.obj [("embedding", nestedVector)]])])
      [nestedVector, JVal.obj [("embedding", nestedVector)]]
      (by decide) rfl rfl rfl rfl rfl).1⟩

/-- C17 as stated fails: the local service answers 2xx with the array
`[5, 5]`; the helper returns `{embedding: 5}` twice, and normalizing that
output once more wraps each entry again. -/
theorem local_idempotence_counterexample :
    (generateLocalEmbeddings scalarWorld fullEnv 0 sampleImages
      (JVal.str "http://clip:8000")).1 =
      Except.ok [JVal.obj [("embedding", JVal.num 5)], JVal.obj [("embedding", JVal.num 5)]] ∧
    [JVal.obj [("embedding", JVal.num 5)], JVal.obj [("embedding", JVal.num 5)]].map
      normalizeLocalVector =
      [JVal.obj [("embedding", JVal.obj [("embedding", JVal.num 5)])],
       JVal.obj [("embedding", JVal.obj [("embedding", JVal.num 5)])]] ∧
    [JVal.obj [("embedding", JVal.num 5)], JVal.obj [("embedding", JVal.num 5)]].map
      normalizeLocalVector ≠
      [JVal.obj [("embedding", JVal.num 5)], JVal.obj [("embedding", JVal.num 5)]] :=
  ⟨rfl, rfl, by
    have h : [JVal.obj [("embedding", JVal.num 5)], JVal.obj [("embedding", JVal.num 5)]].map
        normalizeLocalVector =
        [JVal.obj [("embedding", JVal.obj [("embedding", JVal.num 5)])],
         JVal.obj [("embedding", JVal.obj [("embedding", JVal.num 5)])]] := rfl
    rw [h]
    simp⟩

/-- C17, amended. On a 2xx answer whose `embeddings` is an array the helper
returns a list of the same length in the same order: an entry that is a
record with an array `embedding` is passed through unchanged and every other
entry `vec` becomes `{embedding: vec}`. Normalizing the output again leaves it
unchanged when every entry is a vector (an array) or a record with an array
`embedding`. -/
theorem local_normalization (w : World) (env : Env) (k : Nat)
    (images inputs : List JVal) (s : String) (resp : FetchResponse) (json : JVal)
    (vecs : List JVal)
    (hs : s ≠ "") (hinputs : imageInputs images = Except.ok inputs)
    (hfetch : w.fetch k (localRequest (stripTrailingSlash s ++ "/embeddings") inputs) =
      FetchResult.response resp)
    (hok : resp.ok = true) (hjson : resp.json = Except.ok json)
    (hemb : json.prop "embeddings" = JVal.arr vecs) :
    (generateLocalEmbeddings w env k images (JVal.str s)).1 =
      Except.ok (vecs.map normalizeLocalVector) ∧
    (vecs.map normalizeLocalVector).length = vecs.length ∧
    (∀ j : Nat, (vecs.map normalizeLocalVector)[j]? = (vecs[j]?).map normalizeLocalVector) ∧
    (∀ (fields : List (String × JVal)) (xs : List JVal),
      lookupField "embedding" fields = JVal.arr xs →
      normalizeLocalVector (JVal.obj fields) = JVal.obj fields) ∧
    (∀ v : JVal,
      (∀ fields, v = JVal.obj fields → (lookupField "embedding" fields).isArray = false) →
      normalizeLocalVector v = JVal.obj [("embedding", v)]) ∧
    ((∀ v ∈ vecs, isVectorEntry v = true) →
      (vecs.map normalizeLocalVector).map normalizeLocalVector =
        vecs.map normalizeLocalVector) := by
  refine ⟨?_, by simp, ?_, normalizeLocalVector_passthrough, normalizeLocalVector_wrap, ?_⟩
  · rw [generateLocalEmbeddings_of_response w env k images inputs s resp json vecs hs hinputs
      hfetch hok hjson hemb]
  · intro j
    simp [List.getElem?_map]
  · intro hall
    rw [List.map_map]
    apply List.map_congr_left
    intro v hv
    exact normalizeLocalVector_idem v (hall v hv)

/-- C17 amended, at the sample request answered with two flat vectors. -/
theorem local_normalization_witness :
    "http://clip:8000" ≠ "" ∧
    imageInputs sampleImages =
      Except.ok [JVal.str "http://img/a.jpg", JVal.str "http://img/b.jpg"] ∧
    onlineWorld.fetch 0 (localRequest (stripTrailingSlash "http://clip:8000" ++
      "/embeddings") [JVal.str "http://img/a.jpg", JVal.str "http://img/b.jpg"]) =
      FetchResult.response
        { status := 200, statusText := "OK", text := "",
          json := Except.ok (JVal.obj [("embeddings", JVal.arr sampleEmbeddings)]) } ∧
    (∀ v ∈ sampleEmbeddings, isVectorEntry v = true) ∧
    (sampleEmbeddings.map normalizeLocalVector).map normalizeLocalVector =
      sampleEmbeddings.map normalizeLocalVector :=
  have hvec : ∀ v ∈ sampleEmbeddings, isVectorEntry v = true := by
    intro v hv
    simp only [sampleEmbeddings, List.mem_cons, List.mem_singleton, List.mem_nil_iff,
      or_false] at hv
    rcases hv with h | h <;> subst h <;> rfl
  ⟨by decide, rfl, rfl, hvec,
    (local_normalization onlineWorld fullEnv 0 sampleImages
      [JVal.str "http://img/a.jpg", JVal.str "http://img/b.jpg"] "http://clip:8000"
      { status := 200, statusText := "OK", text := "",
        json := Except.ok (JVal.obj [("embeddings", JVal.arr sampleEmbeddings)]) }
      (JVal.obj [("embeddings", JVal.arr sampleEmbeddings)]) sampleEmbeddings
      (by decide) rfl rfl rfl rfl rfl).2.2.2.2.2 hvec⟩

/-- C18 as stated fails: the URL is present, the service would answer every
call 2xx with an array `embeddings`, and the helper still throws, a
`TypeError`, because an image is `null`; no call is made. The handler turns
this into a fallback answer. -/
theorem local_failure_counterexample :
    generateLocalEmbeddings onlineWorld fullEnv 0 [JVal.null] (JVal.str "http://clip:8000") =
      (Except.error "Cannot read properties of null (reading 'url')", []) ∧
    (JVal.str "http://clip:8000").truthy = true ∧
    onlineWorld.fetch = (fun _ _ => FetchResult.response
      { status := 200, statusText := "OK", text := "",
        json := Except.ok (JVal.obj [("embeddings", JVal.arr sampleEmbeddings)]) }) ∧
    (handler onlineWorld fullEnv nullImageRequest).1.body.prop "fallbackReason" =
      JVal.str "Cannot read properties of null (reading 'url')" :=
  ⟨rfl, by decide, rfl, rfl⟩

/-- C18, amended. Let `u` be the URL the helper uses (the argument, or
`LOCAL_CLIP_URL` when the argument is `undefined`). The helper throws, with
the stated message, when `u` is missing, when the transport call throws (its
error is rethrown), when the answer is not 2xx (the message contains the
status, the status text and the body), when the body does not parse, and when
the parsed body is not `null` and its `embeddings` is not an array. It throws
in these cases only, apart from three `TypeError`s: an image is `null` or
`undefined`, `u` is not a string, or the parsed body is `null`. -/
theorem local_failure_cases (w : World) (env : Env) (k : Nat) (images : List JVal)
    (localUrl u : JVal)
    (hu : u = if localUrl.isUndefined then envVal env.LOCAL_CLIP_URL else localUrl) :
    (u.truthy = false →
      generateLocalEmbeddings w env k images localUrl =
        (Except.error "LOCAL_CLIP_URL not configured", [])) ∧
    (∀ inputs s, u = JVal.str s → s ≠ "" → imageInputs images = Except.ok inputs →
      (∀ message,
        w.fetch k (localRequest (stripTrailingSlash s ++ "/embeddings") inputs) =
          FetchResult.failure message →
        (generateLocalEmbeddings w env k images localUrl).1 = Except.error message) ∧
      (∀ resp,
        w.fetch k (localRequest (stripTrailingSlash s ++ "/embeddings") inputs) =
          FetchResult.response resp →
        (resp.ok = false →
          (generateLocalEmbeddings w env k images localUrl).1 =
            Except.error (localStatusMessage resp) ∧
          includes (localStatusMessage resp) (toString resp.status) = true ∧
          includes (localStatusMessage resp) resp.statusText = true ∧
          includes (localStatusMessage resp) resp.text = true) ∧
        (resp.ok = true → ∀ message, resp.json = Except.error message →
          (generateLocalEmbeddings w env k images localUrl).1 = Except.error message) ∧
        (resp.ok = true → ∀ json, resp.json = Except.ok json → json.isNullish = false →
          (json.prop "embeddings").isArray = false →
          (generateLocalEmbeddings w env k images localUrl).1 =
            Except.error "Local embedding service returned invalid payload"))) ∧
    (∀ e, (generateLocalEmbeddings w env k images localUrl).1 = Except.error e →
      (u.truthy = false ∧ e = "LOCAL_CLIP_URL not configured") ∨
      (∃ img ∈ images, img.isNullish = true) ∨
      (∀ s, u ≠ JVal.str s) ∨
      (∃ r, w.fetch k r = FetchResult.failure e) ∨
      (∃ r resp, w.fetch k r = FetchResult.response resp ∧
        ((resp.ok = false ∧ e = localStatusMessage resp) ∨
         resp.json = Except.error e ∨
         ∃ json, resp.json = Except.ok json ∧
          (json.isNullish = true ∨
            ((json.prop "embeddings").isArray = false ∧
              e = "Local embedding service returned invalid payload"))))) := by
  have hgen : generateLocalEmbeddings w env k images localUrl =
      localEmbeddings w k images u := by
    rw [hu]
    rfl
  rw [hgen]
  refine ⟨?_, ?_, ?_⟩
  · intro hfalse
    unfold localEmbeddings
    simp [hfalse]
  · intro inputs s hstr hs hinputs
    subst hstr
    have htruthy : (JVal.str s).truthy = true := by simp [JVal.truthy, hs]
    refine ⟨?_, ?_⟩
    · intro message hfetch
      unfold localEmbeddings
      simp only [htruthy, Bool.not_true, Bool.false_eq_true, if_false, hinputs,
        embeddingsEndpoint, hfetch]
    · intro resp hfetch
      refine ⟨?_, ?_, ?_⟩
      · intro hok
        refine ⟨?_, localStatusMessage_includes resp⟩
        unfold localEmbeddings
        simp only [htruthy, Bool.not_true, Bool.false_eq_true, if_false, hinputs,
          embeddingsEndpoint, hfetch, hok, Bool.not_false, if_true, localStatusMessage]
      · intro hok message hjson
        unfold localEmbeddings
        simp only [htruthy, Bool.not_true, Bool.false_eq_true, if_false, hinputs,
          embeddingsEndpoint, hfetch, hok, hjson]
      · intro hok json hjson hnull harr
        have hget : getProp json "embeddings" = Except.ok (json.prop "embeddings") := by
          simp [getProp, hnull]
        unfold localEmbeddings
        simp only [htruthy, Bool.not_true, Bool.false_eq_true, if_false, hinputs,
          embeddingsEndpoint, hfetch, hok, hjson, hget]
        cases hp : json.prop "embeddings" <;> simp [hp, JVal.isArray] at harr ⊢
  · intro e he
    exact localEmbeddings_error_inv w k images u e he

/-- C18 amended, at the sample images when the local service is
unreachable. -/
theorem local_failure_cases_witness :
    JVal.str "http://clip:8000" =
      (if (JVal.str "http://clip:8000").isUndefined then envVal fullEnv.LOCAL_CLIP_URL
        else JVal.str "http://clip:8000") ∧
    (generateLocalEmbeddings offlineWorld fullEnv 0 sampleImages
      (JVal.str "http://clip:8000")).1 = Except.error "connect ECONNREFUSED" :=
  ⟨rfl,
    ((local_failure_cases offlineWorld fullEnv 0 sampleImages (JVal.str "http://clip:8000")
      (JVal.str "http://clip:8000") rfl).2.1
      [JVal.str "http://img/a.jpg", JVal.str "http://img/b.jpg"] "http://clip:8000" rfl
      (by decide) rfl).1 "connect ECONNREFUSED" rfl⟩

/-! ## What reaches the matrix and the clustering -/

theorem matrixInputs_append (a b : List Event) :
    matrixInputs (a ++ b) = matrixInputs a ++ matrixInputs b := by
  induction a with
  | nil => rfl
  | cons e rest ih => cases e <;> simp [matrixInputs, ih]

theorem clusterInputs_append (a b : List Event) :
    clusterInputs (a ++ b) = clusterInputs a ++ clusterInputs b := by
  induction a with
  | nil => rfl
  | cons e rest ih => cases e <;> simp [clusterInputs, ih]

theorem matrixInputs_backend (trace : List Event)
    (h : ∀ e ∈ trace, e.isBackend = true) : matrixInputs trace = [] := by
  induction trace with
  | nil => rfl
  | cons e rest ih =>
    have he := h e (List.mem_cons_self e rest)
    have hrest := ih (fun x hx => h x (List.mem_cons_of_mem e hx))
    cases e <;> simp [Event.isBackend, Event.isLocal, Event.isGemini, Event.isHF] at he <;>
      simp [matrixInputs, hrest]

theorem clusterInputs_backend (trace : List Event)
    (h : ∀ e ∈ trace, e.isBackend = true) : clusterInputs trace = [] := by
  induction trace with
  | nil => rfl
  | cons e rest ih =>
    have he := h e (List.mem_cons_self e rest)
    have hrest := ih (fun x hx => h x (List.mem_cons_of_mem e hx))
    cases e <;> simp [Event.isBackend, Event.isLocal, Event.isGemini, Event.isHF] at he <;>
      simp [clusterInputs, hrest]

/-- The matrix is computed from the embeddings of step 1 and from nothing
else. -/
theorem run_matrixInputs (w : World) (env : Env) (body : JVal) (images : List JVal) :
    ∀ embeddings ∈ matrixInputs (processImagesRequest w env body images).2,
      ∃ label, (fingerprint w env body images).1 = Except.ok (embeddings, label) := by
  intro embeddings hmem
  have hfp := matrixInputs_backend _ (fingerprint_isBackend w env body images)
  cases hf : (fingerprint w env body images).1 with
  | error message =>
    rw [run_of_error w env body images message hf, recover_trace, matrixInputs_append,
      hfp] at hmem
    simp [matrixInputs] at hmem
  | ok p =>
    obtain ⟨embs, label⟩ := p
    rw [run_of_ok w env body images embs label hf] at hmem
    unfold compare at hmem
    split at hmem
    · rw [matrixInputs_append, hfp] at hmem
      simp only [matrixInputs, List.nil_append, List.mem_singleton] at hmem
      exact ⟨label, by rw [hmem]⟩
    · rw [recover_trace, matrixInputs_append, matrixInputs_append, hfp] at hmem
      simp only [matrixInputs, List.nil_append, List.append_nil, List.mem_singleton] at hmem
      exact ⟨label, by rw [hmem]⟩
    · split at hmem
      · rw [recover_trace, matrixInputs_append, matrixInputs_append, hfp] at hmem
        simp only [matrixInputs, List.nil_append, List.append_nil, List.mem_singleton] at hmem
        exact ⟨label, by rw [hmem]⟩
      · rw [matrixInputs_append, hfp] at hmem
        simp only [matrixInputs, List.nil_append, List.mem_singleton] at hmem
        exact ⟨label, by rw [hmem]⟩

/-- The clustering gets the request's images and the matrix computed from
the embeddings of step 1. -/
theorem run_clusterInputs (w : World) (env : Env) (body : JVal) (images : List JVal) :
    ∀ p ∈ clusterInputs (processImagesRequest w env body images).2,
      p.1 = images ∧
      ∃ embeddings label, (fingerprint w env body images).1 = Except.ok (embeddings, label) ∧
        w.computeSimilarityMatrix embeddings = Except.ok p.2 := by
  intro p hmem
  have hfp := clusterInputs_backend _ (fingerprint_isBackend w env body images)
  cases hf : (fingerprint w env body images).1 with
  | error message =>
    rw [run_of_error w env body images message hf, recover_trace, clusterInputs_append,
      hfp] at hmem
    simp [clusterInputs] at hmem
  | ok q =>
    obtain ⟨embs, label⟩ := q
    rw [run_of_ok w env body images embs label hf] at hmem
    unfold compare at hmem
    split at hmem
    · rw [clusterInputs_append, hfp] at hmem
      simp [clusterInputs] at hmem
    · rw [recover_trace, clusterInputs_append, clusterInputs_append, hfp] at hmem
      simp [clusterInputs] at hmem
    · rename_i row rows hmatrix
      split at hmem
      · rw [recover_trace, clusterInputs_append, clusterInputs_append, hfp] at hmem
        simp only [clusterInputs, List.nil_append, List.append_nil, List.mem_singleton] at hmem
        subst hmem
        exact ⟨rfl, embs, label, rfl, hmatrix⟩
      · rw [clusterInputs_append, hfp] at hmem
        simp only [clusterInputs, List.nil_append, List.mem_singleton] at hmem
        subst hmem
        exact ⟨rfl, embs, label, rfl, hmatrix⟩

/-- C20 as stated fails: the local service answers the request for two
images with one vector; the handler accepts it, hands the single fingerprint
to `computeSimilarityMatrix` and calls `clusterSimilarImages` with the two
images and the 1 by 1 matrix. -/
theorem fingerprint_count_counterexample :
    matrixInputs (handler shortWorld fullEnv (sampleRequest [])).2 =
      [[JVal.obj [("embedding", JVal.arr [JVal.num 1, JVal.num 0])]]] ∧
    clusterInputs (handler shortWorld fullEnv (sampleRequest [])).2 =
      [(sampleImages, [[JVal.num 1]])] ∧
    [JVal.obj [("embedding", JVal.arr [JVal.num 1, JVal.num 0])]].length = 1 ∧
    sampleImages.length = 2 ∧
    (handler shortWorld fullEnv (sampleRequest [])).1.status = 200 :=
  ⟨rfl, rfl, rfl, rfl, rfl⟩

/-- C20, amended. The handler does not compare the number of fingerprints
with `images.length`. Whenever it calls `clusterSimilarImages` it passes the
request's image list and the matrix computed from the fingerprints it handed
to `computeSimilarityMatrix`. With Hugging Face as the backend the number of
these fingerprints is `images.length`; with the local service it is the
length of the `embeddings` array of the service's answer, whatever that
is. -/
theorem fingerprint_count (w : World) (env : Env) (req : Request) (images : List JVal)
    (hmethod : req.method = "POST") (himages : req.body.prop "images" = JVal.arr images)
    (hne : images ≠ []) :
    (∀ p ∈ clusterInputs (handler w env req).2,
      p.1 = images ∧
      ∃ embeddings ∈ matrixInputs (handler w env req).2,
        w.computeSimilarityMatrix embeddings = Except.ok p.2) ∧
    (∀ embeddings ∈ matrixInputs (handler w env req).2,
      (selectedBackend env req.body = Backend.huggingFace →
        embeddings.length = images.length) ∧
      (selectedBackend env req.body = Backend.localClip →
        ∃ r resp json vecs,
          w.fetch (preflight images (effectiveLocalUrl env req.body)).length r =
            FetchResult.response resp ∧
          resp.ok = true ∧ resp.json = Except.ok json ∧
          json.prop "embeddings" = JVal.arr vecs ∧ embeddings.length = vecs.length)) := by
  rw [handler_accepts w env req images hmethod himages hne]
  have hcount : ∀ embeddings ∈ matrixInputs (processImagesRequest w env req.body images).2,
      (selectedBackend env req.body = Backend.huggingFace →
        embeddings.length = images.length) ∧
      (selectedBackend env req.body = Backend.localClip →
        ∃ r resp json vecs,
          w.fetch (preflight images (effectiveLocalUrl env req.body)).length r =
            FetchResult.response resp ∧
          resp.ok = true ∧ resp.json = Except.ok json ∧
          json.prop "embeddings" = JVal.arr vecs ∧ embeddings.length = vecs.length) := by
    intro embeddings hmem
    obtain ⟨label, hfp⟩ := run_matrixInputs w env req.body images embeddings hmem
    have hres := ((fingerprint_selected w env req.body images).2.1 embeddings label hfp).2
    refine ⟨?_, ?_⟩
    · intro hsel
      rw [hsel] at hres
      exact generateHFEmbeddings_length w env 0 images embeddings hres
    · intro hsel
      rw [hsel] at hres
      simp only [Backend.result, generateLocalEmbeddings] at hres
      obtain ⟨s, inputs, resp, json, vecs, _, _, _, hfetch, hok, hjson, hemb, hlist⟩ :=
        localEmbeddings_ok_inv w _ images _ embeddings hres
      refine ⟨_, resp, json, vecs, hfetch, hok, hjson, ?_, by rw [hlist]; simp⟩
      unfold getProp at hemb
      by_cases hn : json.isNullish = true
      · simp [hn] at hemb
      · simpa [hn] using hemb
  refine ⟨?_, hcount⟩
  intro p hp
  obtain ⟨himg, embeddings, label, hfp, hmatrix⟩ := run_clusterInputs w env req.body images p hp
  refine ⟨himg, embeddings, ?_, hmatrix⟩
  rw [run_of_ok w env req.body images embeddings label hfp]
  unfold compare
  split
  · rename_i msg herr
    rw [hmatrix] at herr
    cases herr
  · rw [recover_trace, matrixInputs_append, matrixInputs_append]
    simp [matrixInputs]
  · split
    · rw [recover_trace, matrixInputs_append, matrixInputs_append]
      simp [matrixInputs]
    · rw [matrixInputs_append]
      simp [matrixInputs]

/-- C20 amended, at the sample request served by Hugging Face: two images,
two fingerprints. -/
theorem fingerprint_count_witness :
    (sampleRequest []).method = "POST" ∧
    (sampleRequest []).body.prop "images" = JVal.arr sampleImages ∧
    sampleImages ≠ [] ∧
    selectedBackend hfEnv (sampleRequest []).body = Backend.huggingFace ∧
    matrixInputs (handler (hfWorld flatVector) hfEnv (sampleRequest [])).2 =
      [[flatVector, flatVector]] ∧
    [flatVector, flatVector].length = sampleImages.length :=
  ⟨rfl, rfl, by simp [sampleImages], by decide, rfl,
    ((fingerprint_count (hfWorld flatVector) hfEnv (sampleRequest []) sampleImages rfl rfl
      (by simp [sampleImages])).2 [flatVector, flatVector]
      (by
        have h : matrixInputs (handler (hfWorld flatVector) hfEnv (sampleRequest [])).2 =
          [[flatVector, flatVector]] := rfl
        rw [h]
        exact List.mem_singleton.mpr rfl)).1 (by decide)⟩

/-! ## The calls to the local service -/

theorem localCalls_append (a b : List Event) :
    localCalls (a ++ b) = localCalls a ++ localCalls b := by
  induction a with
  | nil => rfl
  | cons e rest ih => cases e <;> simp [localCalls, ih]

/-- After step 1 the handler makes no call to the local service. -/
theorem run_localCalls (w : World) (env : Env) (body : JVal) (images : List JVal) :
    localCalls (processImagesRequest w env body images).2 =
      localCalls (fingerprint w env body images).2 := by
  cases hf : (fingerprint w env body images).1 with
  | error message =>
    rw [run_of_error w env body images message hf, recover_trace, localCalls_append]
    simp [localCalls]
  | ok p =>
    obtain ⟨embs, label⟩ := p
    rw [run_of_ok w env body images embs label hf]
    unfold compare
    split
    · rw [localCalls_append]
      simp [localCalls]
    · rw [recover_trace, localCalls_append, localCalls_append]
      simp [localCalls]
    · split
      · rw [recover_trace, localCalls_append, localCalls_append]
        simp [localCalls]
      · rw [localCalls_append]
        simp [localCalls]

theorem localEmbeddings_call (w : World) (k : Nat) (images inputs : List JVal) (s : String)
    (hs : s ≠ "") (hinputs : imageInputs images = Except.ok inputs) :
    (localEmbeddings w k images (JVal.str s)).2 =
      [Event.localFetch (localRequest (stripTrailingSlash s ++ "/embeddings") inputs)] := by
  unfold localEmbeddings
  simp only [JVal.truthy, hs, ne_eq, not_false_eq_true, decide_True, Bool.not_true,
    Bool.false_eq_true, if_false, hinputs, embeddingsEndpoint]
  split
  · rfl
  · split
    · rfl
    · split
      · rfl
      · split <;> rfl

/-- With a string URL and images that all have an input, step 1 calls the
local service twice with one and the same request: the preflight, then
`generateLocalEmbeddings`. -/
theorem fingerprint_localCalls (w : World) (env : Env) (body : JVal)
    (images inputs : List JVal) (s : String)
    (hurl : effectiveLocalUrl env body = JVal.str s) (hs : s ≠ "")
    (hinputs : imageInputs images = Except.ok inputs) :
    localCalls (fingerprint w env body images).2 =
      [localRequest (stripTrailingSlash s ++ "/embeddings") inputs,
       localRequest (stripTrailingSlash s ++ "/embeddings") inputs] := by
  have htruthy : (effectiveLocalUrl env body).truthy = true := by
    rw [hurl]
    simp [JVal.truthy, hs]
  have hpre : preflight images (JVal.str s) =
      [Event.localFetch (localRequest (stripTrailingSlash s ++ "/embeddings") inputs)] := by
    simp [preflight, embeddingsEndpoint, hinputs]
  have hcall := localEmbeddings_call w (preflight images (JVal.str s)).length images inputs s
    hs hinputs
  unfold fingerprint
  simp only [htruthy, if_true, hurl]
  have hgen : generateLocalEmbeddings w env (preflight images (JVal.str s)).length images
      (JVal.str s) = localEmbeddings w (preflight images (JVal.str s)).length images
      (JVal.str s) := rfl
  rw [hgen]
  cases hres : localEmbeddings w (preflight images (JVal.str s)).length images (JVal.str s) with
  | mk r evs =>
    rw [hres] at hcall
    simp only at hcall
    subst hcall
    cases r <;> simp [hpre, localCalls, JVal.truthy, hs]

theorem imageInputs_ok (images : List JVal) :
    ∀ inputs, imageInputs images = Except.ok inputs →
      inputs.length = images.length ∧
      ∀ (j : Nat) (img : JVal), images[j]? = some img →
        inputs[j]? = some (jsOr (img.prop "url") img) := by
  induction images with
  | nil =>
    intro inputs h
    simp only [imageInputs, Except.ok.injEq] at h
    subst h
    simp
  | cons img rest ih =>
    intro inputs h
    simp only [imageInputs] at h
    split at h
    · simp at h
    · rename_i u hu
      split at h
      · simp at h
      · rename_i us hus
        simp only [Except.ok.injEq] at h
        subst h
        obtain ⟨hlen, hidx⟩ := ih us hus
        have hval : u = jsOr (img.prop "url") img := by
          unfold imageInput getProp at hu
          by_cases hn : img.isNullish = true
          · simp [hn] at hu
          · simp only [hn, Bool.false_eq_true, if_false, Except.ok.injEq] at hu
            exact hu.symm
        refine ⟨by simp [hlen], ?_⟩
        intro j im hj
        cases j with
        | zero =>
          simp only [List.getElem?_cons_zero, Option.some.injEq] at hj
          subst hj
          simp [hval]
        | succ j =>
          simp only [List.getElem?_cons_succ] at hj ⊢
          exact hidx j im hj

/-- C21 as stated fails: with the local service selected the handler calls
its `/embeddings` endpoint twice per request, the preflight and then
`generateLocalEmbeddings`, both times with the same request. -/
theorem local_call_count_counterexample :
    selectedBackend fullEnv (sampleRequest []).body = Backend.localClip ∧
    localCalls (handler onlineWorld fullEnv (sampleRequest [])).2 =
      [localRequest "http://clip:8000/embeddings"
         [JVal.str "http://img/a.jpg", JVal.str "http://img/b.jpg"],
       localRequest "http://clip:8000/embeddings"
         [JVal.str "http://img/a.jpg", JVal.str "http://img/b.jpg"]] ∧
    (localCalls (handler onlineWorld fullEnv (sampleRequest [])).2).length = 2 :=
  ⟨by decide, rfl, rfl⟩

/-- C21, amended. When the local service is selected, its URL is a string and
every image has an input, the handler issues exactly two network calls to the
service's `/embeddings` endpoint per request: the diagnostic preflight and the
call of `generateLocalEmbeddings`. Both carry the same payload, the inputs of
all images in input order, where the input of an image is its `url` when that
is present and the image itself when it is a plain string. No further call to
the service follows, whatever the two calls return. -/
theorem local_call_count (w : World) (env : Env) (req : Request)
    (images inputs : List JVal) (s : String)
    (hmethod : req.method = "POST") (himages : req.body.prop "images" = JVal.arr images)
    (hne : images ≠ [])
    (hurl : effectiveLocalUrl env req.body = JVal.str s) (hs : s ≠ "")
    (hinputs : imageInputs images = Except.ok inputs) :
    localCalls (handler w env req).2 =
      [localRequest (stripTrailingSlash s ++ "/embeddings") inputs,
       localRequest (stripTrailingSlash s ++ "/embeddings") inputs] ∧
    (localRequest (stripTrailingSlash s ++ "/embeddings") inputs).body =
      JVal.obj [("images", JVal.arr inputs)] ∧
    inputs.length = images.length ∧
    (∀ (j : Nat) (img : JVal), images[j]? = some img →
      inputs[j]? = some (jsOr (img.prop "url") img)) ∧
    (∀ img u, img.prop "url" = JVal.str u → u ≠ "" → jsOr (img.prop "url") img = JVal.str u) ∧
    (∀ t, t ≠ "" → jsOr ((JVal.str t).prop "url") (JVal.str t) = JVal.str t) := by
  have hin := imageInputs_ok images inputs hinputs
  refine ⟨?_, rfl, hin.1, hin.2, ?_, ?_⟩
  · rw [handler_accepts w env req images hmethod himages hne, run_localCalls,
      fingerprint_localCalls w env req.body images inputs s hurl hs hinputs]
  · intro img u hu hne'
    simp [hu, jsOr, JVal.truthy, hne']
  · intro t _
    simp [JVal.prop, jsOr, JVal.truthy]

/-- C21 amended, at the sample request when the local service is down: two
calls, none after the failure. -/
theorem local_call_count_witness :
    (sampleRequest []).method = "POST" ∧
    (sampleRequest []).body.prop "images" = JVal.arr sampleImages ∧
    sampleImages ≠ [] ∧
    effectiveLocalUrl fullEnv (sampleRequest []).body = JVal.str "http://clip:8000/" ∧
    "http://clip:8000/" ≠ "" ∧
    imageInputs sampleImages =
      Except.ok [JVal.str "http://img/a.jpg", JVal.str "http://img/b.jpg"] ∧
    localCalls (handler offlineWorld fullEnv (sampleRequest [])).2 =
      [localRequest (stripTrailingSlash "http://clip:8000/" ++ "/embeddings")
         [JVal.str "http://img/a.jpg", JVal.str "http://img/b.jpg"],
       localRequest (stripTrailingSlash "http://clip:8000/" ++ "/embeddings")
         [JVal.str "http://img/a.jpg", JVal.str "http://img/b.jpg"]] :=
  ⟨rfl, rfl, by simp [sampleImages], rfl, by decide, rfl,
    (local_call_count offlineWorld fullEnv (sampleRequest []) sampleImages
      [JVal.str "http://img/a.jpg", JVal.str "http://img/b.jpg"] "http://clip:8000/"
      rfl rfl (by simp [sampleImages]) rfl (by decide) rfl).1⟩

/-! ## Progress, status and counts -/

theorem postsOf_append (a b : List ClientEvent) :
    postsOf (a ++ b) = postsOf a ++ postsOf b := by
  induction a with
  | nil => rfl
  | cons e tail ih => cases e <;> simp [postsOf, ih]

theorem completedValues_progressEvents (n : Nat) :
    completedValues (progressEvents n) =
      [0, n * 1 / 5, n * 2 / 5, n * 3 / 5, n * 4 / 5, n * 5 / 5, n, n] := by
  simp [progressEvents, batchProgress, completedValues]

theorem totalValues_progressEvents (n : Nat) :
    totalValues (progressEvents n) = [n, n, n, n, n, n, n, n] := by
  simp [progressEvents, batchProgress, totalValues]

/-- C26. For a non-empty image list of length `n` and an `onProgress`
callback, `processImages` calls the callback with the `completed` values 0,
`floor(n*1/5)`, ..., `floor(n*5/5)`, `n`, `n` in this order and with
`total = n` each time; the values are non-decreasing, never above `n` and end
at `n`; they do not depend on what the server answers, and the request to
`/process` comes after all of them. -/
theorem progress_is_advisory (post : String → JVal → Except String JVal) (i : JVal)
    (rest : List JVal) (opts : ProcessOptions) (hprogress : opts.onProgress = true) :
    (processImages post (JVal.arr (i :: rest)) (some opts)).2 =
      progressEvents (rest.length + 1) ++
        [ClientEvent.post "/process" (processBody (JVal.arr (i :: rest))
          (if opts.similarityThreshold.isUndefined then defaultThreshold
           else opts.similarityThreshold))] ∧
    postsOf (progressEvents (rest.length + 1)) = [] ∧
    completedValues (processImages post (JVal.arr (i :: rest)) (some opts)).2 =
      [0, (rest.length + 1) * 1 / 5, (rest.length + 1) * 2 / 5, (rest.length + 1) * 3 / 5,
       (rest.length + 1) * 4 / 5, (rest.length + 1) * 5 / 5, rest.length + 1,
       rest.length + 1] ∧
    (rest.length + 1) * 5 / 5 = rest.length + 1 ∧
    List.Pairwise (fun a b => a ≤ b)
      (completedValues (processImages post (JVal.arr (i :: rest)) (some opts)).2) ∧
    (∀ c ∈ completedValues (processImages post (JVal.arr (i :: rest)) (some opts)).2,
      c ≤ rest.length + 1) ∧
    (∀ t ∈ totalValues (processImages post (JVal.arr (i :: rest)) (some opts)).2,
      t = rest.length + 1) ∧
    (completedValues (processImages post (JVal.arr (i :: rest)) (some opts)).2).getLast? =
      some (rest.length + 1) := by
  have htrace : (processImages post (JVal.arr (i :: rest)) (some opts)).2 =
      progressEvents (rest.length + 1) ++
        [ClientEvent.post "/process" (processBody (JVal.arr (i :: rest))
          (if opts.similarityThreshold.isUndefined then defaultThreshold
           else opts.similarityThreshold))] := by
    unfold processImages
    simp only [Option.getD_some, hprogress, if_true, List.length_cons]
    split <;> rfl
  have hcompleted : ∀ (e : ClientEvent) (l : List ClientEvent), e.isPost = true →
      completedValues (l ++ [e]) = completedValues l ∧ totalValues (l ++ [e]) = totalValues l := by
    intro e l he
    induction l with
    | nil => cases e <;> simp [ClientEvent.isPost, completedValues, totalValues] at he ⊢
    | cons x tail ih => cases x <;> simp [completedValues, totalValues, ih.1, ih.2]
  have hc := (hcompleted _ (progressEvents (rest.length + 1)) (rfl : (ClientEvent.post "/process"
    (processBody (JVal.arr (i :: rest)) (if opts.similarityThreshold.isUndefined then
      defaultThreshold else opts.similarityThreshold))).isPost = true))
  rw [htrace, hc.1, hc.2, completedValues_progressEvents, totalValues_progressEvents]
  refine ⟨rfl, ?_, rfl, by omega, ?_, ?_, ?_, ?_⟩
  · simp [progressEvents, batchProgress, postsOf]
  · simp only [List.pairwise_cons, List.mem_cons, List.mem_singleton, List.mem_nil_iff,
      or_false, forall_eq_or_imp, forall_eq, List.Pairwise.nil, and_true, le_refl,
      List.not_mem_nil, false_implies, implies_true]
    omega
  · intro c hc'
    simp only [List.mem_cons, List.mem_singleton, List.mem_nil_iff, or_false] at hc'
    omega
  · intro t ht
    simp only [List.mem_cons, List.mem_singleton, List.mem_nil_iff, or_false, or_self] at ht
    exact ht
  · simp

/-- C26, at three images. -/
theorem progress_is_advisory_witness :
    progressOptions.onProgress = true ∧
    completedValues (processImages (fun _ _ => Except.error "Network error")
      (JVal.arr (secondSampleImage :: sampleImages)) (some progressOptions)).2 =
      [0, 0, 1, 1, 2, 3, 3, 3] ∧
    List.Pairwise (fun a b => a ≤ b)
      (completedValues (processImages (fun _ _ => Except.error "Network error")
        (JVal.arr (secondSampleImage :: sampleImages)) (some progressOptions)).2) :=
  ⟨rfl, rfl,
    (progress_is_advisory (fun _ _ => Except.error "Network error") secondSampleImage
      sampleImages progressOptions rfl).2.2.2.2.1⟩

/-- C27. When the selected backend throws with `message` and the fallback
throws too, the status of the answer is decided by `message` alone: 408 when
it contains `timeout`, otherwise 502 when it contains `API`, otherwise 500.
The fallback's message does not change the status, and a message containing
both `timeout` and `API` gives 408. -/
theorem failure_status_from_backend_message (w : World) (env : Env) (req : Request)
    (images : List JVal) (message fallbackMessage : String)
    (hmethod : req.method = "POST") (himages : req.body.prop "images" = JVal.arr images)
    (hne : images ≠ [])
    (hthrows : Backend.result w env req.body images (selectedBackend env req.body) =
      Except.error message)
    (hfallback : w.processFallback images (thresholdOf req.body) =
      Except.error fallbackMessage) :
    (handler w env req).1.status = specFailureStatus message ∧
    (handler w env req).1.status = (failureResponse message fallbackMessage).1 ∧
    (∀ other, (failureResponse message other).1 = (failureResponse message fallbackMessage).1) ∧
    (includes message "timeout" = true → (handler w env req).1.status = 408) ∧
    (includes message "timeout" = true → includes message "API" = true →
      (handler w env req).1.status = 408) ∧
    (includes message "timeout" = false → includes message "API" = true →
      (handler w env req).1.status = 502) ∧
    (includes message "timeout" = false → includes message "API" = false →
      (handler w env req).1.status = 500) := by
  have hfp := fingerprint_error_of_result w env req.body images message hthrows
  have hrun : (handler w env req).1 =
      Outcome.responded (failureResponse message fallbackMessage).1
        (failureResponse message fallbackMessage).2 := by
    rw [handler_accepts w env req images hmethod himages hne,
      run_of_error w env req.body images message hfp,
      recover_error w images (thresholdOf req.body) message _ fallbackMessage hfallback]
  have hstatus : ∀ other, (failureResponse message other).1 = specFailureStatus message := by
    intro other
    unfold failureResponse specFailureStatus
    by_cases ht : includes message "timeout" = true
    · simp [ht]
    · by_cases ha : includes message "API" = true
      · simp [ht, ha]
      · simp [ht, ha]
  rw [hrun]
  simp only [Outcome.status]
  refine ⟨hstatus _, trivial, fun other => by rw [hstatus, hstatus], ?_, ?_, ?_, ?_⟩
  · intro ht
    rw [hstatus]
    simp [specFailureStatus, ht]
  · intro ht _
    rw [hstatus]
    simp [specFailureStatus, ht]
  · intro ht ha
    rw [hstatus]
    simp [specFailureStatus, ht, ha]
  · intro ht ha
    rw [hstatus]
    simp [specFailureStatus, ht, ha]

/-- C27, at the sample request when the local service fails with a message
containing both `timeout` and `API`. -/
theorem failure_status_from_backend_message_witness :
    (sampleRequest []).method = "POST" ∧
    (sampleRequest []).body.prop "images" = JVal.arr sampleImages ∧
    sampleImages ≠ [] ∧
    Backend.result (brokenWorld "API timeout" "unsupported image format") fullEnv
      (sampleRequest []).body sampleImages (selectedBackend fullEnv (sampleRequest []).body) =
      Except.error "API timeout" ∧
    (brokenWorld "API timeout" "unsupported image format").processFallback sampleImages
      (thresholdOf (sampleRequest []).body) = Except.error "unsupported image format" ∧
    specFailureStatus "API timeout" = 408 ∧
    (handler (brokenWorld "API timeout" "unsupported image format") fullEnv
      (sampleRequest [])).1.status = specFailureStatus "API timeout" :=
  ⟨rfl, rfl, by simp [sampleImages], rfl, rfl, by decide,
    (failure_status_from_backend_message
      (brokenWorld "API timeout" "unsupported image format") fullEnv (sampleRequest [])
      sampleImages "API timeout" "unsupported image format" rfl rfl (by simp [sampleImages])
      rfl rfl).1⟩

/-- C28. Every request `processImages` sends goes to `/process` with
`local_clip_url = 'http://localhost:8000'` in its body; for such a body the
handler selects the local service whatever `LOCAL_CLIP_URL`,
`GOOGLE_API_KEY` and `HUGGINGFACE_API_KEY` are, and a run on it makes no
Gemini and no Hugging Face call. -/
theorem client_requests_select_local (w : World) (env : Env)
    (post : String → JVal → Except String JVal) (i : JVal) (rest : List JVal)
    (options : Option ProcessOptions) (path : String) (body : JVal)
    (hsent : (path, body) ∈ postsOf (processImages post (JVal.arr (i :: rest)) options).2) :
    path = "/process" ∧
    body.prop "local_clip_url" = JVal.str "http://localhost:8000" ∧
    body.prop "images" = JVal.arr (i :: rest) ∧
    selectedBackend env body = Backend.localClip ∧
    (∀ e ∈ (handler w env { method := "POST", body := body }).2,
      e.isGemini = false ∧ e.isHF = false) := by
  rw [processImages_posts] at hsent
  simp only [List.mem_singleton, Prod.mk.injEq] at hsent
  obtain ⟨hpath, hbody⟩ := hsent
  have hurl : body.prop "local_clip_url" = JVal.str "http://localhost:8000" := by
    rw [hbody]
    simp [processBody, JVal.prop, lookupField]
  have himages : body.prop "images" = JVal.arr (i :: rest) := by
    rw [hbody]
    simp [processBody, JVal.prop, lookupField]
  have hsel : selectedBackend env body = Backend.localClip := by
    have hsome : (specLocalUrl env body).isSome = true := by
      unfold specLocalUrl
      rw [hurl]
      simp [JVal.truthy]
    simp [selectedBackend, hsome]
  refine ⟨hpath, hurl, himages, hsel, ?_⟩
  intro e he
  have hreq : ({ method := "POST", body := body } : Request).body.prop "images" =
      JVal.arr (i :: rest) := himages
  rw [handler_accepts w env { method := "POST", body := body } (i :: rest) rfl hreq
    (by simp)] at he
  have howned : e.isBackend = true → e.isLocal = true := by
    intro hb
    have hmem := run_backend_events w env body (i :: rest) e he hb
    have := (fingerprint_selected w env body (i :: rest)).1 e hmem
    rw [hsel] at this
    exact this
  cases e <;> simp_all [Event.isBackend, Event.isLocal, Event.isGemini, Event.isHF]

/-- C28, at a client call with the sample images and an all-keys
environment. -/
theorem client_requests_select_local_witness :
    ("/process", processBody (JVal.arr (secondSampleImage :: sampleImages)) defaultThreshold) ∈
      postsOf (processImages (fun _ _ => Except.ok JVal.null)
        (JVal.arr (secondSampleImage :: sampleImages)) none).2 ∧
    selectedBackend fullEnv
      (processBody (JVal.arr (secondSampleImage :: sampleImages)) defaultThreshold) =
      Backend.localClip :=
  have hsent : ("/process",
      processBody (JVal.arr (secondSampleImage :: sampleImages)) defaultThreshold) ∈
      postsOf (processImages (fun _ _ => Except.ok JVal.null)
        (JVal.arr (secondSampleImage :: sampleImages)) none).2 := by
    have h : postsOf (processImages (fun _ _ => Except.ok JVal.null)
        (JVal.arr (secondSampleImage :: sampleImages)) none).2 =
        [("/process",
          processBody (JVal.arr (secondSampleImage :: sampleImages)) defaultThreshold)] := rfl
    rw [h]
    exact List.mem_singleton.mpr rfl
  ⟨hsent,
    (client_requests_select_local onlineWorld fullEnv (fun _ _ => Except.ok JVal.null)
      secondSampleImage sampleImages none "/process"
      (processBody (JVal.arr (secondSampleImage :: sampleImages)) defaultThreshold)
      hsent).2.2.2.1⟩

theorem numSum_sizeFields (cs : List Cluster) :
    ∀ k, numSum (sizeFields (clusterEntries k cs)) =
      (((cs.map (fun c => c.images.length)).sum : Nat) : ℚ) := by
  induction cs with
  | nil => intro k; simp [clusterEntries, sizeFields, numSum]
  | cons c rest ih =>
    intro k
    have hrest := ih (k + 1)
    simp only [sizeFields] at hrest
    simp only [clusterEntries, sizeFields, List.map_cons, List.sum_cons, Nat.cast_add]
    have hsize : (clusterEntry k c).prop "size" = JVal.num (c.images.length : ℚ) := by
      simp [clusterEntry, JVal.prop, lookupField, natVal]
    rw [hsize]
    simp only [numSum, hrest]

theorem sizes_split (cs : List Cluster) :
    (cs.map (fun c => c.images.length)).sum =
      ((duplicateClusters cs).map (fun c => c.images.length)).sum +
        ((discardedClusters cs).map (fun c => c.images.length)).sum := by
  induction cs with
  | nil => rfl
  | cons c rest ih =>
    by_cases h : c.images.length > 1
    · simp only [duplicateClusters, discardedClusters, List.filter_cons, h, decide_True,
        Bool.not_true, if_true, List.map_cons, List.sum_cons, Bool.false_eq_true,
        if_false] at ih ⊢
      omega
    · simp only [duplicateClusters, discardedClusters, List.filter_cons, h, decide_False,
        Bool.not_false, if_true, List.map_cons, List.sum_cons, Bool.false_eq_true,
        if_false] at ih ⊢
      omega

theorem sum_of_ones (cs : List Cluster) (h : ∀ c ∈ cs, c.images.length = 1) :
    (cs.map (fun c => c.images.length)).sum = cs.length := by
  induction cs with
  | nil => rfl
  | cons c rest ih =>
    have hc := h c (List.mem_cons_self c rest)
    have hrest := ih (fun x hx => h x (List.mem_cons_of_mem c hx))
    simp only [List.map_cons, List.sum_cons, List.length_cons, hc, hrest]
    omega

theorem kept_add_discarded (cs : List Cluster) :
    (duplicateClusters cs).length + (discardedClusters cs).length = cs.length := by
  induction cs with
  | nil => rfl
  | cons c rest ih =>
    simp only [duplicateClusters, discardedClusters] at ih ⊢
    by_cases h : c.images.length > 1 <;> simp [List.filter_cons, h] at ih ⊢ <;> omega

/-- C29. In every success response `totalDuplicateImages` is the sum of the
`size` fields of `results.clusters` and `duplicateClusters` is the length of
`results.clusters`. If the clusters of the engine partition the request's
images (no cluster is empty and the sizes add up to `images.length`), then
`totalDuplicateImages` is at most `totalImages`, and the difference is the
number of clusters the handler discarded, all of them singletons. -/
theorem success_counts (w : World) (env : Env) (req : Request)
    (images : List JVal) (embeddings : List JVal) (label : String)
    (matrix : List (List JVal)) (clusters : List Cluster)
    (hmethod : req.method = "POST") (himages : req.body.prop "images" = JVal.arr images)
    (hne : images ≠ [])
    (hfp : (fingerprint w env req.body images).1 = Except.ok (embeddings, label))
    (hmatrix : w.computeSimilarityMatrix embeddings = Except.ok matrix) (hrows : matrix ≠ [])
    (hclusters : w.clusterSimilarImages images matrix (thresholdOf req.body) =
      Except.ok clusters) :
    ((handler w env req).1.body.prop "results").prop "clusters" =
      JVal.arr (clusterEntries 0 (duplicateClusters clusters)) ∧
    (handler w env req).1.body.prop "totalDuplicateImages" =
      JVal.num (numSum (sizeFields (clusterEntries 0 (duplicateClusters clusters)))) ∧
    (handler w env req).1.body.prop "duplicateClusters" =
      natVal (clusterEntries 0 (duplicateClusters clusters)).length ∧
    (handler w env req).1.body.prop "totalImages" = natVal images.length ∧
    (handler w env req).1.body.prop "totalDuplicateImages" =
      natVal (totalSize (duplicateClusters clusters)) ∧
    ((∀ c ∈ clusters, 0 < c.images.length) →
      (clusters.map (fun c => c.images.length)).sum = images.length →
      totalSize (duplicateClusters clusters) ≤ images.length ∧
      images.length - totalSize (duplicateClusters clusters) =
        (discardedClusters clusters).length ∧
      (∀ c ∈ discardedClusters clusters, c.images.length = 1) ∧
      (duplicateClusters clusters).length + (discardedClusters clusters).length =
        clusters.length) := by
  have hbody := (success_body w env req images embeddings label matrix clusters hmethod himages
    hne hfp hmatrix hrows hclusters).2
  rw [hbody]
  refine ⟨?_, ?_, ?_, ?_, ?_, ?_⟩
  · simp [successResponse, JVal.prop, lookupField]
  · rw [numSum_sizeFields, ← totalSize_eq_sum]
    simp [successResponse, JVal.prop, lookupField, natVal]
  · rw [clusterEntries_length]
    simp [successResponse, JVal.prop, lookupField]
  · simp [successResponse, JVal.prop, lookupField]
  · simp [successResponse, JVal.prop, lookupField]
  · intro hnonempty hsum
    have hones : ∀ c ∈ discardedClusters clusters, c.images.length = 1 := by
      intro c hc
      simp only [discardedClusters, List.mem_filter, Bool.not_eq_true', decide_eq_false_iff_not,
        not_lt] at hc
      have := hnonempty c hc.1
      omega
    have hsplit := sizes_split clusters
    rw [sum_of_ones _ hones, hsum, ← totalSize_eq_sum (duplicateClusters clusters)] at hsplit
    exact ⟨by omega, by omega, hones, kept_add_discarded clusters⟩

/-- C29, at the sample request with one duplicate pair and one singleton:
three images, two of them duplicates, one cluster discarded. -/
theorem success_counts_witness :
    (tripleRequest []).method = "POST" ∧
    (tripleRequest []).body.prop "images" = JVal.arr tripleImages ∧
    tripleImages ≠ [] ∧
    (fingerprint pairWorld fullEnv (tripleRequest []).body tripleImages).1 =
      Except.ok (tripleEmbeddings.map normalizeLocalVector, "Local-CLIP") ∧
    pairWorld.computeSimilarityMatrix (tripleEmbeddings.map normalizeLocalVector) =
      Except.ok (tripleMatrix 0.95 0.2 0.2) ∧
    tripleMatrix 0.95 0.2 0.2 ≠ [] ∧
    pairWorld.clusterSimilarImages tripleImages (tripleMatrix 0.95 0.2 0.2)
      (thresholdOf (tripleRequest []).body) = Except.ok pairClusters ∧
    (∀ c ∈ pairClusters, 0 < c.images.length) ∧
    (pairClusters.map (fun c => c.images.length)).sum = tripleImages.length ∧
    totalSize (duplicateClusters pairClusters) = 2 ∧
    (discardedClusters pairClusters).length = 1 ∧
    tripleImages.length - totalSize (duplicateClusters pairClusters) =
      (discardedClusters pairClusters).length :=
  have hnonempty : ∀ c ∈ pairClusters, 0 < c.images.length := by
    intro c hc
    simp only [pairClusters, List.mem_cons, List.mem_singleton, List.mem_nil_iff,
      or_false] at hc
    rcases hc with h | h <;> subst h <;> simp [tripleMembers]
  ⟨rfl, rfl, by simp [tripleImages], rfl, rfl, by simp [tripleMatrix], rfl, hnonempty, rfl,
    rfl, rfl,
    ((success_counts pairWorld fullEnv (tripleRequest []) tripleImages
      (tripleEmbeddings.map normalizeLocalVector) "Local-CLIP" (tripleMatrix 0.95 0.2 0.2)
      pairClusters rfl rfl (by simp [tripleImages]) rfl rfl (by simp [tripleMatrix])
      rfl).2.2.2.2.2 hnonempty rfl).2.1⟩

/-! ## Image ids -/

/-- A decimal digit character has its digit as value and is no hyphen. -/
theorem digitChar_value (k : Nat) (h : k < 10) :
    (Nat.digitChar k).toNat - 48 = k ∧ Nat.digitChar k ≠ '-' := by
  interval_cases k <;> exact ⟨rfl, by decide⟩

theorem toDigitsCore_spec (fuel : Nat) :
    ∀ (n : Nat) (ds : List Char), n < fuel →
      ∃ p, Nat.toDigitsCore 10 fuel n ds = p ++ ds ∧
        p.foldl (fun acc c => 10 * acc + (c.toNat - 48)) 0 = n ∧ ∀ c ∈ p, c ≠ '-' := by
  induction fuel with
  | zero => intro n ds h; omega
  | succ fuel ih =>
    intro n ds h
    have hd := digitChar_value (n % 10) (Nat.mod_lt n (by omega))
    by_cases hq : n / 10 = 0
    · refine ⟨[Nat.digitChar (n % 10)], ?_, ?_, ?_⟩
      · simp [Nat.toDigitsCore, hq]
      · simp only [List.foldl_cons, List.foldl_nil, Nat.mul_zero, Nat.zero_add, hd.1]
        omega
      · intro c hc
        simp only [List.mem_singleton] at hc
        rw [hc]
        exact hd.2
    · obtain ⟨p, hp, hval, hchars⟩ := ih (n / 10) (Nat.digitChar (n % 10) :: ds) (by omega)
      refine ⟨p ++ [Nat.digitChar (n % 10)], ?_, ?_, ?_⟩
      · simp [Nat.toDigitsCore, hq, hp]
      · simp only [List.foldl_append, List.foldl_cons, List.foldl_nil, hval, hd.1]
        omega
      · intro c hc
        simp only [List.mem_append, List.mem_singleton] at hc
        rcases hc with hc | hc
        · exact hchars c hc
        · rw [hc]
          exact hd.2

/-- The decimal text of a number determines the number and has no hyphen. -/
theorem repr_spec (n : Nat) :
    (toString n).data.foldl (fun acc c => 10 * acc + (c.toNat - 48)) 0 = n ∧
      ∀ c ∈ (toString n).data, c ≠ '-' := by
  obtain ⟨p, hp, hval, hchars⟩ := toDigitsCore_spec (n + 1) n [] (by omega)
  have hdata : (toString n).data = p := by
    show (Nat.repr n).data = p
    simp only [Nat.repr, Nat.toDigits, hp, List.append_nil, List.asString]
  rw [hdata]
  exact ⟨hval, hchars⟩

theorem toString_nat_injective (a b : Nat) (h : toString a = toString b) : a = b := by
  have ha := (repr_spec a).1
  have hb := (repr_spec b).1
  rw [h] at ha
  omega

theorem split_at_last (c : Char) (xs : List Char) :
    ∀ (xs' ys ys' : List Char), c ∉ ys → c ∉ ys' → xs ++ c :: ys = xs' ++ c :: ys' →
      xs = xs' ∧ ys = ys' := by
  induction xs with
  | nil =>
    intro xs' ys ys' hy hy' h
    cases xs' with
    | nil =>
      simp only [List.nil_append, List.cons.injEq, true_and] at h
      exact ⟨rfl, h⟩
    | cons d t =>
      simp only [List.nil_append, List.cons_append, List.cons.injEq] at h
      exact absurd (by rw [h.2]; simp) hy
  | cons a u ih =>
    intro xs' ys ys' hy hy' h
    cases xs' with
    | nil =>
      simp only [List.nil_append, List.cons_append, List.cons.injEq] at h
      exact absurd (by rw [← h.2]; simp) hy'
    | cons d t =>
      simp only [List.cons_append, List.cons.injEq] at h
      obtain ⟨hu, hy⟩ := ih t ys ys' hy hy' h.2
      exact ⟨by rw [h.1, hu], hy⟩

/-- The id `${brand}-${index}` determines the brand and the index. -/
theorem id_injective (b b' : String) (j j' : Nat)
    (h : b ++ "-" ++ toString j = b' ++ "-" ++ toString j') : b = b' ∧ j = j' := by
  have hdata : b.data ++ '-' :: (toString j).data = b'.data ++ '-' :: (toString j').data := by
    have := congrArg String.data h
    simpa [String.data_append] using this
  obtain ⟨hb, hj⟩ := split_at_last '-' b.data b'.data _ _
    (fun hmem => (repr_spec j).2 _ hmem rfl) (fun hmem => (repr_spec j').2 _ hmem rfl) hdata
  refine ⟨String.ext hb, toString_nat_injective j j' (String.ext hj)⟩

theorem imageRecords_eq (up : Upstream) (brand : JVal) (imgs : List JVal) :
    ∀ (k : Nat) (records : List JVal), imageRecords up brand k imgs = Except.ok records →
      records = specRecords up brand k imgs := by
  induction imgs with
  | nil =>
    intro k records h
    simp only [imageRecords, Except.ok.injEq] at h
    subst h
    rfl
  | cons img rest ih =>
    intro k records h
    simp only [imageRecords] at h
    split at h
    · simp at h
    · rename_i url hurl
      split at h
      · simp at h
      · rename_i recs hrecs
        simp only [Except.ok.injEq] at h
        subst h
        have hval : url = img.prop "image_url" := by
          unfold getProp at hurl
          by_cases hn : img.isNullish = true
          · simp [hn] at hurl
          · simp only [hn, Bool.false_eq_true, if_false, Except.ok.injEq] at hurl
            exact hurl.symm
        rw [ih (k + 1) recs hrecs, hval]
        rfl

theorem specRecords_getElem? (up : Upstream) (brand : JVal) (imgs : List JVal) :
    ∀ (k j : Nat), (specRecords up brand k imgs)[j]? =
      (imgs[j]?).map (fun img => imageRecord up brand (k + j) (img.prop "image_url")) := by
  induction imgs with
  | nil => intro k j; simp [specRecords]
  | cons img rest ih =>
    intro k j
    cases j with
    | zero => simp [specRecords]
    | succ j =>
      simp only [specRecords, List.getElem?_cons_succ, ih]
      have : k + 1 + j = k + (j + 1) := by omega
      rw [this]

theorem specRecords_ids (up : Upstream) (brand : JVal) (imgs : List JVal) :
    ∀ k, idsOf (specRecords up brand k imgs) =
      (brandIds (brandText up brand) k imgs.length).map JVal.str := by
  induction imgs with
  | nil => intro k; rfl
  | cons img rest ih =>
    intro k
    have hrest := ih (k + 1)
    have hid : (imageRecord up brand k (img.prop "image_url")).prop "id" =
        JVal.str (brandText up brand ++ "-" ++ toString k) := by
      simp [imageRecord, JVal.prop, lookupField]
    simp only [idsOf] at hrest
    simp only [specRecords, idsOf, List.map_cons, brandIds, List.length_cons, hid, hrest]

theorem allImages_eq (up : Upstream) (rs : List BrandResult) :
    ∀ images, allImages up rs = Except.ok images → images = specImages up rs := by
  induction rs with
  | nil =>
    intro images h
    simp only [allImages, Except.ok.injEq] at h
    subst h
    rfl
  | cons r rest ih =>
    intro images h
    simp only [allImages] at h
    split at h
    · simp at h
    · rename_i records hrecords
      split at h
      · simp at h
      · rename_i others hothers
        simp only [Except.ok.injEq] at h
        subst h
        rw [ih others hothers]
        have hr : records = specResultImages up r := by
          unfold resultImages at hrecords
          unfold specResultImages
          split at hrecords
          · rename_i imgs himgs
            exact imageRecords_eq up r.brand imgs 0 records hrecords
          · simp at hrecords
        rw [hr]
        rfl

theorem specImages_ids (up : Upstream) (rs : List BrandResult) :
    idsOf (specImages up rs) = (specIds up rs).map JVal.str := by
  induction rs with
  | nil => rfl
  | cons r rest ih =>
    simp only [idsOf] at ih
    have hr : idsOf (specResultImages up r) = (resultIds up r).map JVal.str := by
      unfold specResultImages resultIds
      split
      · exact specRecords_ids up r.brand _ 0
      · rfl
    simp only [idsOf] at hr
    simp [specImages, specIds, idsOf, ih, hr]

theorem mem_brandIds (brand : String) (n : Nat) :
    ∀ (k : Nat) (x : String), x ∈ brandIds brand k n →
      ∃ j : Nat, x = brand ++ "-" ++ toString j := by
  induction n with
  | zero => intro k x h; simp [brandIds] at h
  | succ n ih =>
    intro k x h
    simp only [brandIds, List.mem_cons] at h
    rcases h with h | h
    · exact ⟨k, h⟩
    · exact ih (k + 1) x h

theorem brandIds_lower (brand : String) (n : Nat) :
    ∀ (k : Nat) (j : Nat), brand ++ "-" ++ toString j ∈ brandIds brand k n → k ≤ j := by
  induction n with
  | zero => intro k j h; simp [brandIds] at h
  | succ n ih =>
    intro k j h
    simp only [brandIds, List.mem_cons] at h
    rcases h with h | h
    · have := (id_injective brand brand j k h).2
      omega
    · have := ih (k + 1) j h
      omega

theorem brandIds_nodup (brand : String) (n : Nat) : ∀ k, (brandIds brand k n).Nodup := by
  induction n with
  | zero => intro k; simp [brandIds]
  | succ n ih =>
    intro k
    simp only [brandIds, List.nodup_cons]
    refine ⟨?_, ih (k + 1)⟩
    intro hmem
    have := brandIds_lower brand n (k + 1) k hmem
    omega

theorem mem_specIds (up : Upstream) (rs : List BrandResult) (x : String)
    (h : x ∈ specIds up rs) :
    ∃ r ∈ rs, ∃ j : Nat, x = brandText up r.brand ++ "-" ++ toString j := by
  induction rs with
  | nil => simp [specIds] at h
  | cons r rest ih =>
    simp only [specIds, List.mem_append] at h
    rcases h with h | h
    · unfold resultIds at h
      split at h
      · obtain ⟨j, hj⟩ := mem_brandIds _ _ 0 x h
        exact ⟨r, List.mem_cons_self _ _, j, hj⟩
      · simp at h
    · obtain ⟨r', hr', j, hj⟩ := ih h
      exact ⟨r', List.mem_cons_of_mem _ hr', j, hj⟩

/-- With pairwise distinct brand texts the ids of a response are pairwise
distinct. -/
theorem specIds_nodup (up : Upstream) (rs : List BrandResult)
    (h : (rs.map (fun r => brandText up r.brand)).Nodup) : (specIds up rs).Nodup := by
  induction rs with
  | nil => simp [specIds]
  | cons r rest ih =>
    simp only [List.map_cons, List.nodup_cons] at h
    simp only [specIds]
    rw [List.nodup_append]
    refine ⟨?_, ih h.2, ?_⟩
    · unfold resultIds
      split
      · exact brandIds_nodup _ _ 0
      · simp
    · intro x hx hx'
      have hthis : ∃ j : Nat, x = brandText up r.brand ++ "-" ++ toString j := by
        unfold resultIds at hx
        split at hx
        · exact mem_brandIds _ _ 0 x hx
        · simp at hx
      obtain ⟨j, hj⟩ := hthis
      obtain ⟨r', hr', j', hj'⟩ := mem_specIds up rest x hx'
      rw [hj] at hj'
      have hb := (id_injective _ _ j j' hj').1
      exact h.1 (by rw [hb]; exact List.mem_map_of_mem _ hr')

/-! ## The images handler -/

theorem fetchBrand_brand (up : Upstream) (k : Nat) (brand : JVal) (r : BrandResult)
    (h : fetchBrand up k brand = Except.ok r) : r.brand = brand := by
  unfold fetchBrand at h
  split at h
  · simp at h
  · split at h
    · split at h
      · simp only [Except.ok.injEq] at h
        rw [← h]
        rfl
      · simp at h
    · split at h
      · simp at h
      · split at h
        · simp at h
        · split at h <;> simp only [Except.ok.injEq] at h <;> subst h <;> rfl

theorem firstRejection_none (up : Upstream) (ps : List (Except String BrandResult)) :
    ∀ k, firstRejection up k ps = none ↔ ∀ p ∈ ps, ∃ r, p = Except.ok r := by
  induction ps with
  | nil => intro k; simp [firstRejection]
  | cons p rest ih =>
    intro k
    cases p with
    | ok r =>
      simp only [firstRejection, ih (k + 1), List.mem_cons, forall_eq_or_imp]
      constructor
      · intro h
        exact ⟨⟨r, rfl⟩, h⟩
      · intro h
        exact h.2
    | error m =>
      constructor
      · intro h
        simp only [firstRejection] at h
        split at h
        · simp at h
        · split at h <;> simp at h
      · intro h
        obtain ⟨r, hr⟩ := h (Except.error m) (List.mem_cons_self _ _)
        cases hr

theorem promiseAll_ok (up : Upstream) (ps : List (Except String BrandResult))
    (results : List BrandResult) (h : promiseAll up ps = Except.ok results) :
    results = fulfilled ps ∧ ∀ p ∈ ps, ∃ r, p = Except.ok r := by
  unfold promiseAll at h
  split at h
  · simp at h
  · rename_i hnone
    simp only [Except.ok.injEq] at h
    exact ⟨h.symm, (firstRejection_none up ps 0).mp hnone⟩

theorem promiseAll_error (up : Upstream) (ps : List (Except String BrandResult))
    (p : Except String BrandResult) (m : String) (hp : p ∈ ps) (hm : p = Except.error m) :
    ∃ message, promiseAll up ps = Except.error message := by
  unfold promiseAll
  split
  · exact ⟨_, rfl⟩
  · rename_i hnone
    obtain ⟨r, hr⟩ := (firstRejection_none up ps 0).mp hnone p hp
    rw [hm] at hr
    cases hr

theorem fetchBrands_getElem? (up : Upstream) (brands : List JVal) :
    ∀ (k j : Nat), (fetchBrands up k brands)[j]? =
      (brands[j]?).map (fun brand => fetchBrand up (k + j) brand) := by
  induction brands with
  | nil => intro k j; simp [fetchBrands]
  | cons b rest ih =>
    intro k j
    cases j with
    | zero => simp [fetchBrands]
    | succ j =>
      simp only [fetchBrands, List.getElem?_cons_succ, ih]
      have : k + 1 + j = k + (j + 1) := by omega
      rw [this]

theorem fulfilled_brands (up : Upstream) (brands : List JVal) :
    ∀ k, ((fulfilled (fetchBrands up k brands)).map (fun r => brandText up r.brand)).Sublist
      (brands.map (brandText up)) := by
  induction brands with
  | nil => intro k; simp [fetchBrands, fulfilled]
  | cons b rest ih =>
    intro k
    cases h : fetchBrand up k b with
    | error m =>
      simp only [fetchBrands, h, fulfilled, List.map_cons]
      exact List.Sublist.cons _ (ih (k + 1))
    | ok r =>
      simp only [fetchBrands, h, fulfilled, List.map_cons, fetchBrand_brand up k b r h]
      exact List.Sublist.cons₂ _ (ih (k + 1))

theorem fetchAllBrands_ok (up : Upstream) (brands : List JVal) (body : JVal)
    (h : fetchAllBrands up brands = Outcome.responded 200 body) :
    ∃ results images, promiseAll up (fetchBrands up 0 brands) = Except.ok results ∧
      allImages up (successfulResults results) = Except.ok images ∧
      body = imagesResponse up results images := by
  unfold fetchAllBrands at h
  split at h
  · simp at h
  · rename_i results hresults
    split at h
    · simp at h
    · rename_i images himages
      simp only [Outcome.responded.injEq, true_and] at h
      exact ⟨results, images, hresults, himages, h.symm⟩

theorem imagesHandler_run (up : Upstream) (req : ImagesRequest) (brands : List JVal)
    (hmethod : req.method = "GET") (hquery : req.query.isNullish = false)
    (htruthy : (req.query.prop "brands").truthy = true)
    (hbrands : brandList (req.query.prop "brands") = Except.ok brands) :
    imagesHandler up req = (fetchAllBrands up brands, brands.map (brandUrl up)) := by
  unfold imagesHandler
  simp [hmethod, hquery, htruthy, hbrands]

theorem mem_setField_cases (fields : List (String × JVal)) (k : String) (x : JVal)
    (kv : String × JVal) (h : kv ∈ setField fields k x) : kv ∈ fields ∨ kv.1 = k := by
  induction fields with
  | nil =>
    simp only [setField, List.mem_singleton] at h
    right
    rw [h]
  | cons head rest ih =>
    obtain ⟨k', v⟩ := head
    by_cases hk : k' = k
    · simp only [setField, hk, if_true, List.mem_cons] at h
      rcases h with h | h
      · right
        rw [h]
      · left
        exact List.mem_cons_of_mem _ h
    · simp only [setField, hk, if_false, List.mem_cons] at h
      rcases h with h | h
      · left
        rw [h]
        exact List.mem_cons_self _ _
      · rcases ih h with h' | h'
        · left
          exact List.mem_cons_of_mem _ h'
        · right
          exact h'

theorem brandCounts_keys (up : Upstream) (rs : List BrandResult) :
    ∀ (acc : List (String × JVal)) (kv : String × JVal),
      kv ∈ rs.foldl (fun acc r => setField acc (brandText up r.brand) r.count) acc →
      kv ∈ acc ∨ ∃ r ∈ rs, kv.1 = brandText up r.brand := by
  induction rs with
  | nil => intro acc kv h; left; exact h
  | cons r rest ih =>
    intro acc kv h
    simp only [List.foldl_cons] at h
    rcases ih _ kv h with h' | ⟨r', hr', hkey⟩
    · rcases mem_setField_cases acc _ _ kv h' with h'' | h''
      · left
        exact h''
      · right
        exact ⟨r, List.mem_cons_self _ _, h''⟩
    · right
      exact ⟨r', List.mem_cons_of_mem _ hr', hkey⟩

/-! ## C22: image ids -/

/-- C22, counterexample: with `brands=nike,nike` the handler answers 200 with
four images whose ids are `nike-0`, `nike-1`, `nike-0`, `nike-1`: a repeated
brand key repeats its ids. -/
theorem image_ids_unique_counterexample :
    ∃ body images,
      (imagesHandler sampleUpstream (brandsRequest (JVal.str "nike,nike"))).1 =
        Outcome.responded 200 body ∧
      body.prop "images" = JVal.arr images ∧
      body.prop "totalImages" = natVal 4 ∧
      idsOf images =
        [JVal.str "nike-0", JVal.str "nike-1", JVal.str "nike-0", JVal.str "nike-1"] ∧
      ¬ (idsOf images).Nodup := by
  refine ⟨_, _, rfl, rfl, rfl, rfl, ?_⟩
  intro h
  have h' : [JVal.str "nike-0", JVal.str "nike-1", JVal.str "nike-0",
      JVal.str "nike-1"].Nodup := h
  simp at h'

/-- C22, amended: for a `GET` whose `brands` parameter lists pairwise
distinct brand keys, a 200 answer carries one record per image of every
successful brand, in order; the ids of the records are pairwise distinct
strings, `totalImages` is the number of records, and the record at position
`j` of a brand has the id `${brand}-${j}` and `originalIndex` `j`. -/
theorem image_ids_unique (up : Upstream) (req : ImagesRequest) (keys : List String)
    (body : JVal) (hmethod : req.method = "GET")
    (hbrands : brandList (req.query.prop "brands") = Except.ok (keys.map JVal.str))
    (hnodup : keys.Nodup)
    (hresp : (imagesHandler up req).1 = Outcome.responded 200 body) :
    ∃ results,
      promiseAll up (fetchBrands up 0 (keys.map JVal.str)) = Except.ok results ∧
      body.prop "images" = JVal.arr (specImages up (successfulResults results)) ∧
      body.prop "totalImages" =
        natVal (specImages up (successfulResults results)).length ∧
      idsOf (specImages up (successfulResults results)) =
        (specIds up (successfulResults results)).map JVal.str ∧
      (specIds up (successfulResults results)).Nodup ∧
      ∀ r ∈ successfulResults results, ∀ imgs, r.images = JVal.arr imgs →
        ∀ (j : Nat) (img : JVal), imgs[j]? = some img →
          (specResultImages up r)[j]? =
            some (imageRecord up r.brand j (img.prop "image_url")) ∧
          (imageRecord up r.brand j (img.prop "image_url")).prop "id" =
            JVal.str (brandText up r.brand ++ "-" ++ toString j) ∧
          (imageRecord up r.brand j (img.prop "image_url")).prop "originalIndex" =
            natVal j := by
  have hrun : (imagesHandler up req).1 = fetchAllBrands up (keys.map JVal.str) := by
    by_cases hq : req.query.isNullish = true
    · rw [imagesHandler] at hresp
      simp [hmethod, hq] at hresp
    · by_cases ht : (req.query.prop "brands").truthy = true
      · rw [imagesHandler_run up req _ hmethod (by simpa using hq) ht hbrands]
      · rw [imagesHandler] at hresp
        simp [hmethod, hq, ht] at hresp
  rw [hrun] at hresp
  obtain ⟨results, images, hall, himages, hbody⟩ := fetchAllBrands_ok up _ body hresp
  have heq := allImages_eq up _ images himages
  subst heq
  obtain ⟨hful, -⟩ := promiseAll_ok up _ results hall
  have hsub : ((successfulResults results).map (fun r => brandText up r.brand)).Sublist
      keys := by
    have hkeys : (keys.map JVal.str).map (brandText up) = keys := by
      rw [List.map_map]
      have : brandText up ∘ JVal.str = id := by
        funext s
        rfl
      rw [this, List.map_id]
    have h1 := fulfilled_brands up (keys.map JVal.str) 0
    rw [← hful, hkeys] at h1
    exact (List.Sublist.map _ (List.filter_sublist results)).trans h1
  refine ⟨results, hall, ?_, ?_, specImages_ids up _, specIds_nodup up _ (hnodup.sublist hsub),
    ?_⟩
  · rw [hbody]
    rfl
  · rw [hbody]
    rfl
  · intro r _ imgs himgs j img hj
    refine ⟨?_, rfl, rfl⟩
    simp only [specResultImages, himgs]
    rw [specRecords_getElem?, hj]
    simp

/-- C22, witness: the request `brands=nike,puma` against the sample
upstream. -/
theorem image_ids_unique_witness :
    ∃ results,
      promiseAll sampleUpstream (fetchBrands sampleUpstream 0 (["nike", "puma"].map JVal.str)) =
        Except.ok results ∧
      (specIds sampleUpstream (successfulResults results)).Nodup :=
  let ⟨results, h, _, _, _, hn, _⟩ :=
    image_ids_unique sampleUpstream (brandsRequest (JVal.str "nike,puma")) ["nike", "puma"]
      (imagesResponse sampleUpstream
        [{ brand := JVal.str "nike",
           images := JVal.arr [JVal.obj [("image_url", JVal.str "http://img/a.jpg")],
             JVal.obj [("image_url", JVal.str "http://img/c.jpg")]],
           count := natVal 2, error := JVal.undefined },
         { brand := JVal.str "puma",
           images := JVal.arr [JVal.obj [("image_url", JVal.str "http://img/b.jpg")]],
           count := natVal 1, error := JVal.undefined }]
        [imageRecord sampleUpstream (JVal.str "nike") 0 (JVal.str "http://img/a.jpg"),
         imageRecord sampleUpstream (JVal.str "nike") 1 (JVal.str "http://img/c.jpg"),
         imageRecord sampleUpstream (JVal.str "puma") 0 (JVal.str "http://img/b.jpg")])
      rfl rfl (by decide) rfl
  ⟨results, h, hn⟩

/-! ## C25: failed brands -/

theorem fetchBrand_hard (up : Upstream) (k : Nat) (brand : JVal)
    (h : (∃ m, up.fetch k (brandUrl up brand) = FetchResult.failure m) ∨
      ∃ resp, up.fetch k (brandUrl up brand) = FetchResult.response resp ∧
        resp.ok = false ∧ resp.status ≠ 404 ∧ resp.status ≠ 400) :
    ∃ m, fetchBrand up k brand = Except.error m := by
  rcases h with ⟨m, hm⟩ | ⟨resp, hresp, hok, h404, h400⟩
  · exact ⟨m, by simp [fetchBrand, hm]⟩
  · exact ⟨"Failed to fetch " ++ brandText up brand ++ " images: " ++ resp.statusText,
      by simp [fetchBrand, hresp, hok, h404, h400]⟩

theorem classified_once (results : List BrandResult) (r : BrandResult) (hr : r ∈ results) :
    (r ∈ failedResults results ∧ r ∉ successfulResults results ∧ r.error.truthy = true) ∨
    (r ∈ successfulResults results ∧ r ∉ failedResults results ∧ r.error.truthy = false) := by
  cases h : r.error.truthy
  · right
    simp [successfulResults, failedResults, hr, h]
  · left
    simp [successfulResults, failedResults, hr, h]

/-- C25: in the images handler a brand whose upstream call answers 404 or
400, or whose payload has a falsy `success` and an error, resolves to a
failed result without images; when every brand resolves (and the images of
the successful ones can be mapped) the answer is 200 with `success: true`,
with images and `brandCounts` built from the successful results only and
`failedBrands` listing every failed result with its error, each result being
in exactly one of the two groups. A transport error or any other non-OK
status for a single brand gives 500 with `success: false` and no `images`. -/
theorem brand_failures (up : Upstream) (req : ImagesRequest) (brands : List JVal)
    (hmethod : req.method = "GET") (hquery : req.query.isNullish = false)
    (htruthy : (req.query.prop "brands").truthy = true)
    (hbrands : brandList (req.query.prop "brands") = Except.ok brands) :
    (∀ (k : Nat) (brand : JVal) (resp : FetchResponse),
      up.fetch k (brandUrl up brand) = FetchResult.response resp →
      resp.status = 404 ∨ resp.status = 400 →
      ∃ r, fetchBrand up k brand = Except.ok r ∧ r.brand = brand ∧
        r.images = JVal.arr [] ∧ r.count = natVal 0 ∧
        r.error = JVal.str ("Brand '" ++ brandText up brand ++ "' not available") ∧
        r.error.truthy = true) ∧
    (∀ (k : Nat) (brand : JVal) (resp : FetchResponse) (data : JVal),
      up.fetch k (brandUrl up brand) = FetchResult.response resp →
      resp.ok = true → resp.json = Except.ok data → data.isNullish = false →
      (data.prop "success").truthy = false → (data.prop "error").truthy = true →
      ∃ r, fetchBrand up k brand = Except.ok r ∧ r.brand = brand ∧
        r.images = JVal.arr [] ∧ r.count = natVal 0 ∧
        r.error = data.prop "error" ∧ r.error.truthy = true) ∧
    (∀ (results : List BrandResult) (images : List JVal),
      promiseAll up (fetchBrands up 0 brands) = Except.ok results →
      allImages up (successfulResults results) = Except.ok images →
      ∃ body, (imagesHandler up req).1 = Outcome.responded 200 body ∧
        body.prop "success" = JVal.bool true ∧
        body.prop "images" = JVal.arr (specImages up (successfulResults results)) ∧
        body.prop "brandCounts" = JVal.obj (brandCounts up (successfulResults results)) ∧
        (∀ kv ∈ brandCounts up (successfulResults results),
          ∃ r ∈ successfulResults results, kv.1 = brandText up r.brand) ∧
        body.prop "failedBrands" = JVal.arr ((failedResults results).map failedEntry) ∧
        (∀ r ∈ failedResults results,
          (failedEntry r).prop "brand" = r.brand ∧ (failedEntry r).prop "error" = r.error) ∧
        ∀ r ∈ results,
          (r ∈ failedResults results ∧ r ∉ successfulResults results ∧
            r.error.truthy = true) ∨
          (r ∈ successfulResults results ∧ r ∉ failedResults results ∧
            r.error.truthy = false)) ∧
    (∀ (j : Nat) (brand : JVal), brands[j]? = some brand →
      ((∃ m, up.fetch j (brandUrl up brand) = FetchResult.failure m) ∨
        ∃ resp, up.fetch j (brandUrl up brand) = FetchResult.response resp ∧
          resp.ok = false ∧ resp.status ≠ 404 ∧ resp.status ≠ 400) →
      ∃ body, (imagesHandler up req).1 = Outcome.responded 500 body ∧
        body.prop "success" = JVal.bool false ∧
        body.prop "images" = JVal.undefined) := by
  have hrun := imagesHandler_run up req brands hmethod hquery htruthy hbrands
  refine ⟨?_, ?_, ?_, ?_⟩
  · intro k brand resp hfetch hstatus
    have hok : resp.ok = false := by
      rcases hstatus with h | h <;> simp [FetchResponse.ok, h]
    refine ⟨failedBrand brand (JVal.str ("Brand '" ++ brandText up brand ++
      "' not available")), ?_, rfl, rfl, rfl, rfl, ?_⟩
    · simp [fetchBrand, hfetch, hok, hstatus]
    · have hne : "Brand '" ++ brandText up brand ++ "' not available" ≠ "" := by
        intro h
        have hlen := congrArg String.length h
        simp only [String.length_append] at hlen
        have : ("Brand '").length = 7 := by decide
        have : ("").length = 0 := by decide
        omega
      simp [failedBrand, JVal.truthy, hne]
  · intro k brand resp data hfetch hok hjson hdata hsuccess herror
    refine ⟨failedBrand brand (data.prop "error"), ?_, rfl, rfl, rfl, rfl, herror⟩
    have hget : getProp data "success" = Except.ok (data.prop "success") := by
      simp [getProp, hdata]
    simp [fetchBrand, hfetch, hok, hjson, hget, hsuccess, herror]
  · intro results images hall himages
    have heq := allImages_eq up _ images himages
    subst heq
    refine ⟨imagesResponse up results _, ?_, rfl, rfl, rfl, ?_, rfl, ?_, ?_⟩
    · rw [hrun]
      simp [fetchAllBrands, hall, himages]
    · intro kv hkv
      rcases brandCounts_keys up _ [] kv hkv with h | h
      · simp at h
      · exact h
    · intro r _
      exact ⟨rfl, rfl⟩
    · intro r hr
      exact classified_once results r hr
  · intro j brand hj hhard
    obtain ⟨m, hm⟩ := fetchBrand_hard up j brand hhard
    have hget : (fetchBrands up 0 brands)[j]? = some (Except.error m) := by
      rw [fetchBrands_getElem?, hj]
      simp [hm]
    have hmem : Except.error m ∈ fetchBrands up 0 brands := List.getElem?_mem hget
    obtain ⟨message, hmessage⟩ := promiseAll_error up _ _ m hmem rfl
    refine ⟨imagesFailure message, ?_, rfl, rfl⟩
    rw [hrun]
    simp [fetchAllBrands, hmessage]


/-- C25, witness: the request `brands=nike,ghost,puma` against the sample
upstream, which answers 404 for `ghost`: the answer is 200 with
`success: true` and `ghost` is the only entry of `failedBrands`. -/
theorem brand_failures_witness :
    ∃ body,
      (imagesHandler sampleUpstream (brandsRequest (JVal.str "nike,ghost,puma"))).1 =
        Outcome.responded 200 body ∧
      body.prop "success" = JVal.bool true ∧
      body.prop "failedBrands" =
        JVal.arr ((failedResults (fulfilled (fetchBrands sampleUpstream 0
          [JVal.str "nike", JVal.str "ghost", JVal.str "puma"]))).map failedEntry) :=
  let ⟨body, h, hs, _, _, _, hf, _⟩ :=
    (brand_failures sampleUpstream (brandsRequest (JVal.str "nike,ghost,puma"))
      [JVal.str "nike", JVal.str "ghost", JVal.str "puma"] rfl rfl rfl rfl).2.2.1
      (fulfilled (fetchBrands sampleUpstream 0
        [JVal.str "nike", JVal.str "ghost", JVal.str "puma"]))
      (specImages sampleUpstream (successfulResults (fulfilled (fetchBrands sampleUpstream 0
        [JVal.str "nike", JVal.str "ghost", JVal.str "puma"]))))
      rfl rfl
  ⟨body, h, hs, hf⟩

/-! ## C24: the similarity matrix -/

theorem numbersOf_map (v : List ℚ) : numbersOf (v.map JVal.num) = some v := by
  induction v with
  | nil => rfl
  | cons q rest ih => simp [numbersOf, ih]

theorem embeddingsOf_of_map (embeddings : List JVal) :
    ∀ vs : List (List ℚ),
      embeddings.map (fun e => e.prop "embedding") =
        vs.map (fun v => JVal.arr (v.map JVal.num)) →
      embeddingsOf embeddings = some vs := by
  induction embeddings with
  | nil =>
    intro vs h
    cases vs with
    | nil => rfl
    | cons v rest => simp at h
  | cons e rest ih =>
    intro vs h
    cases vs with
    | nil => simp at h
    | cons v others =>
      simp only [List.map_cons, List.cons.injEq] at h
      simp [embeddingsOf, embeddingOf, h.1, numbersOf_map, ih others h.2]

theorem dot_zero_left (z : List ℚ) (hz : ∀ x ∈ z, x = 0) : ∀ b, dot z b = 0 := by
  induction z with
  | nil => intro b; simp [dot]
  | cons x rest ih =>
    intro b
    cases b with
    | nil => simp [dot]
    | cons y others =>
      have hx : x = 0 := hz x (List.mem_cons_self _ _)
      have hrest := ih (fun u hu => hz u (List.mem_cons_of_mem _ hu)) others
      simp [dot, hx, hrest]

theorem dot_zero_right (z : List ℚ) (hz : ∀ x ∈ z, x = 0) : ∀ a, dot a z = 0 := by
  induction z with
  | nil => intro a; cases a <;> simp [dot]
  | cons x rest ih =>
    intro a
    cases a with
    | nil => simp [dot]
    | cons y others =>
      have hx : x = 0 := hz x (List.mem_cons_self _ _)
      have hrest := ih (fun u hu => hz u (List.mem_cons_of_mem _ hu)) others
      simp [dot, hx, hrest]

theorem cosineSimilarity_zero_left (sqrt : ℚ → ℚ) (z b : List ℚ) (hz : ∀ x ∈ z, x = 0) :
    cosineSimilarity sqrt z b = 0 := by
  unfold cosineSimilarity
  split
  · rfl
  · rw [dot_zero_left z hz b, zero_div]

theorem cosineSimilarity_zero_right (sqrt : ℚ → ℚ) (a z : List ℚ) (hz : ∀ x ∈ z, x = 0) :
    cosineSimilarity sqrt a z = 0 := by
  unfold cosineSimilarity
  split
  · rfl
  · rw [dot_zero_right z hz a, zero_div]

theorem matrixEntry_symm (sqrt : ℚ → ℚ) (vs : List (List ℚ)) (i j : Nat) :
    matrixEntry sqrt vs i j = matrixEntry sqrt vs j i := by
  unfold matrixEntry
  rcases Nat.lt_trichotomy i j with h | h | h
  · have h1 : i ≠ j := by omega
    have h2 : j ≠ i := by omega
    have h3 : ¬ j < i := by omega
    simp [h, h1, h2, h3]
  · simp [h]
  · have h1 : i ≠ j := by omega
    have h2 : j ≠ i := by omega
    have h3 : ¬ i < j := by omega
    simp [h, h1, h2, h3]

theorem matrixEntry_zero (sqrt : ℚ → ℚ) (vs : List (List ℚ)) (i j : Nat) (z : List ℚ)
    (hij : i ≠ j) (hi : vs[i]? = some z) (hz : ∀ x ∈ z, x = 0) :
    matrixEntry sqrt vs i j = 0 := by
  have hget : vs.getD i [] = z := by simp [List.getD, hi]
  unfold matrixEntry
  rw [hget]
  by_cases h : i < j
  · simp only [hij, h, if_true, if_false]
    exact cosineSimilarity_zero_left sqrt z _ hz
  · simp only [hij, h, if_false]
    exact cosineSimilarity_zero_right sqrt _ z hz

theorem similarityAt_table (n : Nat) (f : Nat → Nat → JVal) (i j : Nat) (hi : i < n)
    (hj : j < n) :
    similarityAt ((List.range n).map (fun i => (List.range n).map (fun j => f i j))) i j =
      f i j := by
  simp [similarityAt, List.getD, hi, hj]

/-- C24: for a non-empty list of fingerprints whose embeddings are numeric
vectors of one length, `computeSimilarityMatrix` returns a matrix with `N`
rows of `N` entries that is symmetric and has `1` on the diagonal, and every
entry off the diagonal that involves a zero vector is `0`. -/
theorem similarity_matrix_properties (sqrt : ℚ → ℚ) (embeddings : List JVal)
    (vs : List (List ℚ)) (L : Nat) (hne : embeddings ≠ [])
    (hvec : embeddings.map (fun e => e.prop "embedding") =
      vs.map (fun v => JVal.arr (v.map JVal.num)))
    (hlen : ∀ v ∈ vs, v.length = L) :
    ∃ matrix, computeSimilarityMatrix sqrt embeddings = Except.ok matrix ∧
      matrix.length = embeddings.length ∧
      (∀ row ∈ matrix, row.length = embeddings.length) ∧
      (∀ (i j : Nat), i < embeddings.length → j < embeddings.length →
        similarityAt matrix i j = similarityAt matrix j i) ∧
      (∀ (i : Nat), i < embeddings.length → similarityAt matrix i i = JVal.num 1) ∧
      ∀ (i j : Nat) (z : List ℚ), i < embeddings.length → j < embeddings.length → i ≠ j →
        vs[i]? = some z → (∀ x ∈ z, x = 0) →
        similarityAt matrix i j = JVal.num 0 ∧ similarityAt matrix j i = JVal.num 0 := by
  have hN : vs.length = embeddings.length := by
    have := congrArg List.length hvec
    simpa using this.symm
  have hall : vs.all (fun v => decide (v.length = (vs.headD []).length)) = true := by
    rw [List.all_eq_true]
    intro v hv
    cases vs with
    | nil => simp at hv
    | cons w rest =>
      simp only [List.headD_cons, decide_eq_true_eq]
      rw [hlen v hv, hlen w (List.mem_cons_self _ _)]
  have hrun : computeSimilarityMatrix sqrt embeddings =
      Except.ok ((List.range vs.length).map (fun i =>
        (List.range vs.length).map (fun j => JVal.num (matrixEntry sqrt vs i j)))) := by
    cases embeddings with
    | nil => exact absurd rfl hne
    | cons e rest =>
      simp only [computeSimilarityMatrix, embeddingsOf_of_map _ vs hvec, hall, if_true]
  refine ⟨_, hrun, ?_, ?_, ?_, ?_, ?_⟩
  · simp [hN]
  · intro row hrow
    simp only [List.mem_map] at hrow
    obtain ⟨i, -, hi⟩ := hrow
    rw [← hi]
    simp [hN]
  · intro i j hi hj
    rw [← hN] at hi hj
    rw [similarityAt_table _ (fun i j => JVal.num (matrixEntry sqrt vs i j)) i j hi hj,
      similarityAt_table _ (fun i j => JVal.num (matrixEntry sqrt vs i j)) j i hj hi,
      matrixEntry_symm]
  · intro i hi
    rw [← hN] at hi
    rw [similarityAt_table _ (fun i j => JVal.num (matrixEntry sqrt vs i j)) i i hi hi]
    simp [matrixEntry]
  · intro i j z hi hj hij hz hzero
    rw [← hN] at hi hj
    rw [similarityAt_table _ (fun i j => JVal.num (matrixEntry sqrt vs i j)) i j hi hj,
      similarityAt_table _ (fun i j => JVal.num (matrixEntry sqrt vs i j)) j i hj hi,
      matrixEntry_symm sqrt vs j i, matrixEntry_zero sqrt vs i j z hij hz hzero]
    exact ⟨rfl, rfl⟩

/-- C24, witness: three fingerprints of length 2, the second being the zero
vector. -/
theorem similarity_matrix_properties_witness :
    ∃ matrix, computeSimilarityMatrix squareRoot sampleFingerprints = Except.ok matrix ∧
      matrix.length = 3 ∧
      similarityAt matrix 0 2 = similarityAt matrix 2 0 ∧
      similarityAt matrix 2 2 = JVal.num 1 ∧
      similarityAt matrix 1 2 = JVal.num 0 :=
  let ⟨matrix, h, hlen, _, hsymm, hdiag, hzero⟩ :=
    similarity_matrix_properties squareRoot sampleFingerprints [[3, 4], [0, 0], [4, 3]] 2
      (by simp [sampleFingerprints]) rfl (by simp)
  ⟨matrix, h, hlen, hsymm 0 2 (by decide) (by decide), hdiag 2 (by decide),
    (hzero 1 2 [0, 0] (by decide) (by decide) (by decide) rfl (by simp)).1⟩

/-! ## C23: the clusters partition the images -/

theorem union_length (labels : List Nat) (i j : Nat) :
    (union labels i j).length = labels.length := by
  simp [union]

theorem scan_length (matrix : List (List JVal)) (threshold : JVal)
    (pairs : List (Nat × Nat)) :
    ∀ labels : List Nat,
      (pairs.foldl
        (fun labels p =>
          if isEdge matrix threshold p.1 p.2 then union labels p.1 p.2 else labels)
        labels).length = labels.length := by
  induction pairs with
  | nil => intro labels; rfl
  | cons p rest ih =>
    intro labels
    simp only [List.foldl_cons]
    rw [ih]
    split
    · exact union_length labels p.1 p.2
    · rfl

theorem componentLabels_length (n : Nat) (matrix : List (List JVal)) (threshold : JVal) :
    (componentLabels n matrix threshold).length = n := by
  unfold componentLabels
  rw [scan_length]
  simp

theorem leader_exists (labels : List Nat) :
    ∀ x, x < labels.length →
      ∃ i ∈ leaders labels, labelOf labels i = labelOf labels x := by
  intro x
  induction x using Nat.strong_induction_on with
  | _ x ih =>
    intro hx
    by_cases hlead : (List.range x).all
        (fun k => decide (labelOf labels k ≠ labelOf labels x)) = true
    · refine ⟨x, ?_, rfl⟩
      simp only [leaders, List.mem_filter, List.mem_range]
      exact ⟨hx, hlead⟩
    · simp only [List.all_eq_true, List.mem_range, decide_eq_true_eq, not_forall,
        Classical.not_imp, not_not] at hlead
      obtain ⟨k, hk, hlabel⟩ := hlead
      obtain ⟨i, hi, hil⟩ := ih k hk (by omega)
      exact ⟨i, hi, hil.trans hlabel⟩

theorem leaders_disjoint (labels : List Nat) :
    List.Pairwise (fun a b => List.Disjoint (membersOf labels a) (membersOf labels b))
      (leaders labels) := by
  have hlt : List.Pairwise (fun a b => a < b) (leaders labels) :=
    List.Pairwise.filter _ (List.pairwise_lt_range _)
  refine List.Pairwise.imp_of_mem ?_ hlt
  intro a b _ hb hab x hxa hxb
  simp only [membersOf, List.mem_filter, decide_eq_true_eq] at hxa hxb
  simp only [leaders, List.mem_filter, List.all_eq_true, List.mem_range,
    decide_eq_true_eq] at hb
  exact hb.2 a hab (hxa.2.symm.trans hxb.2)

theorem components_perm (labels : List Nat) :
    (components labels).flatten.Perm (List.range labels.length) := by
  have hnodup : (components labels).flatten.Nodup := by
    rw [List.nodup_flatten]
    constructor
    · intro l hl
      simp only [components, List.mem_map] at hl
      obtain ⟨i, -, hi⟩ := hl
      rw [← hi]
      exact List.Nodup.filter _ (List.nodup_range _)
    · exact List.pairwise_map.2 (leaders_disjoint labels)
  refine (List.perm_ext_iff_of_nodup hnodup (List.nodup_range _)).2 ?_
  intro x
  simp only [components, List.mem_flatten, List.mem_map, List.mem_range]
  constructor
  · rintro ⟨l, ⟨i, -, hi⟩, hx⟩
    rw [← hi] at hx
    simp only [membersOf, List.mem_filter, List.mem_range] at hx
    exact hx.1
  · intro hx
    obtain ⟨i, hi, hil⟩ := leader_exists labels x hx
    refine ⟨membersOf labels i, ⟨i, hi, rfl⟩, ?_⟩
    simp only [membersOf, List.mem_filter, List.mem_range, decide_eq_true_eq]
    exact ⟨hx, hil.symm⟩

theorem components_nonempty (labels : List Nat) :
    ∀ members ∈ components labels, members ≠ [] := by
  intro members hm
  simp only [components, List.mem_map] at hm
  obtain ⟨i, hi, hmem⟩ := hm
  have hin : i ∈ membersOf labels i := by
    simp only [leaders, List.mem_filter, List.mem_range] at hi
    simp only [membersOf, List.mem_filter, List.mem_range, decide_True, and_true]
    exact hi.1
  rw [← hmem]
  exact List.ne_nil_of_mem hin

theorem map_getD_range (images : List JVal) (f : JVal → JVal) :
    (List.range images.length).map (fun j => f (images.getD j JVal.undefined)) =
      images.map f := by
  apply List.ext_getElem?
  intro j
  by_cases hj : j < images.length
  · simp [List.getElem?_map, List.getElem?_range hj, List.getD, List.getElem?_eq_getElem hj]
  · have hj' : images.length ≤ j := by omega
    simp [List.getElem?_eq_none, hj']

theorem clusterIds_map (images : List JVal) (matrix : List (List JVal))
    (parts : List (List Nat)) :
    clusterIds (parts.map (clusterOf images matrix)) =
      parts.flatten.map (fun j => (images.getD j JVal.undefined).prop "id") := by
  induction parts with
  | nil => rfl
  | cons p rest ih =>
    simp only [clusterIds, List.map_cons, List.flatMap_cons, List.flatten_cons,
      List.map_append] at ih ⊢
    rw [ih]
    simp [clusterOf, clusterImage]

theorem sizes_map (images : List JVal) (matrix : List (List JVal))
    (parts : List (List Nat)) :
    ((parts.map (clusterOf images matrix)).map (fun c => c.images.length)).sum =
      parts.flatten.length := by
  induction parts with
  | nil => rfl
  | cons p rest ih =>
    simp only [List.map_cons, List.sum_cons, List.flatten_cons, List.length_append, ih]
    simp [clusterOf]

/-- Scenario A of the specification: at the threshold 0.88 the three images
form one component, through the second image. -/
theorem scenario_a_components :
    components (componentLabels 3 scenarioMatrix (JVal.num (88 / 100))) = [[0, 1, 2]] := by
  have h01 : isEdge scenarioMatrix (JVal.num (88 / 100)) 0 1 = true := by
    simp [isEdge, similarityAt, scenarioMatrix, tripleMatrix]
    norm_num
  have h02 : isEdge scenarioMatrix (JVal.num (88 / 100)) 0 2 = false := by
    simp [isEdge, similarityAt, scenarioMatrix, tripleMatrix]
    norm_num
  have h12 : isEdge scenarioMatrix (JVal.num (88 / 100)) 1 2 = true := by
    simp [isEdge, similarityAt, scenarioMatrix, tripleMatrix]
    norm_num
  have hlabels : componentLabels 3 scenarioMatrix (JVal.num (88 / 100)) = [0, 0, 0] := by
    have hp : indexPairs 3 = [(0, 1), (0, 2), (1, 2)] := by decide
    simp only [componentLabels, hp, List.foldl_cons, List.foldl_nil, h01, h02, h12, if_true]
    decide
  rw [hlabels]
  decide

/-- Scenario B of the specification: at the threshold 0.93 the third image
stands alone. -/
theorem scenario_b_components :
    components (componentLabels 3 scenarioMatrix (JVal.num (93 / 100))) = [[0, 1], [2]] := by
  have h01 : isEdge scenarioMatrix (JVal.num (93 / 100)) 0 1 = true := by
    simp [isEdge, similarityAt, scenarioMatrix, tripleMatrix]
    norm_num
  have h02 : isEdge scenarioMatrix (JVal.num (93 / 100)) 0 2 = false := by
    simp [isEdge, similarityAt, scenarioMatrix, tripleMatrix]
    norm_num
  have h12 : isEdge scenarioMatrix (JVal.num (93 / 100)) 1 2 = false := by
    simp [isEdge, similarityAt, scenarioMatrix, tripleMatrix]
    norm_num
  have hlabels : componentLabels 3 scenarioMatrix (JVal.num (93 / 100)) = [0, 0, 2] := by
    have hp : indexPairs 3 = [(0, 1), (0, 2), (1, 2)] := by decide
    simp only [componentLabels, hp, List.foldl_cons, List.foldl_nil, h01, h02, h12, if_true]
    decide
  rw [hlabels]
  decide

/-- C23: for every image list, matrix and threshold, `clusterSimilarImages`
returns clusters, none of them empty, whose sizes sum to the number of images
and whose image ids taken together are a rearrangement of the ids of the
input images: each input position occurs in exactly one cluster, and when the
input ids are pairwise distinct no id occurs twice among the clusters. -/
theorem clusters_partition (images : List JVal) (matrix : List (List JVal))
    (threshold : JVal) :
    ∃ (clusters : List Cluster) (parts : List (List Nat)),
      clusterSimilarImages images matrix threshold = Except.ok clusters ∧
      (clusters.map (fun c => c.images.length)).sum = images.length ∧
      (∀ c ∈ clusters, c.images ≠ []) ∧
      (clusterIds clusters).Perm (images.map (fun img => img.prop "id")) ∧
      ((images.map (fun img => img.prop "id")).Nodup → (clusterIds clusters).Nodup) ∧
      parts.flatten.Perm (List.range images.length) ∧
      clusters.map (fun c => c.images.map (fun image => image.id)) =
        parts.map (fun members =>
          members.map (fun j => (images.getD j JVal.undefined).prop "id")) := by
  have hlen := componentLabels_length images.length matrix threshold
  have hperm := components_perm (componentLabels images.length matrix threshold)
  rw [hlen] at hperm
  have hids : (clusterIds ((components (componentLabels images.length matrix
      threshold)).map (clusterOf images matrix))).Perm
      (images.map (fun img => img.prop "id")) := by
    rw [clusterIds_map, ← map_getD_range images (fun img => img.prop "id")]
    exact hperm.map _
  refine ⟨_, components (componentLabels images.length matrix threshold), rfl, ?_, ?_, hids,
    hids.nodup_iff.2, hperm, ?_⟩
  · rw [sizes_map, hperm.length_eq, List.length_range]
  · intro c hc
    simp only [List.mem_map] at hc
    obtain ⟨members, hm, hcm⟩ := hc
    rw [← hcm]
    simp only [clusterOf, ne_eq, List.map_eq_nil_iff]
    exact components_nonempty _ members hm
  · simp [clusterOf, clusterImage, List.map_map, Function.comp_def]

/-- C23, witness: Scenario A of the specification, three images whose
similarities are 0.95, 0.92 and 0.80, at the threshold 0.88. -/
theorem clusters_partition_witness :
    ∃ clusters : List Cluster,
      clusterSimilarImages tripleImages scenarioMatrix (JVal.num (88 / 100)) =
        Except.ok clusters ∧
      (clusters.map (fun c => c.images.length)).sum = 3 ∧
      (clusterIds clusters).Perm [JVal.str "nike-0", JVal.str "puma-0", JVal.str "puma-1"] :=
  let ⟨clusters, _, h, hsum, _, hids, _⟩ :=
    clusters_partition tripleImages scenarioMatrix (JVal.num (88 / 100))
  ⟨clusters, h, hsum, hids⟩

end ImageDedup
